import Mathlib

/-!
# jenkins_jr: post lifecycle, category ledger and like counter

A shallow embedding of `pkg/jenkins_jr` (post.go, category.go, post_like.go,
post_tag.go, post_image.go, history.go, influencer.go, util.go).

The relational store is a record of tables, each table a list of rows in
insertion order.  A handler is a function from the store, the clock reading
and the decoded request to a new store and a response.  The store itself
never fails: the branches of the source that handle a failing SQL statement
are not part of the model, and every transaction that is not rolled back by
the handler commits.  The clock is read once per request.
-/

namespace JenkinsJr

/-! ## Data model -/

/-- Instants are database datetimes: whole seconds since the Unix epoch, UTC. -/
abbrev Time := Nat

/-- PostTagEntity (post_tag.go): the columns read by postTagSelectQuery.
Coordinates are float32 values, carried as their raw bit patterns. -/
structure PostTagEntity where
  PostID : Int
  ImageID : Int
  Name : String
  URL : String
  CoordX : Nat
  CoordY : Nat
  BukalapakCategoryID : Int
  deriving DecidableEq, Repr

/-- A row of post_tags: every column written by the tag insert of Create and Update. -/
structure PostTagRow where
  PostID : Int
  ImageID : Int
  Name : String
  URL : String
  CoordX : Nat
  CoordY : Nat
  CreatedAt : Time
  UpdatedAt : Time
  ReferenceID : Int
  ReferenceType : String
  BukalapakCategoryID : Int
  deriving DecidableEq, Repr

/-- PostImageEntity (post_image.go). -/
structure PostImageEntity where
  ID : Int
  PostID : Int
  URL : String
  Width : Nat
  Height : Nat
  Position : Int
  Tags : List PostTagEntity
  deriving DecidableEq, Repr

/-- A row of post_images: the columns of postImageInsertQuery plus the generated id. -/
structure PostImageRow where
  ID : Int
  PostID : Int
  URL : String
  Height : Nat
  Width : Nat
  Position : Int
  CreatedAt : Time
  UpdatedAt : Time
  deriving DecidableEq, Repr

/-- PostEntity (post.go).  A row of posts is a PostEntity whose Images is empty:
postSelectQuery reads every column the handlers use. -/
structure PostEntity where
  ID : Int
  Title : String
  Description : String
  InfluencerName : String
  Published : Bool
  LikeCount : Int
  Deleted : Bool
  InfluencerID : Int
  FirstPublishedAt : Option Time
  LastPublishedAt : Option Time
  CreatedAt : Option Time
  UpdatedAt : Option Time
  Images : List PostImageEntity
  deriving DecidableEq, Repr

/-- A row of categories.  Modelled from the spec: the table declaration is not in
the sources; the row is the id and name pair with its live count, the count of a
new row is 0 (category_test.go inserts a row without a count and expects it not
to be listed by `count > 0`), and the id is a unique key. -/
structure CategoryRow where
  BukalapakCategoryID : Int
  BukalapakCategoryName : String
  Count : Int
  CreatedAt : Time
  UpdatedAt : Time
  deriving DecidableEq, Repr

/-- PostFilterEntity (post_filter.go): a row of post_filters. -/
structure PostFilterEntity where
  PostID : Int
  BukalapakCategoryID : Int
  deriving DecidableEq, Repr

/-- A row of post_likes. -/
structure PostLikeRow where
  PostID : Int
  BukalapakUserID : Nat
  Liked : Bool
  deriving DecidableEq, Repr

/-- PostLikeEntity (post_like.go): the result of findLike. -/
structure PostLikeEntity where
  Present : Bool
  Liked : Bool
  deriving DecidableEq, Repr

/-- InfluencerEntity (influencer.go). -/
structure InfluencerEntity where
  ID : Int
  Name : String
  deriving DecidableEq, Repr

/-- A row of influencers: the columns of influencersInsertQuery plus the generated id. -/
structure InfluencerRow where
  ID : Int
  Name : String
  CreatedAt : Time
  UpdatedAt : Time
  deriving DecidableEq, Repr

/-- A row of action_log_histories.  The changes column holds the JSON object
built by buildChanges; it is kept here as its list of entries
(field, old value, new value) in key order, the empty list being the text of
the empty object. -/
structure HistoryRow where
  RecordID : Int
  RecordType : String
  Changes : List (String × String × String)
  ActorID : Int
  CreatedAt : Time
  deriving DecidableEq, Repr

/-- The relational store: one list of rows per table, in insertion order, and
the auto-increment counters of the tables whose generated ids the handlers read. -/
structure Store where
  posts : List PostEntity
  post_images : List PostImageRow
  post_tags : List PostTagRow
  post_filters : List PostFilterEntity
  post_likes : List PostLikeRow
  categories : List CategoryRow
  influencers : List InfluencerRow
  action_log_histories : List HistoryRow
  nextPostID : Int
  nextImageID : Int
  nextInfluencerID : Int
  deriving DecidableEq, Repr

/-- The store of a fresh database: no rows, every counter at 1. -/
def emptyStore : Store :=
  { posts := [], post_images := [], post_tags := [], post_filters := [], post_likes := [],
    categories := [], influencers := [], action_log_histories := [],
    nextPostID := 1, nextImageID := 1, nextInfluencerID := 1 }

/-! ## Requests and responses -/

/-- PostTagCoordRequest (post_tag.go). -/
structure PostTagCoordRequest where
  X : Nat
  Y : Nat
  deriving DecidableEq, Repr

/-- PostTagCategoryRequest (post_tag.go). -/
structure PostTagCategoryRequest where
  ID : Int
  Name : String
  deriving DecidableEq, Repr

/-- PostTagRequest (post_tag.go). -/
structure PostTagRequest where
  Name : String
  URL : String
  Category : PostTagCategoryRequest
  Coord : PostTagCoordRequest
  deriving DecidableEq, Repr

/-- PostImageRequest (post_image.go). -/
structure PostImageRequest where
  Width : Nat
  Height : Nat
  URL : String
  Tags : List PostTagRequest
  deriving DecidableEq, Repr

/-- PostRequest (post.go). -/
structure PostRequest where
  Title : String
  Description : String
  InfluencerName : String
  Published : Bool
  Images : List PostImageRequest
  deriving DecidableEq, Repr

/-- PostTagCoordResponse (post_tag.go). -/
structure PostTagCoordResponse where
  X : Nat
  Y : Nat
  deriving DecidableEq, Repr

/-- PostTagResponse (post_tag.go). -/
structure PostTagResponse where
  Name : String
  URL : String
  Coord : PostTagCoordResponse
  deriving DecidableEq, Repr

/-- PostImageResponse (post_image.go). -/
structure PostImageResponse where
  Width : Nat
  Height : Nat
  URL : String
  Tags : List PostTagResponse
  deriving DecidableEq, Repr

/-- PostExclusiveResponse (post.go). -/
structure PostExclusiveResponse where
  ID : Int
  Title : String
  Description : String
  InfluencerName : String
  Published : Bool
  LikeCount : Int
  LastPublishedAt : String
  ModifiedAt : String
  Images : List PostImageResponse
  deriving DecidableEq, Repr

/-- PostLikeResponse (post_like.go). -/
structure PostLikeResponse where
  UserLike : Bool
  Count : Int
  deriving DecidableEq, Repr

/-- CustomError of the response library, as used by api/meta.go. -/
structure CustomError where
  Message : String
  Code : Nat
  HTTPCode : Nat
  deriving DecidableEq, Repr

/-- InvalidParameterError (api/meta.go). -/
def InvalidParameterError : CustomError :=
  { Message := "Invalid parameter", Code := 70111, HTTPCode := 422 }

/-- PostNotFoundError (api/meta.go). -/
def PostNotFoundError : CustomError :=
  { Message := "Post not found", Code := 70112, HTTPCode := 404 }

/-- What a handler writes to the client. -/
inductive Response where
  /-- The error envelope of BuildError, written with the HTTP code of the error. -/
  | error (e : CustomError)
  /-- The success envelope around a PostExclusiveResponse. -/
  | post (status : Nat) (p : PostExclusiveResponse)
  /-- The success envelope around a PublishResponse. -/
  | publish (status : Nat) (published : Bool)
  /-- The MessageResponse of Delete. -/
  | message (status : Nat) (text : String)
  /-- The success envelope around a PostLikeResponse. -/
  | like (status : Nat) (l : PostLikeResponse)
  /-- The error envelope of a store error, written with status 422. -/
  | unprocessable
  /-- Nothing is written: the handler stopped on a nil dereference. -/
  | aborted
  deriving DecidableEq, Repr

/-- The result of one handler call: the store it leaves and what it answers. -/
structure Outcome where
  store : Store
  response : Response
  deriving DecidableEq, Repr

/-! ## Clock text (util.go, config.go) -/

/-- A number in at least two decimal digits. -/
def pad2 (n : Nat) : String :=
  if n < 10 then "0" ++ toString n else toString n

/-- A number in at least four decimal digits. -/
def pad4 (n : Nat) : String :=
  if n < 10 then "000" ++ toString n
  else if n < 100 then "00" ++ toString n
  else if n < 1000 then "0" ++ toString n
  else toString n

/-- The proleptic Gregorian date (year, month, day) of a day count since 1970-01-01. -/
def civilFromDays (days : Nat) : Nat × Nat × Nat :=
  let z := days + 719468
  let era := z / 146097
  let doe := z % 146097
  let yoe := (doe - doe / 1460 + doe / 36524 - doe / 146096) / 365
  let doy := doe - (365 * yoe + yoe / 4 - yoe / 100)
  let mp := (5 * doy + 2) / 153
  let d := doy - (153 * mp + 2) / 5 + 1
  let m := if mp < 10 then mp + 3 else mp - 9
  let y := yoe + era * 400
  (if m ≤ 2 then y + 1 else y, m, d)

/-- The Go layouts of config.go, both of the shape date, separator, time, suffix:
DatabaseDatetimeFormat has a blank and no suffix, ResponseDatetimeFormat has
the letter T and the letter Z. -/
def formatDatetime (sep suffix : String) (t : Time) : String :=
  let ymd := civilFromDays (t / 86400)
  let secs := t % 86400
  pad4 ymd.1 ++ "-" ++ pad2 ymd.2.1 ++ "-" ++ pad2 ymd.2.2 ++ sep ++
    pad2 (secs / 3600) ++ ":" ++ pad2 (secs % 3600 / 60) ++ ":" ++ pad2 (secs % 60) ++ suffix

/-- Function timeToStringDB (util.go). -/
def timeToStringDB : Option Time → String
  | none => ""
  | some t => formatDatetime " " "" t

/-- Function timeToStringResponse (util.go). -/
def timeToStringResponse : Option Time → String
  | none => ""
  | some t => formatDatetime "T" "Z" t

/-! ## Influencers (influencer.go) -/

/-- The characters kept by the pattern `[^a-zA-Z0-9 ]+` of normalizeInfluencerName. -/
def isNameChar (c : Char) : Bool :=
  c.isAlphanum || c == ' '

/-- Function strings.Fields on a text whose only white space is the blank:
the maximal runs of other characters. -/
def fieldsAux : List Char → List Char → List (List Char)
  | [], cur => if cur.isEmpty then [] else [cur.reverse]
  | c :: cs, cur =>
    if c == ' ' then
      (if cur.isEmpty then fieldsAux cs [] else cur.reverse :: fieldsAux cs [])
    else fieldsAux cs (c :: cur)

/-- Function strings.Title on a text of lower-case letters, digits and blanks:
a letter is upper-cased when it starts the text or follows a blank. -/
def titleAux : Char → List Char → List Char
  | _, [] => []
  | prev, c :: cs => (if prev == ' ' then c.toUpper else c) :: titleAux c cs

/-- Function normalizeInfluencerName (influencer.go). -/
def normalizeInfluencerName (name : String) : String :=
  let kept := name.toList.filter isNameChar
  let lower := kept.map Char.toLower
  let joined := List.intercalate [' '] (fieldsAux lower [])
  String.mk (titleAux ' ' joined)

/-- Method findInfluencerByName (influencer.go): the first row with the normalised
name, or none for sql.ErrNoRows. -/
def findInfluencerByName (s : Store) (name : String) : Option InfluencerEntity :=
  match s.influencers.find? (fun r => r.Name == normalizeInfluencerName name) with
  | some r => some { ID := r.ID, Name := r.Name }
  | none => none

/-- Method createInfluencer (influencer.go). -/
def createInfluencer (now : Time) (s : Store) (name : String) : Store × InfluencerEntity :=
  let row : InfluencerRow :=
    { ID := s.nextInfluencerID, Name := normalizeInfluencerName name,
      CreatedAt := now, UpdatedAt := now }
  ({ s with influencers := s.influencers ++ [row],
            nextInfluencerID := s.nextInfluencerID + 1 },
   { ID := s.nextInfluencerID, Name := normalizeInfluencerName name })

/-- Method findOrCreateInfluencer (influencer.go). -/
def findOrCreateInfluencer (now : Time) (s : Store) (name : String) : Store × InfluencerEntity :=
  match findInfluencerByName s name with
  | some influencer => (s, influencer)
  | none => createInfluencer now s name

/-! ## Reading a post (post.go, post_image.go, post_tag.go) -/

/-- One step of ORDER BY position ASC: the row goes before the first row that
does not precede it. -/
def insertByPosition (r : PostImageRow) : List PostImageRow → List PostImageRow
  | [] => [r]
  | x :: xs => if r.Position ≤ x.Position then r :: x :: xs else x :: insertByPosition r xs

/-- The clause ORDER BY position ASC; rows of equal position keep their table order. -/
def orderByPosition : List PostImageRow → List PostImageRow
  | [] => []
  | x :: xs => insertByPosition x (orderByPosition xs)

/-- The columns of postImageSelectQuery: position is not among them. -/
def imageEntityOfRow (r : PostImageRow) : PostImageEntity :=
  { ID := r.ID, PostID := r.PostID, URL := r.URL, Width := r.Width, Height := r.Height,
    Position := 0, Tags := [] }

/-- The columns of postTagSelectQuery. -/
def tagEntityOfRow (r : PostTagRow) : PostTagEntity :=
  { PostID := r.PostID, ImageID := r.ImageID, Name := r.Name, URL := r.URL,
    CoordX := r.CoordX, CoordY := r.CoordY, BukalapakCategoryID := r.BukalapakCategoryID }

/-- Method findImagesByPostID (post_image.go). -/
def findImagesByPostID (s : Store) (postID : Int) : List PostImageEntity :=
  (orderByPosition (s.post_images.filter (fun r => r.PostID == postID))).map imageEntityOfRow

/-- Method findTagsByPostID (post_tag.go): `WHERE post_id=%d LIMIT 10`.  The query
has no ORDER BY; the rows come in table order, so the limit keeps the first ten. -/
def findTagsByPostID (s : Store) (postID : Int) : List PostTagEntity :=
  ((s.post_tags.filter (fun r => r.PostID == postID)).take 10).map tagEntityOfRow

/-- Function mapImageIDToTags (post_tag.go): the tags of each image id, in order. -/
def mapImageIDToTags (tags : List PostTagEntity) (imageID : Int) : List PostTagEntity :=
  tags.filter (fun tag => tag.ImageID == imageID)

/-- Function mergeTagsToImages (post_tag.go). -/
def mergeTagsToImages (images : List PostImageEntity) (tags : List PostTagEntity) :
    List PostImageEntity :=
  images.map (fun image => { image with Tags := mapImageIDToTags tags image.ID })

/-- Method findPost (post.go): none stands for PostNotFoundError (sql.ErrNoRows). -/
def findPost (s : Store) (postID : Int) : Option PostEntity :=
  match s.posts.find? (fun p => p.ID == postID) with
  | none => none
  | some post =>
    some { post with Images := mergeTagsToImages (findImagesByPostID s postID) (findTagsByPostID s postID) }

/-- Method isPostPresent (post.go). -/
def isPostPresent (s : Store) (postID : Int) : Bool :=
  s.posts.any (fun p => p.ID == postID)

/-- Method isValid of PostRequest (post.go). -/
def PostRequest.isValid (pr : PostRequest) : Bool :=
  pr.Images.all (fun image =>
    !(image.URL == "" || image.Height == 0 || image.Width == 0 || image.Tags.length > 10))

/-! ## Category ledger (category.go) -/

/-- Function addCategory (category.go): categoryInsertQuery, whose error the callers
drop.  Modelled from the spec: the table declaration is not in the sources; the
id is a unique key, so the insert of an id that is present changes nothing. -/
def addCategory (now : Time) (s : Store) (tag : PostTagRequest) : Store :=
  let row : CategoryRow :=
    { BukalapakCategoryID := tag.Category.ID, BukalapakCategoryName := tag.Category.Name,
      Count := 0, CreatedAt := now, UpdatedAt := now }
  if s.categories.any (fun r => r.BukalapakCategoryID == tag.Category.ID) then s
  else { s with categories := s.categories ++ [row] }

/-- Function decrementCategoryCount (category.go). -/
def decrementCategoryCount (now : Time) (s : Store) (bukalapakCategoryID : Int) : Store :=
  { s with categories := s.categories.map (fun r =>
      if r.BukalapakCategoryID == bukalapakCategoryID then
        { r with Count := r.Count - 1, UpdatedAt := now } else r) }

/-- Function incrementCategoryCount (category.go). -/
def incrementCategoryCount (now : Time) (s : Store) (bukalapakCategoryID : Int) : Store :=
  { s with categories := s.categories.map (fun r =>
      if r.BukalapakCategoryID == bukalapakCategoryID then
        { r with Count := r.Count + 1, UpdatedAt := now } else r) }

/-- Function decrementCategoryCounts (category.go). -/
def decrementCategoryCounts (now : Time) (s : Store) (post : PostEntity) : Store :=
  post.Images.foldl (fun s image =>
    image.Tags.foldl (fun s tag => decrementCategoryCount now s tag.BukalapakCategoryID) s) s

/-- Function incrementCategoryCounts (category.go). -/
def incrementCategoryCounts (now : Time) (s : Store) (post : PostEntity) : Store :=
  post.Images.foldl (fun s image =>
    image.Tags.foldl (fun s tag => incrementCategoryCount now s tag.BukalapakCategoryID) s) s

/-- The count column of a category; 0 when the category has no row. -/
def categoryCount (s : Store) (bukalapakCategoryID : Int) : Int :=
  match s.categories.find? (fun r => r.BukalapakCategoryID == bukalapakCategoryID) with
  | some r => r.Count
  | none => 0

/-! ## Change history (history.go) -/

/-- PostHistoryData (history.go). -/
structure PostHistoryData where
  PostID : Int
  ActorID : Int
  Was : PostEntity
  Now : PostEntity
  deriving DecidableEq, Repr

/-- The zero value of PostEntity, the Was snapshot that Create hands to the history. -/
def zeroPostEntity : PostEntity :=
  { ID := 0, Title := "", Description := "", InfluencerName := "", Published := false,
    LikeCount := 0, Deleted := false, InfluencerID := 0, FirstPublishedAt := none,
    LastPublishedAt := none, CreatedAt := none, UpdatedAt := none, Images := [] }

/-- The verb v of fmt.Sprintf on a boolean. -/
def boolText (b : Bool) : String :=
  if b then "true" else "false"

/-- Method buildChanges (history.go): the entries of the JSON object, in the key
order in which json.Marshal writes a map. -/
def buildChanges (phd : PostHistoryData) : List (String × String × String) :=
  let raw : List (String × String × String) :=
    [ ("created_at", timeToStringResponse phd.Was.CreatedAt, timeToStringResponse phd.Now.CreatedAt),
      ("deleted", boolText phd.Was.Deleted, boolText phd.Now.Deleted),
      ("description", phd.Was.Description, phd.Now.Description),
      ("first_published_at", timeToStringResponse phd.Was.FirstPublishedAt,
        timeToStringResponse phd.Now.FirstPublishedAt),
      ("influencer_name", phd.Was.InfluencerName, phd.Now.InfluencerName),
      ("last_published_at", timeToStringResponse phd.Was.LastPublishedAt,
        timeToStringResponse phd.Now.LastPublishedAt),
      ("published", boolText phd.Was.Published, boolText phd.Now.Published),
      ("title", phd.Was.Title, phd.Now.Title),
      ("updated_at", timeToStringResponse phd.Was.UpdatedAt, timeToStringResponse phd.Now.UpdatedAt) ]
  raw.filter (fun e => e.2.1 != e.2.2)

/-- Method addPostLogHistory (history.go). -/
def addPostLogHistory (s : Store) (now : Time) (userID : Nat) (postID : Int) (was : PostEntity) :
    Store :=
  match findPost s postID with
  | none => s
  | some post =>
    let phd : PostHistoryData := { PostID := postID, ActorID := Int.ofNat userID, Was := was, Now := post }
    let changes := buildChanges phd
    let row : HistoryRow :=
      { RecordID := phd.PostID, RecordType := "posts", Changes := changes,
        ActorID := phd.ActorID, CreatedAt := now }
    if changes.isEmpty then s
    else { s with action_log_histories := s.action_log_histories ++ [row] }

/-! ## Writing images and tags (post.go, the loop shared by Create and Update) -/

/-- Function addImage (post_image.go): the new store and the generated id. -/
def addImage (now : Time) (s : Store) (postID : Int) (image : PostImageRequest) (pos : Int) :
    Store × Int :=
  let row : PostImageRow :=
    { ID := s.nextImageID, PostID := postID, URL := image.URL, Height := image.Height,
      Width := image.Width, Position := pos, CreatedAt := now, UpdatedAt := now }
  ({ s with post_images := s.post_images ++ [row], nextImageID := s.nextImageID + 1 },
   s.nextImageID)

/-- The zero value of PostTagCategoryRequest. -/
def zeroCategory : PostTagCategoryRequest :=
  { ID := 0, Name := "" }

/-- The body of the loop over the tags of one image (post.go 333-369 in Create,
541-577 in Update).  The argument parseTagURL stands for the library calls
url.Parse, Query, Get and strconv.ParseInt on the tag url: none when url.Parse
fails, else the reference id and type.  When url.Parse fails the handler rolls
the transaction back and then dereferences the nil url, so the loop stops (none).
The tag row is queued for the one insert that follows the loop. -/
def insertTag (parseTagURL : String → Option (Int × String)) (now : Time) (published : Bool)
    (postID imageID : Int) (acc : Store × List PostTagRow) (tag : PostTagRequest) :
    Option (Store × List PostTagRow) :=
  let bukalapakCategoryID : Int := if tag.Category != zeroCategory then tag.Category.ID else 0
  let s1 : Store :=
    if tag.Category != zeroCategory then
      (if published then
        incrementCategoryCount now (addCategory now acc.1 tag) bukalapakCategoryID
       else addCategory now acc.1 tag)
    else acc.1
  match parseTagURL tag.URL with
  | none => none
  | some ref =>
    let row : PostTagRow :=
      { PostID := postID, ImageID := imageID, Name := tag.Name, URL := tag.URL,
        CoordX := tag.Coord.X, CoordY := tag.Coord.Y, CreatedAt := now, UpdatedAt := now,
        ReferenceID := ref.1, ReferenceType := ref.2, BukalapakCategoryID := bukalapakCategoryID }
    let filter : PostFilterEntity :=
      { PostID := postID, BukalapakCategoryID := bukalapakCategoryID }
    let s2 : Store :=
      if bukalapakCategoryID != 0 then { s1 with post_filters := s1.post_filters ++ [filter] }
      else s1
    some (s2, acc.2 ++ [row])

/-- The loop over the tags of one image. -/
def insertTags (parseTagURL : String → Option (Int × String)) (now : Time) (published : Bool)
    (postID imageID : Int) : List PostTagRequest → Store × List PostTagRow →
    Option (Store × List PostTagRow)
  | [], acc => some acc
  | tag :: tags, acc =>
    match insertTag parseTagURL now published postID imageID acc tag with
    | none => none
    | some acc1 => insertTags parseTagURL now published postID imageID tags acc1

/-- The body of the loop over the images (post.go 318-388 in Create, 526-596 in
Update): the image row, then its tags, then the one insert of the queued tag rows. -/
def insertImage (parseTagURL : String → Option (Int × String)) (now : Time) (published : Bool)
    (postID : Int) (s : Store) (pos : Int) (image : PostImageRequest) : Option Store :=
  let added : Store × Int := if image.URL != "" then addImage now s postID image pos else (s, 0)
  if image.Tags.length > 0 then
    match insertTags parseTagURL now published postID added.2 image.Tags (added.1, []) with
    | none => none
    | some r => some { r.1 with post_tags := r.1.post_tags ++ r.2 }
  else some added.1

/-- The loop over the images of a request, pos being the index of the next image. -/
def insertImages (parseTagURL : String → Option (Int × String)) (now : Time) (published : Bool)
    (postID : Int) : Int → List PostImageRequest → Store → Option Store
  | _, [], s => some s
  | pos, image :: images, s =>
    match insertImage parseTagURL now published postID s pos image with
    | none => none
    | some s1 => insertImages parseTagURL now published postID (pos + 1) images s1

/-! ## Response shapes (post_tag.go, post_image.go) -/

/-- Function convertTagEntityToResponse (post_tag.go). -/
def convertTagEntityToResponse (tag : PostTagEntity) : PostTagResponse :=
  { Name := tag.Name, URL := tag.URL, Coord := { X := tag.CoordX, Y := tag.CoordY } }

/-- Function buildTagsResponse (post_tag.go). -/
def buildTagsResponse (tags : List PostTagEntity) : List PostTagResponse :=
  tags.map convertTagEntityToResponse

/-- Function convertImageEntityToResponse (post_image.go). -/
def convertImageEntityToResponse (image : PostImageEntity) : PostImageResponse :=
  { Width := image.Width, Height := image.Height, URL := image.URL,
    Tags := buildTagsResponse image.Tags }

/-- Function buildImagesResponse (post_image.go). -/
def buildImagesResponse (images : List PostImageEntity) : List PostImageResponse :=
  images.map convertImageEntityToResponse

/-- Function convertTagRequestToResponse (post_tag.go). -/
def convertTagRequestToResponse (tag : PostTagRequest) : PostTagResponse :=
  { Name := tag.Name, URL := tag.URL, Coord := ⟨tag.Coord.X, tag.Coord.Y⟩ }

/-- Function convertTagsRequestToResponse (post_tag.go). -/
def convertTagsRequestToResponse (tags : List PostTagRequest) : List PostTagResponse :=
  tags.map convertTagRequestToResponse

/-- Function convertImageRequestToResponse (post_image.go). -/
def convertImageRequestToResponse (image : PostImageRequest) : PostImageResponse :=
  { Width := image.Width, Height := image.Height, URL := image.URL,
    Tags := convertTagsRequestToResponse image.Tags }

/-- Function convertImagesRequestToResponse (post_image.go). -/
def convertImagesRequestToResponse (images : List PostImageRequest) : List PostImageResponse :=
  images.map convertImageRequestToResponse

/-- The text before the first question mark: `strings.Split(url, "?")[0]`. -/
def beforeQuery (url : String) : String :=
  String.mk (url.toList.takeWhile (fun c => c != '?'))

/-- Function normalizeLikeCount (post_like.go). -/
def normalizeLikeCount (c : Int) : Int :=
  if c < 0 then 0 else c

/-! ## Handlers (post.go, post_like.go)

The id argument is the result of parseIntContext on the path parameter (none
when it is not a decimal integer); the body argument is the decoded JSON body
(none when decoding fails); userID is the id of the current user. -/

/-- Handler Show (post.go). -/
def Show (s : Store) (id : Option Int) : Outcome :=
  match id with
  | none => { store := s, response := Response.error InvalidParameterError }
  | some postID =>
    match findPost s postID with
    | none => { store := s, response := Response.error PostNotFoundError }
    | some post =>
      if post.Deleted then { store := s, response := Response.error PostNotFoundError }
      else
        let images := findImagesByPostID s postID
        let tags := (findTagsByPostID s postID).map (fun tag => { tag with URL := beforeQuery tag.URL })
        let merged := mergeTagsToImages images tags
        match post.UpdatedAt with
        | none => { store := s, response := Response.aborted }
        | some updatedAt =>
          let p : PostExclusiveResponse :=
            { ID := post.ID, Title := post.Title, Description := post.Description,
              InfluencerName := post.InfluencerName, Published := post.Published,
              LikeCount := post.LikeCount,
              LastPublishedAt := timeToStringResponse post.LastPublishedAt,
              ModifiedAt := timeToStringResponse (some updatedAt),
              Images := buildImagesResponse merged }
          { store := s, response := Response.post 200 p }

/-- The posts row that Create inserts (post.go 289-316) and the store with it,
after findOrCreateInfluencer: the generated id is the counter of the table. -/
def createPostRow (now : Time) (tx : Store) (influencer : InfluencerEntity) (pr : PostRequest) :
    PostEntity :=
  { ID := tx.nextPostID, Title := pr.Title, Description := pr.Description,
    InfluencerName := influencer.Name, Published := pr.Published, LikeCount := 0,
    Deleted := false, InfluencerID := influencer.ID,
    FirstPublishedAt := if pr.Published then some now else none,
    LastPublishedAt := if pr.Published then some now else none,
    CreatedAt := some now, UpdatedAt := some now, Images := [] }

/-- The transaction of Create up to the image loop (post.go 280-316). -/
def createStatements (now : Time) (s : Store) (pr : PostRequest) : Store :=
  let found := findOrCreateInfluencer now s pr.InfluencerName
  { found.1 with posts := found.1.posts ++ [createPostRow now found.1 found.2 pr],
                 nextPostID := found.1.nextPostID + 1 }

/-- Handler Create (post.go). -/
def Create (parseTagURL : String → Option (Int × String)) (s : Store) (now : Time) (userID : Nat)
    (body : Option PostRequest) : Outcome :=
  match body with
  | none => { store := s, response := Response.error InvalidParameterError }
  | some pr =>
    if !pr.isValid then { store := s, response := Response.error InvalidParameterError }
    else
      let influencer := (findOrCreateInfluencer now s pr.InfluencerName).2
      let postID := (findOrCreateInfluencer now s pr.InfluencerName).1.nextPostID
      match insertImages parseTagURL now pr.Published postID 0 pr.Images
          (createStatements now s pr) with
      | none => { store := s, response := Response.aborted }
      | some committed =>
        let p : PostExclusiveResponse :=
          { ID := postID, Title := pr.Title, Description := pr.Description,
            InfluencerName := influencer.Name, Published := pr.Published, LikeCount := 0,
            LastPublishedAt := if pr.Published then timeToStringResponse (some now) else "",
            ModifiedAt := timeToStringResponse (some now),
            Images := convertImagesRequestToResponse pr.Images }
        { store := addPostLogHistory committed now userID postID zeroPostEntity,
          response := Response.post 201 p }

/-- The publish timeline columns that the UPDATE of Update sets besides the six
fixed ones (post.go 467-482), from the post as read and the incoming flag. -/
def updateTimeline (post : PostEntity) (published : Bool) (now : Time) (p : PostEntity) :
    PostEntity :=
  match post.LastPublishedAt with
  | none =>
    if published then { p with FirstPublishedAt := some now, LastPublishedAt := some now } else p
  | some _ =>
    if post.Published then p
    else if published then { p with LastPublishedAt := some now } else p

/-- The published instant that Update reports (post.go 467-482). -/
def updatePublishedAtJSON (post : PostEntity) (published : Bool) (now : Time) : String :=
  match post.LastPublishedAt with
  | none => if published then timeToStringResponse (some now) else ""
  | some last =>
    if post.Published then timeToStringResponse (some last)
    else if published then timeToStringResponse (some now) else timeToStringResponse (some last)

/-- The row update of Update (post.go 462-494): the six fixed columns and the
publish timeline columns. -/
def updateRow (post : PostEntity) (pr : PostRequest) (influencer : InfluencerEntity) (now : Time)
    (p : PostEntity) : PostEntity :=
  updateTimeline post pr.Published now
    { p with Title := pr.Title, Description := pr.Description,
             InfluencerID := influencer.ID, InfluencerName := influencer.Name,
             Published := pr.Published, UpdatedAt := some now }

/-- The transaction of Update up to the image loop (post.go 446-524): the
influencer, the decrement for the tags of the post as read, the row update and
the three deletes. -/
def updateStatements (now : Time) (s : Store) (postID : Int) (post : PostEntity)
    (pr : PostRequest) : Store :=
  let found := findOrCreateInfluencer now s pr.InfluencerName
  let tx1 : Store := if post.Published then decrementCategoryCounts now found.1 post else found.1
  { tx1 with
    posts := tx1.posts.map (fun p => if p.ID == postID then updateRow post pr found.2 now p else p),
    post_images := tx1.post_images.filter (fun r => r.PostID != postID),
    post_tags := tx1.post_tags.filter (fun r => r.PostID != postID),
    post_filters := tx1.post_filters.filter (fun r => r.PostID != postID) }

/-- Handler Update (post.go). -/
def Update (parseTagURL : String → Option (Int × String)) (s : Store) (now : Time) (userID : Nat)
    (id : Option Int) (body : Option PostRequest) : Outcome :=
  match id with
  | none => { store := s, response := Response.error InvalidParameterError }
  | some postID =>
    match body with
    | none => { store := s, response := Response.error InvalidParameterError }
    | some pr =>
      if !pr.isValid then { store := s, response := Response.error InvalidParameterError }
      else
        match findPost s postID with
        | none => { store := s, response := Response.error PostNotFoundError }
        | some post =>
          if post.Deleted then { store := s, response := Response.error PostNotFoundError }
          else
            let influencer := (findOrCreateInfluencer now s pr.InfluencerName).2
            match insertImages parseTagURL now pr.Published postID 0 pr.Images
                (updateStatements now s postID post pr) with
            | none => { store := s, response := Response.aborted }
            | some committed =>
              let p : PostExclusiveResponse :=
                { ID := postID, Title := pr.Title, Description := pr.Description,
                  InfluencerName := influencer.Name, Published := pr.Published,
                  LikeCount := post.LikeCount,
                  LastPublishedAt := updatePublishedAtJSON post pr.Published now,
                  ModifiedAt := timeToStringResponse (some now),
                  Images := convertImagesRequestToResponse pr.Images }
              { store := addPostLogHistory committed now userID postID post,
                response := Response.post 202 p }

/-- The statement and the ledger call that Publish chooses (post.go 665-693):
the row update for the post as read and the incoming flag. -/
def publishRow (post : PostEntity) (published : Bool) (now : Time) (p : PostEntity) : PostEntity :=
  match post.LastPublishedAt with
  | none =>
    if published then
      { p with Published := published, FirstPublishedAt := some now, LastPublishedAt := some now,
               UpdatedAt := some now }
    else { p with Published := published }
  | some _ =>
    if post.Published then
      (if !published then { p with Published := published, UpdatedAt := some now }
       else { p with Published := published })
    else
      (if published then
        { p with Published := published, LastPublishedAt := some now, UpdatedAt := some now }
       else { p with Published := published })

/-- The ledger call of Publish (post.go 665-693). -/
def publishLedger (now : Time) (s : Store) (post : PostEntity) (published : Bool) : Store :=
  match post.LastPublishedAt with
  | none => if published then incrementCategoryCounts now s post else s
  | some _ =>
    if post.Published then (if !published then decrementCategoryCounts now s post else s)
    else (if published then incrementCategoryCounts now s post else s)

/-- The transaction of Publish (post.go 663-701): the ledger call and the row update. -/
def publishStatements (now : Time) (s : Store) (postID : Int) (post : PostEntity)
    (published : Bool) : Store :=
  { publishLedger now s post published with
    posts := (publishLedger now s post published).posts.map (fun p =>
      if p.ID == postID then publishRow post published now p else p) }

/-- Handler Publish (post.go). -/
def Publish (s : Store) (now : Time) (userID : Nat) (id : Option Int) (body : Option Bool) :
    Outcome :=
  match id with
  | none => { store := s, response := Response.error InvalidParameterError }
  | some postID =>
    match findPost s postID with
    | none => { store := s, response := Response.error PostNotFoundError }
    | some post =>
      if post.Deleted then { store := s, response := Response.error PostNotFoundError }
      else
        match body with
        | none => { store := s, response := Response.error InvalidParameterError }
        | some published =>
          { store := addPostLogHistory (publishStatements now s postID post published)
              now userID postID post,
            response := Response.publish 202 published }

/-- The row update of Delete (post.go 735-736).  The instant comes from the same
clock reading; the source formats the local time here, not the UTC time. -/
def deleteRow (now : Time) (p : PostEntity) : PostEntity :=
  { p with Deleted := true, Published := false, UpdatedAt := some now }

/-- The transaction of Delete (post.go 733-757): the row update, the decrement
for the tags of the post as read, and the delete of its filter rows. -/
def deleteStatements (now : Time) (s : Store) (postID : Int) (post : PostEntity) : Store :=
  let tx1 : Store :=
    { s with posts := s.posts.map (fun p => if p.ID == postID then deleteRow now p else p) }
  let tx2 : Store := if post.Published then decrementCategoryCounts now tx1 post else tx1
  { tx2 with post_filters := tx2.post_filters.filter (fun r => r.PostID != postID) }

/-- Handler Delete (post.go). -/
def Delete (s : Store) (now : Time) (userID : Nat) (id : Option Int) : Outcome :=
  match id with
  | none => { store := s, response := Response.error InvalidParameterError }
  | some postID =>
    match findPost s postID with
    | none => { store := s, response := Response.error PostNotFoundError }
    | some post =>
      if post.Deleted then { store := s, response := Response.error PostNotFoundError }
      else
        { store := addPostLogHistory (deleteStatements now s postID post) now userID postID post,
          response := Response.message 202 "Post has been deleted" }

/-- Method findLike (post_like.go). -/
def findLike (s : Store) (postID : Int) (userID : Nat) : PostLikeEntity :=
  match s.post_likes.find? (fun r => r.PostID == postID && r.BukalapakUserID == userID) with
  | some r => { Present := true, Liked := r.Liked }
  | none => { Present := false, Liked := false }

/-- The statement on post_likes that Like chooses (post_like.go 47-64). -/
def writeLike (s : Store) (postID : Int) (userID : Nat) (like : PostLikeEntity) : Store :=
  let row : PostLikeRow := { PostID := postID, BukalapakUserID := userID, Liked := true }
  if !like.Present then { s with post_likes := s.post_likes ++ [row] }
  else
    { s with post_likes := s.post_likes.map (fun r =>
        if r.PostID == postID && r.BukalapakUserID == userID then { r with Liked := !like.Liked }
        else r) }

/-- The factor of Like (post_like.go 47-64): 1 for a like, -1 for an unlike. -/
def likeFactor (like : PostLikeEntity) : Int :=
  if !like.Present then 1 else if like.Liked then -1 else 1

/-- The counter update of Like (post_like.go 84): `like_count=like_count+1` or
`like_count=like_count-1` on the rows of the post. -/
def likeStatements (s : Store) (postID : Int) (userID : Nat) (like : PostLikeEntity) : Store :=
  { writeLike s postID userID like with
    posts := (writeLike s postID userID like).posts.map (fun p =>
      if p.ID == postID then { p with LikeCount := p.LikeCount + likeFactor like } else p) }

/-- Handler Like (post_like.go).  The like row is written outside the transaction
that reads and updates the counter; in a sequential run the order of the
statements is the same. -/
def Like (s : Store) (userID : Nat) (id : Option Int) : Outcome :=
  match id with
  | none => { store := s, response := Response.error InvalidParameterError }
  | some postID =>
    if !isPostPresent s postID then { store := s, response := Response.error PostNotFoundError }
    else
      let like := findLike s postID userID
      match (writeLike s postID userID like).posts.find? (fun p => p.ID == postID) with
      | none =>
        { store := writeLike s postID userID like, response := Response.unprocessable }
      | some row =>
        { store := likeStatements s postID userID like,
          response := Response.like 202
            { UserLike := !like.Liked, Count := row.LikeCount + likeFactor like } }

/-! ## Observations and sample data used in the statements -/

/-- The posts row of an id, as `SELECT ... WHERE id=? LIMIT 1` reads it. -/
def postRow (s : Store) (postID : Int) : Option PostEntity :=
  s.posts.find? (fun p => p.ID == postID)

/-- A tag url reader that accepts every url and finds no reference in it. -/
def plainURL (_ : String) : Option (Int × String) :=
  some (0, "")

/-- A posts row with the given id, publish state, like count and deleted flag. -/
def samplePost (postID : Int) (published deleted : Bool) (likeCount : Int)
    (first last : Option Time) : PostEntity :=
  { ID := postID, Title := "Published Post", Description := "Test Description",
    InfluencerName := "Tester", Published := published, LikeCount := likeCount,
    Deleted := deleted, InfluencerID := 1, FirstPublishedAt := first, LastPublishedAt := last,
    CreatedAt := some 1500000000, UpdatedAt := some 1500000000, Images := [] }

/-- A store whose only row is one post. -/
def storeWithPost (post : PostEntity) : Store :=
  { emptyStore with posts := [post], nextPostID := post.ID + 1 }

/-- The like count that a response carries, if it carries one. -/
def likeCountInResponse : Response → Option Int
  | Response.post _ p => some p.LikeCount
  | Response.like _ l => some l.Count
  | _ => none

/-! ## The ledger on the categories table alone -/

/-- The update `SET count=count+d` on the rows of one category id. -/
def bumpCount (now : Time) (d : Int) (cats : List CategoryRow) (bukalapakCategoryID : Int) :
    List CategoryRow :=
  cats.map (fun r =>
    if r.BukalapakCategoryID == bukalapakCategoryID then
      { r with Count := r.Count + d, UpdatedAt := now } else r)

/-- The category ids that the bulk helpers walk through: one per tag of the post
as read by findPost, image by image. -/
def postCategoryIDs (post : PostEntity) : List Int :=
  post.Images.flatMap (fun image => image.Tags.map (fun tag => tag.BukalapakCategoryID))

/-- The category id stored with a tag of a request (post.go 334-337). -/
def tagCategoryID (tag : PostTagRequest) : Int :=
  if tag.Category != zeroCategory then tag.Category.ID else 0

/-- The stored category ids of all tags of a request, image by image. -/
def requestCategoryIDs (images : List PostImageRequest) : List Int :=
  images.flatMap (fun image => image.Tags.map tagCategoryID)

/-- The insert of addCategory on the categories table alone. -/
def addCategoryRow (now : Time) (cats : List CategoryRow) (cat : PostTagCategoryRequest) :
    List CategoryRow :=
  let row : CategoryRow :=
    { BukalapakCategoryID := cat.ID, BukalapakCategoryName := cat.Name,
      Count := 0, CreatedAt := now, UpdatedAt := now }
  if cats.any (fun r => r.BukalapakCategoryID == cat.ID) then cats else cats ++ [row]

/-- What the tag loop does to the categories table for one tag (post.go 335-345). -/
def tagLedger (now : Time) (published : Bool) (cats : List CategoryRow) (tag : PostTagRequest) :
    List CategoryRow :=
  if tag.Category != zeroCategory then
    (if published then bumpCount now 1 (addCategoryRow now cats tag.Category) tag.Category.ID
     else addCategoryRow now cats tag.Category)
  else cats

/-- All tags of a request, image by image. -/
def requestTags (images : List PostImageRequest) : List PostTagRequest :=
  images.flatMap (fun image => image.Tags)

/-- What a completed run of the tag loop of one image has done: the tables of
the store other than categories and post_filters are as before, the categories
table has gone through tagLedger once per tag, and one row per tag is queued. -/
structure TagLoopSpec (now : Time) (published : Bool) (postID imageID : Int)
    (tags : List PostTagRequest) (acc acc1 : Store × List PostTagRow) : Prop where
  posts : acc1.1.posts = acc.1.posts
  nextPostID : acc1.1.nextPostID = acc.1.nextPostID
  post_images : acc1.1.post_images = acc.1.post_images
  nextImageID : acc1.1.nextImageID = acc.1.nextImageID
  post_tags : acc1.1.post_tags = acc.1.post_tags
  categories : acc1.1.categories = tags.foldl (tagLedger now published) acc.1.categories
  rows : ∃ rows : List PostTagRow, acc1.2 = acc.2 ++ rows ∧
    (∀ t ∈ rows, t.PostID = postID ∧ t.ImageID = imageID) ∧
    rows.map (fun t => t.BukalapakCategoryID) = tags.map tagCategoryID

/-- What a completed run of the image loop has done: posts are as before, the
categories table has gone through tagLedger once per tag of the request, and
the new image and tag rows are appended, every tag row pointing at one of the
new image rows. -/
structure ImageLoopSpec (now : Time) (published : Bool) (postID : Int)
    (images : List PostImageRequest) (s s1 : Store) : Prop where
  posts : s1.posts = s.posts
  nextPostID : s1.nextPostID = s.nextPostID
  categories : s1.categories = (requestTags images).foldl (tagLedger now published) s.categories
  nextImageID : s.nextImageID ≤ s1.nextImageID
  rows : ∃ (imgs : List PostImageRow) (tags : List PostTagRow),
    s1.post_images = s.post_images ++ imgs ∧ s1.post_tags = s.post_tags ++ tags ∧
    (∀ i ∈ imgs, i.PostID = postID ∧ s.nextImageID ≤ i.ID ∧ i.ID < s1.nextImageID) ∧
    (imgs.map (fun i => i.ID)).Nodup ∧
    (∀ t ∈ tags, t.PostID = postID ∧ ∃ i ∈ imgs, i.ID = t.ImageID) ∧
    tags.map (fun t => t.BukalapakCategoryID) = requestCategoryIDs images

/-! ## Runs of the service -/

/-- One call of a handler that writes to the store. -/
inductive Step : Store → Store → Prop where
  | create (parseTagURL : String → Option (Int × String)) (s : Store) (now : Time)
      (userID : Nat) (body : Option PostRequest) :
      Step s (Create parseTagURL s now userID body).store
  | update (parseTagURL : String → Option (Int × String)) (s : Store) (now : Time)
      (userID : Nat) (id : Option Int) (body : Option PostRequest) :
      Step s (Update parseTagURL s now userID id body).store
  | publish (s : Store) (now : Time) (userID : Nat) (id : Option Int) (body : Option Bool) :
      Step s (Publish s now userID id body).store
  | delete (s : Store) (now : Time) (userID : Nat) (id : Option Int) :
      Step s (Delete s now userID id).store
  | like (s : Store) (userID : Nat) (id : Option Int) :
      Step s (Like s userID id).store

/-- Any number of handler calls, one after the other. -/
inductive Steps : Store → Store → Prop where
  | refl (s : Store) : Steps s s
  | tail {s t u : Store} : Steps s t → Step t u → Steps s u

/-- A store that the handlers can build from the empty database. -/
def Reachable (s : Store) : Prop :=
  Steps emptyStore s

/-- Every row that has a first publish instant has a last publish instant. -/
def TimelineInv (s : Store) : Prop :=
  ∀ p ∈ s.posts, p.FirstPublishedAt ≠ none → p.LastPublishedAt ≠ none

/-- How one handler call changes the posts table: not at all, by one new row,
or by a row update `WHERE id=?` computed from the row that was read. -/
inductive PostsChange (s t : Store) : Prop where
  | same : t.posts = s.posts → PostsChange s t
  | insert (row : PostEntity) : t.posts = s.posts ++ [row] →
      (row.FirstPublishedAt ≠ none → row.LastPublishedAt ≠ none) → PostsChange s t
  | update (postID : Int) (row : PostEntity) (f : PostEntity → PostEntity) :
      postRow s postID = some row →
      t.posts = s.posts.map (fun p => if p.ID == postID then f p else p) →
      (∀ p, (f p).ID = p.ID) →
      (row.LastPublishedAt ≠ none → ∀ p, (f p).FirstPublishedAt = p.FirstPublishedAt) →
      (∀ p, ((f p).LastPublishedAt = p.LastPublishedAt ∨ (f p).LastPublishedAt ≠ none) ∧
        ((f p).FirstPublishedAt = p.FirstPublishedAt ∨
          ((f p).FirstPublishedAt ≠ none ∧ (f p).LastPublishedAt ≠ none))) →
      PostsChange s t

/-- The request of the tests (testdata/request/post.json as the assertions of
TestCreate describe it): one image with one tag of category 32. -/
def sampleRequest (published : Bool) : PostRequest :=
  { Title := "Title 1", Description := "Random Description", InfluencerName := "Random Name",
    Published := published,
    Images := [{ Width := 1080, Height := 1350, URL := "https://example.com/original/1.jpg",
                 Tags := [{ Name := "Tag 1", URL := "https://example.com/p/1",
                            Category := { ID := 32, Name := "Category name 1" },
                            Coord := { X := 0, Y := 0 } }] }] }

/-- The store after one published Create on the empty database. -/
def createdStore : Store :=
  (Create plainURL emptyStore 1700000000 7 (some (sampleRequest true))).store

/-- The posts row of createdStore. -/
def createdPost : PostEntity :=
  { ID := 1, Title := "Title 1", Description := "Random Description",
    InfluencerName := "Random Name", Published := true, LikeCount := 0, Deleted := false,
    InfluencerID := 1, FirstPublishedAt := some 1700000000, LastPublishedAt := some 1700000000,
    CreatedAt := some 1700000000, UpdatedAt := some 1700000000, Images := [] }

/-- The store after one unpublished Create on the empty database. -/
def draftStore : Store :=
  (Create plainURL emptyStore 1700000000 7 (some (sampleRequest false))).store

/-- The posts row of draftStore. -/
def draftPost : PostEntity :=
  { createdPost with Published := false, FirstPublishedAt := none, LastPublishedAt := none }

/-! ## The ledger invariant -/

/-- The count column of a category id in a categories table; 0 without a row. -/
def countOf (cats : List CategoryRow) (c : Int) : Int :=
  match cats.find? (fun r => r.BukalapakCategoryID == c) with
  | some r => r.Count
  | none => 0

/-- The categories table has a row for the id. -/
def hasCategory (cats : List CategoryRow) (c : Int) : Bool :=
  cats.any (fun r => r.BukalapakCategoryID == c)

/-- The post of an id counts for the ledger: its row is published and not deleted. -/
def isLive (s : Store) (postID : Int) : Bool :=
  match postRow s postID with
  | some p => p.Published && !p.Deleted
  | none => false

/-- The number of tag rows of one post with one category id. -/
def tagsOf (s : Store) (postID c : Int) : Nat :=
  s.post_tags.countP (fun t => t.PostID == postID && t.BukalapakCategoryID == c)

/-- The number of tag rows with category id c that belong to a published,
non-deleted post. -/
def liveTagCount (s : Store) (c : Int) : Nat :=
  s.post_tags.countP (fun t => t.BukalapakCategoryID == c && isLive s t.PostID)

/-- The number of published, non-deleted posts that have at least one tag row
with category id c. -/
def livePostCount (s : Store) (c : Int) : Nat :=
  s.posts.countP (fun p => p.Published && !p.Deleted &&
    s.post_tags.any (fun t => t.PostID == p.ID && t.BukalapakCategoryID == c))

/-- A well-formed store in which the ledger is right.  The generated ids are
below the counters and pairwise distinct, every tag row points at an image row
of its post, no post has more than ten tag rows (the most that findTagsByPostID
reads), every category id other than 0 on a tag row has a categories row, a
published row has a last publish instant, and for every category id c other
than 0 the count of c is the number of tag rows with category c on published,
non-deleted posts. -/
structure Consistent (s : Store) : Prop where
  postIDs : ∀ p ∈ s.posts, p.ID < s.nextPostID
  postIDsNodup : (s.posts.map (fun p => p.ID)).Nodup
  imageIDs : ∀ i ∈ s.post_images, i.ID < s.nextImageID ∧ i.PostID < s.nextPostID
  imageIDsNodup : (s.post_images.map (fun i => i.ID)).Nodup
  tagImages : ∀ t ∈ s.post_tags, ∃ i ∈ s.post_images, i.ID = t.ImageID ∧ i.PostID = t.PostID
  tagLimit : ∀ postID : Int, s.post_tags.countP (fun t => t.PostID == postID) ≤ 10
  tagCategories : ∀ t ∈ s.post_tags, t.BukalapakCategoryID ≠ 0 →
    hasCategory s.categories t.BukalapakCategoryID = true
  publishedTimeline : ∀ p ∈ s.posts, p.Published = true → p.LastPublishedAt ≠ none
  ledger : ∀ c : Int, c ≠ 0 → categoryCount s c = (liveTagCount s c : Int)

/-- One call of Create, Update, Publish or Delete in which a post request, if
there is one, carries at most ten tags over all its images. -/
inductive LedgerStep : Store → Store → Prop where
  | create (parseTagURL : String → Option (Int × String)) (s : Store) (now : Time)
      (userID : Nat) (body : Option PostRequest)
      (small : ∀ pr, body = some pr → (requestTags pr.Images).length ≤ 10) :
      LedgerStep s (Create parseTagURL s now userID body).store
  | update (parseTagURL : String → Option (Int × String)) (s : Store) (now : Time)
      (userID : Nat) (id : Option Int) (body : Option PostRequest)
      (small : ∀ pr, body = some pr → (requestTags pr.Images).length ≤ 10) :
      LedgerStep s (Update parseTagURL s now userID id body).store
  | publish (s : Store) (now : Time) (userID : Nat) (id : Option Int) (body : Option Bool) :
      LedgerStep s (Publish s now userID id body).store
  | delete (s : Store) (now : Time) (userID : Nat) (id : Option Int) :
      LedgerStep s (Delete s now userID id).store

/-- The number of tag rows with category id c on published, non-deleted posts
other than the post of the given id. -/
def othersLive (s : Store) (postID c : Int) : Nat :=
  s.post_tags.countP (fun t =>
    t.PostID != postID && (t.BukalapakCategoryID == c && isLive s t.PostID))

/-- The change of the ledger that Publish makes per tag: 1 for the increment,
-1 for the decrement, 0 when it calls neither (post.go 665-693). -/
def publishDelta (post : PostEntity) (published : Bool) : Int :=
  match post.LastPublishedAt with
  | none => if published then 1 else 0
  | some _ =>
    if post.Published then (if !published then -1 else 0)
    else (if published then 1 else 0)

/-- A tag of a request with the given category id. -/
def tagWithCategory (c : Int) : PostTagRequest :=
  { Name := "Tag", URL := "https://example.com/p/1", Category := { ID := c, Name := "Category" },
    Coord := { X := 0, Y := 0 } }

/-- An image of a request with the given tags. -/
def imageWithTags (tags : List PostTagRequest) : PostImageRequest :=
  { Width := 1080, Height := 1350, URL := "https://example.com/original/1.jpg", Tags := tags }

/-- A valid request whose one image carries two tags of category 32. -/
def twoTagRequest : PostRequest :=
  { Title := "Title 1", Description := "Random Description", InfluencerName := "Random Name",
    Published := true,
    Images := [imageWithTags [tagWithCategory 32, tagWithCategory 32]] }

/-- A valid request with two images: the first carries ten tags of category 77,
the second carries one tag of category 32. -/
def elevenTagRequest (published : Bool) : PostRequest :=
  { Title := "Title 1", Description := "Random Description", InfluencerName := "Random Name",
    Published := published,
    Images := [imageWithTags (List.replicate 10 (tagWithCategory 77)),
               imageWithTags [tagWithCategory 32]] }

/-- A valid request without images. -/
def noImageRequest (published : Bool) : PostRequest :=
  { Title := "Title 2", Description := "Random Description", InfluencerName := "Random Name",
    Published := published, Images := [] }

/-- The store after Create of elevenTagRequest on the empty database. -/
def elevenTagStore (published : Bool) : Store :=
  (Create plainURL emptyStore 1700000000 7 (some (elevenTagRequest published))).store

/-- The HTTP status that a response is written with; none when nothing is written. -/
def responseStatus : Response → Option Nat
  | Response.error e => some e.HTTPCode
  | Response.post status _ => some status
  | Response.publish status _ => some status
  | Response.message status _ => some status
  | Response.like status _ => some status
  | Response.unprocessable => some 422
  | Response.aborted => none

/-! ## The admin index response (post.go), the sibling of Show -/

/-- One element of buildExclusivePostResponses (post.go 874-895): none when the
row has no updated_at, which the source dereferences. -/
def buildExclusivePostResponse (images : List PostImageEntity) (post : PostEntity) :
    Option PostExclusiveResponse :=
  match post.UpdatedAt with
  | none => none
  | some updatedAt =>
    some { ID := post.ID, Title := post.Title, Description := post.Description,
           InfluencerName := post.InfluencerName, Published := post.Published,
           LikeCount := normalizeLikeCount post.LikeCount,
           LastPublishedAt := timeToStringResponse post.LastPublishedAt,
           ModifiedAt := timeToStringResponse (some updatedAt),
           Images := buildImagesResponse (images.filter (fun image => image.PostID == post.ID)) }

/-- Function buildExclusivePostResponses (post.go). -/
def buildExclusivePostResponses : List PostEntity → List PostImageEntity →
    Option (List PostExclusiveResponse)
  | [], _ => some []
  | post :: posts, images =>
    match buildExclusivePostResponse images post with
    | none => none
    | some r =>
      match buildExclusivePostResponses posts images with
      | none => none
      | some rs => some (r :: rs)

/-! ## Search forms (search.go, post_filter.go, util.go) -/

/-- PostSearchForm (search.go).  The field postIDs is a Go slice: none is the nil
slice, some is a slice that has been allocated, possibly empty. -/
structure PostSearchForm where
  published : String
  keywords : String
  startDate : String
  finishDate : String
  dateRangeBy : String
  influencerID : Int
  limit : Nat
  offset : Nat
  sort : String
  filtered : Bool
  postIDs : Option (List Int)
  deriving DecidableEq, Repr

/-- The type url.Values: the values of each query parameter in order; a
parameter that is not in the query has no values. -/
abbrev Values := String → List String

/-- Method Get of url.Values: the first value of the key, or the empty text. -/
def Values.Get (v : Values) (key : String) : String :=
  match v key with
  | [] => ""
  | x :: _ => x

/-- Variable availableSortOptions (search.go). -/
def availableSortOptions : List String :=
  ["relevance", "date", "popular"]

/-- Variable availablePublishedValues (search.go). -/
def availablePublishedValues : List String :=
  ["1", "0", "true", "false"]

/-- Function isInSliceString (util.go). -/
def isInSliceString (v : String) : List String → Bool
  | [] => false
  | s :: slice => if v == s then true else isInSliceString v slice

/-- The number written by a text of decimal digits, read from the left on top
of the value so far; none when a character is not a digit. -/
def digitsValue : List Char → Nat → Option Nat
  | [], acc => some acc
  | c :: cs, acc => if c.isDigit then digitsValue cs (acc * 10 + (c.toNat - 48)) else none

/-- The number written by a non-empty text of decimal digits. -/
def decimalValue (s : String) : Option Nat :=
  match s.toList with
  | [] => none
  | c :: cs => digitsValue (c :: cs) 0

/-- The library call `strconv.ParseUint(s, 10, 8)`: the value of a non-empty text
of decimal digits that fits in 8 bits; none stands for a non-nil error (syntax
or range). -/
def parseUint8 (s : String) : Option Nat :=
  match decimalValue s with
  | none => none
  | some n => if n > 255 then none else some n

/-- Function getLimitOffsetFromURLQuery (util.go). -/
def getLimitOffsetFromURLQuery (uq : Values) : Nat × Nat :=
  let limit : Nat :=
    match parseUint8 (uq.Get "limit") with
    | none => 10
    | some limit => if limit > 25 || limit == 0 then 10 else limit
  let offset : Nat :=
    match parseUint8 (uq.Get "offset") with
    | none => 0
    | some offset => if offset > 10000 then 0 else offset
  (limit, offset)

/-- Method buildBasePostSearchForm (search.go). -/
def buildBasePostSearchForm (params : Values) : PostSearchForm :=
  let limit : Nat :=
    match parseUint8 (params.Get "limit") with
    | none => 10
    | some limit => if limit > 25 || limit == 0 then 10 else limit
  let offset : Nat :=
    match parseUint8 (params.Get "offset") with
    | none => 0
    | some offset => if offset > 10000 then 0 else offset
  let sort : String :=
    if !isInSliceString (params.Get "sort") availableSortOptions then "relevance"
    else params.Get "sort"
  { published := "", keywords := "", startDate := "", finishDate := "", dateRangeBy := "",
    influencerID := 0, limit := limit, offset := offset, sort := sort, filtered := false,
    postIDs := none }

/-- Method buildPublicPostSearchForm (search.go). -/
def buildPublicPostSearchForm (params : Values) : PostSearchForm :=
  { buildBasePostSearchForm params with published := "true" }

/-- Function strings.Split with the separator ":", on the characters of the text. -/
def splitColon : List Char → List (List Char)
  | [] => [[]]
  | c :: cs =>
    if c == ':' then [] :: splitColon cs
    else
      match splitColon cs with
      | [] => [[c]]
      | part :: parts => (c :: part) :: parts

/-- Function daysIn of the time library: the days of a month of a year. -/
def daysIn (year month : Nat) : Nat :=
  if month == 2 then
    (if year % 4 == 0 && (year % 100 != 0 || year % 400 == 0) then 29 else 28)
  else if month == 4 || month == 6 || month == 9 || month == 11 then 30
  else 31

/-- The library call `time.Parse(config.DateRangeSearchFormat, text ++ clock)` as
far as it depends on text, clock being one of the two constants of the source,
`T00:00:00+07:00` and `T23:59:59+07:00`, which always parse: the call succeeds
exactly when text is four digits, a dash, two digits, a dash and two digits
that name a month from 1 to 12 and a day of that month; none stands for a
non-nil error. -/
def parseDay : List Char → Option (Nat × Nat × Nat)
  | [y1, y2, y3, y4, s1, m1, m2, s2, d1, d2] =>
    if y1.isDigit && y2.isDigit && y3.isDigit && y4.isDigit && s1 == '-' && m1.isDigit &&
        m2.isDigit && s2 == '-' && d1.isDigit && d2.isDigit then
      let year := (y1.toNat - 48) * 1000 + (y2.toNat - 48) * 100 + (y3.toNat - 48) * 10
        + (y4.toNat - 48)
      let month := (m1.toNat - 48) * 10 + (m2.toNat - 48)
      let day := (d1.toNat - 48) * 10 + (d2.toNat - 48)
      if month < 1 || month > 12 then none
      else if day < 1 || day > daysIn year month then none
      else some (year, month, day)
    else none
  | _ => none

/-- The calendar day before a day; the day before 0000-01-01 is in year -1. -/
def previousDay (year month day : Nat) : Int × Nat × Nat :=
  if day > 1 then (Int.ofNat year, month, day - 1)
  else if month > 1 then (Int.ofNat year, month - 1, daysIn year (month - 1))
  else (Int.ofNat year - 1, 12, 31)

/-- Method UTC of the time library on a reading of the clock at offset +07:00:
the date and the second of the day seven hours earlier. -/
def utcFromPlus7 (year month day secondOfDay : Nat) : (Int × Nat × Nat) × Nat :=
  if secondOfDay ≥ 25200 then ((Int.ofNat year, month, day), secondOfDay - 25200)
  else (previousDay year month day, secondOfDay + 86400 - 25200)

/-- The year in the layout element 2006: four digits, after a minus sign for a
year before 0. -/
def formatYear (year : Int) : String :=
  if year < 0 then "-" ++ pad4 year.natAbs else pad4 year.natAbs

/-- Method Format with config.DatabaseDatetimeFormat on a date and a second of the day. -/
def formatDatabase (t : (Int × Nat × Nat) × Nat) : String :=
  formatYear t.1.1 ++ "-" ++ pad2 t.1.2.1 ++ "-" ++ pad2 t.1.2.2 ++ " " ++
    pad2 (t.2 / 3600) ++ ":" ++ pad2 (t.2 % 3600 / 60) ++ ":" ++ pad2 (t.2 % 60)

/-- One bound of the date range (search.go 107-125): the empty text for an empty
or unparsable part, else the UTC text of the part read at the given second of
the day at offset +07:00. -/
def dateBound (part : List Char) (secondOfDay : Nat) : String :=
  if part.isEmpty then ""
  else
    match parseDay part with
    | none => ""
    | some ymd => formatDatabase (utcFromPlus7 ymd.1 ymd.2.1 ymd.2.2 secondOfDay)

/-- The switch on date_range_by (search.go 127-138). -/
def dateRangeColumn (dateRangeBy : String) : String :=
  if dateRangeBy == "published_at" then "first_published_at"
  else if dateRangeBy == "modified_at" then "updated_at"
  else if dateRangeBy == "created_at" then "created_at"
  else ""

/-- The replacement of the pattern `[^a-zA-Z0-9 ]+` by the empty text. -/
def keepNameChars (s : String) : String :=
  String.mk (s.toList.filter isNameChar)

/-- Method buildExclusivePostSearchForm (search.go): none when the index
expression `dateRanges[1]` is out of range. -/
def buildExclusivePostSearchForm (params : Values) : Option PostSearchForm :=
  let published : String :=
    if !isInSliceString (params.Get "published") availablePublishedValues then ""
    else params.Get "published"
  let keywords := keepNameChars (params.Get "keywords")
  let dateRange : String :=
    if params.Get "date_range" != "" then params.Get "date_range" else ":"
  match splitColon dateRange.toList with
  | [] => none
  | [_] => none
  | first :: second :: _ =>
    some { buildBasePostSearchForm params with
           sort := "created", published := published, keywords := keywords,
           startDate := dateBound first 0, finishDate := dateBound second 86399,
           dateRangeBy := dateRangeColumn (params.Get "date_range_by") }

/-- Method buildHomepageSearchForm (search.go). -/
def buildHomepageSearchForm (params : Values) : PostSearchForm :=
  { buildBasePostSearchForm params with
    sort := "relevance", published := "true",
    limit := if (buildBasePostSearchForm params).offset > 0 then 0 else 10 }

/-- Method buildSelectedPostsSearchForm (search.go). -/
def buildSelectedPostsSearchForm (params : Values) : PostSearchForm :=
  let limit : Nat :=
    match parseUint8 (params.Get "limit") with
    | none => 3
    | some limit => if limit > 25 || limit == 0 then 3 else limit
  { published := "true", keywords := "", startDate := "", finishDate := "", dateRangeBy := "",
    influencerID := 0, limit := limit, offset := 0, sort := "relevance", filtered := false,
    postIDs := none }

/-- Method buildInfluencerIndexPostSearchForm (search.go). -/
def buildInfluencerIndexPostSearchForm (params : Values) (influencerID : Int) :
    PostSearchForm :=
  { buildBasePostSearchForm params with published := "true", influencerID := influencerID }

/-- Method applyFilters (post_filter.go): append on a nil slice allocates it. -/
def applyFilters (form : PostSearchForm) (filters : List PostFilterEntity) : PostSearchForm :=
  { form with
    filtered := true,
    postIDs := filters.foldl (fun ids f =>
      match ids with
      | none => some [f.PostID]
      | some l => some (l ++ [f.PostID])) form.postIDs }

/-- Function strings.Join. -/
def stringsJoin (sep : String) : List String → String
  | [] => ""
  | [a] => a
  | a :: b :: rest => a ++ sep ++ stringsJoin sep (b :: rest)

/-- Function joinSliceInt64 (util.go). -/
def joinSliceInt64 (values : List Int) : String :=
  stringsJoin "," (values.map (fun v => toString v))

/-- The conditions of buildWhereQuery (search.go 194-220), in order. -/
def whereConditions (form : PostSearchForm) : List String :=
  let c0 : List String := ["deleted=false"]
  let c1 := if form.published != "" then c0 ++ ["published=" ++ form.published] else c0
  let c2 :=
    if form.keywords != "" then c1 ++ ["influencer_name LIKE '%" ++ form.keywords ++ "%'"]
    else c1
  let c3 :=
    if form.dateRangeBy != "" then
      let d1 :=
        if form.startDate != "" then c2 ++ ["'" ++ form.startDate ++ "' <= " ++ form.dateRangeBy]
        else c2
      if form.finishDate != "" then d1 ++ [form.dateRangeBy ++ " <= '" ++ form.finishDate ++ "'"]
      else d1
    else c2
  let c4 :=
    if form.influencerID != 0 then c3 ++ ["influencer_id=" ++ toString form.influencerID] else c3
  if form.filtered then
    c4 ++ ["id IN (" ++ (match form.postIDs with
                         | none => "NULL"
                         | some ids => joinSliceInt64 ids) ++ ")"]
  else c4

/-- Method buildWhereQuery (search.go). -/
def buildWhereQuery (form : PostSearchForm) : String :=
  "WHERE " ++ stringsJoin " AND " (whereConditions form) ++ " "

/-- Method buildOrderQuery (search.go). -/
def buildOrderQuery (form : PostSearchForm) : String :=
  let sort : String :=
    if form.sort == "date" then "first_published_at DESC"
    else if form.sort == "popular" then "like_count DESC, first_published_at DESC"
    else if form.sort == "relevance" then "score DESC, first_published_at DESC"
    else if form.sort == "created" then "created_at DESC"
    else ""
  "ORDER BY " ++ sort ++ " "

/-- Method buildLimitQuery (search.go). -/
def buildLimitQuery (form : PostSearchForm) : String :=
  "LIMIT " ++ toString form.limit ++ " "

/-- Method buildOffsetQuery (search.go). -/
def buildOffsetQuery (form : PostSearchForm) : String :=
  "OFFSET " ++ toString form.offset ++ " "

/-! ## Sample data for the search and validation statements -/

/-- A request whose one image has width 0. -/
def zeroWidthRequest : PostRequest :=
  { Title := "Title 3", Description := "Random Description", InfluencerName := "Random Name",
    Published := true,
    Images := [{ Width := 0, Height := 1350, URL := "https://example.com/original/1.jpg",
                 Tags := [] }] }

/-- The query parameters of a list of key and value pairs, in the order given
(the url.Values of `k1=v1&k2=v2`). -/
def queryOf (pairs : List (String × String)) : Values :=
  fun key => (pairs.filter (fun p => p.1 == key)).map (fun p => p.2)

/-- A search form with every field at its zero value except the sort key. -/
def formWithSort (sort : String) : PostSearchForm :=
  { published := "", keywords := "", startDate := "", finishDate := "", dateRangeBy := "",
    influencerID := 0, limit := 10, offset := 0, sort := sort, filtered := false,
    postIDs := none }

/-- A public search form on which a filter was applied and whose post id list
is the given one. -/
def formWithPostIDs (postIDs : Option (List Int)) : PostSearchForm :=
  { published := "true", keywords := "", startDate := "", finishDate := "", dateRangeBy := "",
    influencerID := 0, limit := 10, offset := 0, sort := "relevance", filtered := true,
    postIDs := postIDs }

/-- The text YYYY-MM-DD of a calendar date. -/
def dateText (year month day : Nat) : String :=
  pad4 year ++ "-" ++ pad2 month ++ "-" ++ pad2 day

/-! ## The soft-delete invariant -/

/-- Every deleted row of posts is unpublished. -/
def DeletedUnpublished (s : Store) : Prop :=
  ∀ p ∈ s.posts, p.Deleted = true → p.Published = false

/-- The primary key of posts (id, AUTO_INCREMENT): the ids of the rows are
distinct and below the next id that the table gives out. -/
structure PostKeys (s : Store) : Prop where
  nodup : (s.posts.map (fun p => p.ID)).Nodup
  issued : ∀ p ∈ s.posts, p.ID < s.nextPostID

/-- How one handler call changes the flags of the posts table: not at all, by a
new row that is not deleted and has the next id, or by a row update `WHERE id=?`
that either keeps the deleted flag (and, unless the row that was read is not
deleted, the published flag too) or sets deleted and clears published. -/
inductive FlagsChange (s t : Store) : Prop where
  | same : t.posts = s.posts → t.nextPostID = s.nextPostID → FlagsChange s t
  | insert (row : PostEntity) : t.posts = s.posts ++ [row] → row.ID = s.nextPostID →
      row.Deleted = false → t.nextPostID = s.nextPostID + 1 → FlagsChange s t
  | update (postID : Int) (row : PostEntity) (f : PostEntity → PostEntity) :
      postRow s postID = some row →
      t.posts = s.posts.map (fun p => if p.ID == postID then f p else p) →
      (∀ p, (f p).ID = p.ID) → t.nextPostID = s.nextPostID →
      (∀ p, ((f p).Deleted = p.Deleted ∧
              (row.Deleted = false ∨ (f p).Published = p.Published)) ∨
            ((f p).Deleted = true ∧ (f p).Published = false)) →
      FlagsChange s t

/-- The store createdStore after Delete of post 1. -/
def deletedStore : Store :=
  (Delete createdStore 1700000200 7 (some 1)).store

/-! ## Sample data for the tag url, ledger and history statements -/

/-- A tag url reader that fails on the url `://bad`, which url.Parse rejects
(missing protocol scheme), and finds no reference in any other url. -/
def rejectBadURL (url : String) : Option (Int × String) :=
  if url == "://bad" then none else some (0, "")

/-- A valid request whose second tag has the url `://bad`. -/
def badURLRequest : PostRequest :=
  { Title := "Title 4", Description := "Random Description", InfluencerName := "Random Name",
    Published := true,
    Images := [imageWithTags [tagWithCategory 32,
                 { Name := "Tag", URL := "://bad", Category := { ID := 32, Name := "Category" },
                   Coord := { X := 0, Y := 0 } }]] }

/-- A valid published request whose one image carries a tag with the category
(0, Misc) and a tag without a category. -/
def mixedTagRequest : PostRequest :=
  { Title := "Title 5", Description := "Random Description", InfluencerName := "Random Name",
    Published := true,
    Images := [imageWithTags
                 [{ Name := "Tag 1", URL := "https://example.com/p/1",
                    Category := { ID := 0, Name := "Misc" }, Coord := { X := 0, Y := 0 } },
                  { Name := "Tag 2", URL := "https://example.com/p/2",
                    Category := zeroCategory, Coord := { X := 0, Y := 0 } }]] }

/-- The store after Create of mixedTagRequest on the empty database. -/
def mixedTagStore : Store :=
  (Create plainURL emptyStore 1700000000 7 (some mixedTagRequest)).store

/-- The nine tracked fields of a history record, each with the rendered old
and new value, in the order in which buildChanges lists them in its source. -/
def trackedFields (phd : PostHistoryData) : List (String × String × String) :=
  [ ("title", phd.Was.Title, phd.Now.Title),
    ("description", phd.Was.Description, phd.Now.Description),
    ("influencer_name", phd.Was.InfluencerName, phd.Now.InfluencerName),
    ("published", boolText phd.Was.Published, boolText phd.Now.Published),
    ("deleted", boolText phd.Was.Deleted, boolText phd.Now.Deleted),
    ("first_published_at", timeToStringResponse phd.Was.FirstPublishedAt,
      timeToStringResponse phd.Now.FirstPublishedAt),
    ("last_published_at", timeToStringResponse phd.Was.LastPublishedAt,
      timeToStringResponse phd.Now.LastPublishedAt),
    ("created_at", timeToStringResponse phd.Was.CreatedAt, timeToStringResponse phd.Now.CreatedAt),
    ("updated_at", timeToStringResponse phd.Was.UpdatedAt, timeToStringResponse phd.Now.UpdatedAt) ]

/-- The history record of a call that found post 1 of the sample store and
left it as it was. -/
def unchangedRecord : PostHistoryData :=
  { PostID := 1, ActorID := 7, Was := (findPost createdStore 1).getD zeroPostEntity,
    Now := (findPost createdStore 1).getD zeroPostEntity }

/-! ## The publish timeline of published rows -/

/-- Every published row of posts has a last publish instant. -/
def PublishedTimeline (s : Store) : Prop :=
  ∀ p ∈ s.posts, p.Published = true → p.LastPublishedAt ≠ none

/-! ## Like rows and the like counter -/

/-- The number of like rows of a post with liked=true. -/
def likedCount (s : Store) (postID : Int) : Nat :=
  s.post_likes.countP (fun r => r.PostID == postID && r.Liked)

/-- The key of post_likes as Like uses it: at most one row per post and user. -/
def LikeKeys (s : Store) : Prop :=
  ∀ (postID : Int) (userID : Nat),
    s.post_likes.countP (fun r => r.PostID == postID && r.BukalapakUserID == userID) ≤ 1

/-- The sample store after user 7 has liked post 1. -/
def likedStore : Store :=
  (Like createdStore 7 (some 1)).store

/-! ## The shape of a database datetime text -/

/-- A text of the form YYYY-MM-DD HH:MM:SS: nineteen characters, digits but for
the two dashes, the blank and the two colons. -/
def isDatabaseDatetime (text : String) : Bool :=
  match text.toList with
  | [y1, y2, y3, y4, s1, m1, m2, s2, d1, d2, b, h1, h2, c1, n1, n2, c2, e1, e2] =>
    y1.isDigit && y2.isDigit && y3.isDigit && y4.isDigit && s1 == '-' && m1.isDigit &&
      m2.isDigit && s2 == '-' && d1.isDigit && d2.isDigit && b == ' ' && h1.isDigit &&
      h2.isDigit && c1 == ':' && n1.isDigit && n2.isDigit && c2 == ':' && e1.isDigit &&
      e2.isDigit
  | _ => false

/-- The single quote, the character that closes a text in the WHERE clause. -/
def quoteChar : Char := Char.ofNat 39

/-! ## Influencer names and usernames (influencer.go) -/

/-- Function getInfluencerUsernameFromName (influencer.go): strings.ToLower, here
on the ASCII letters, and every blank replaced by a dash. -/
def getInfluencerUsernameFromName (name : String) : String :=
  String.mk ((name.toList.map Char.toLower).map (fun c => if c == ' ' then '-' else c))

/-- Function getInfluencerNameFromUsername (influencer.go): every dash replaced
by a blank, then normalizeInfluencerName. -/
def getInfluencerNameFromUsername (username : String) : String :=
  normalizeInfluencerName
    (String.mk (username.toList.map (fun c => if c == '-' then ' ' else c)))

/-- One difference between two names that the normal form ignores: the case of
one letter, one character that is neither a letter, a digit nor a blank, a
blank at the start or at the end, or a blank next to a blank. -/
inductive NameEdit : List Char → List Char → Prop where
  | letterCase (a b : List Char) (c d : Char) : c.toLower = d.toLower →
      NameEdit (a ++ c :: b) (a ++ d :: b)
  | otherChar (a b : List Char) (c : Char) : isNameChar c = false →
      NameEdit (a ++ c :: b) (a ++ b)
  | leadingBlank (a : List Char) : NameEdit (' ' :: a) a
  | trailingBlank (a : List Char) : NameEdit (a ++ [' ']) a
  | repeatedBlank (a b : List Char) : NameEdit (a ++ ' ' :: ' ' :: b) (a ++ ' ' :: b)

/-- The filter and the lower-casing of normalizeInfluencerName on a list of
characters. -/
def lowerKept (l : List Char) : List Char :=
  (l.filter isNameChar).map Char.toLower

/-- A word with its first character in upper case. -/
def capitalize : List Char → List Char
  | [] => []
  | c :: cs => c.toUpper :: cs

/-- Words joined by single blanks. -/
def joinWords : List (List Char) → List Char
  | [] => []
  | [w] => w
  | w :: v :: rest => w ++ ' ' :: joinWords (v :: rest)

/-! ## Properties -/

/-! ### Reading a post -/

theorem findPost_eq_none {s : Store} {postID : Int} :
    findPost s postID = none ↔ postRow s postID = none := by
  unfold findPost postRow
  cases s.posts.find? (fun p => p.ID == postID) <;> simp

theorem findPost_eq_some {s : Store} {postID : Int} {post : PostEntity}
    (h : findPost s postID = some post) :
    ∃ row, postRow s postID = some row ∧
      post = { row with Images :=
        mergeTagsToImages (findImagesByPostID s postID) (findTagsByPostID s postID) } := by
  unfold findPost at h
  unfold postRow
  cases hrow : s.posts.find? (fun p => p.ID == postID) with
  | none => simp [hrow] at h
  | some row =>
    simp only [hrow, Option.some.injEq] at h
    exact ⟨row, rfl, h.symm⟩

theorem postRow_mem {s : Store} {postID : Int} {row : PostEntity}
    (h : postRow s postID = some row) : row ∈ s.posts ∧ row.ID = postID := by
  unfold postRow at h
  refine ⟨List.mem_of_find?_eq_some h, ?_⟩
  have := List.find?_some h
  simpa using this

/-! ### C10: a missing or soft-deleted post -/

/-- C10: for a post id that is absent or refers to a soft-deleted post, Show,
Update with a valid body, Publish with any body and Delete answer with
PostNotFoundError, whose HTTP code is 404, and return the store they were given. -/
theorem notFound_leaves_store_unchanged (parseTagURL : String → Option (Int × String))
    (s : Store) (now : Time) (userID : Nat) (postID : Int)
    (h : ∀ p ∈ s.posts, p.ID = postID → p.Deleted = true) :
    Show s (some postID) = { store := s, response := Response.error PostNotFoundError } ∧
    (∀ pr : PostRequest, pr.isValid = true →
      Update parseTagURL s now userID (some postID) (some pr)
        = { store := s, response := Response.error PostNotFoundError }) ∧
    (∀ body : Option Bool,
      Publish s now userID (some postID) body
        = { store := s, response := Response.error PostNotFoundError }) ∧
    Delete s now userID (some postID)
      = { store := s, response := Response.error PostNotFoundError } ∧
    PostNotFoundError.HTTPCode = 404 := by
  have hdel : ∀ post, findPost s postID = some post → post.Deleted = true := by
    intro post hpost
    obtain ⟨row, hrow, rfl⟩ := findPost_eq_some hpost
    obtain ⟨hmem, hid⟩ := postRow_mem hrow
    exact h row hmem hid
  refine ⟨?_, ?_, ?_, ?_, rfl⟩
  · cases hf : findPost s postID with
    | none => simp [Show, hf]
    | some post => simp [Show, hf, hdel post hf]
  · intro pr hpr
    cases hf : findPost s postID with
    | none => simp [Update, hf, hpr]
    | some post => simp [Update, hf, hpr, hdel post hf]
  · intro body
    cases hf : findPost s postID with
    | none => simp [Publish, hf]
    | some post => simp [Publish, hf, hdel post hf]
  · cases hf : findPost s postID with
    | none => simp [Delete, hf]
    | some post => simp [Delete, hf, hdel post hf]

/-- Witness of C10: a store whose post 1 is soft-deleted. -/
theorem notFound_leaves_store_unchanged_witness :
    (∀ p ∈ (storeWithPost (samplePost 1 false true 0 none none)).posts, p.ID = 1 → p.Deleted = true) ∧
    Delete (storeWithPost (samplePost 1 false true 0 none none)) 1600000000 7 (some 1)
      = { store := storeWithPost (samplePost 1 false true 0 none none),
          response := Response.error PostNotFoundError } :=
  ⟨by decide,
   (notFound_leaves_store_unchanged plainURL (storeWithPost (samplePost 1 false true 0 none none))
      1600000000 7 1 (by decide)).2.2.2.1⟩

/-! ### The like counter -/

theorem find?_map_keepID (f : PostEntity → PostEntity) (hf : ∀ p, (f p).ID = p.ID)
    (l : List PostEntity) (postID : Int) :
    (l.map f).find? (fun p => p.ID == postID) = (l.find? (fun p => p.ID == postID)).map f := by
  induction l with
  | nil => rfl
  | cons x xs ih =>
    by_cases hx : (x.ID == postID) = true
    · simp [List.find?_cons, hf, hx]
    · simp only [Bool.not_eq_true] at hx
      simp [List.find?_cons, hf, hx, ih]

theorem isPostPresent_iff {s : Store} {postID : Int} :
    isPostPresent s postID = true ↔ ∃ row, postRow s postID = some row := by
  unfold isPostPresent postRow
  induction s.posts with
  | nil => simp
  | cons x xs ih =>
    by_cases hx : (x.ID == postID) = true
    · simp [List.find?_cons, hx]
    · simp only [Bool.not_eq_true] at hx
      simp [List.find?_cons, hx, ih]

theorem writeLike_posts (s : Store) (postID : Int) (userID : Nat) (like : PostLikeEntity) :
    (writeLike s postID userID like).posts = s.posts := by
  unfold writeLike
  split <;> rfl

/-- Like on a present post, in closed form. -/
theorem Like_present {s : Store} {postID : Int} {row : PostEntity} (userID : Nat)
    (hrow : postRow s postID = some row) :
    Like s userID (some postID) =
      { store := likeStatements s postID userID (findLike s postID userID),
        response := Response.like 202
          { UserLike := !(findLike s postID userID).Liked,
            Count := row.LikeCount + likeFactor (findLike s postID userID) } } := by
  have hp : isPostPresent s postID = true := isPostPresent_iff.2 ⟨row, hrow⟩
  have hrow2 : (writeLike s postID userID (findLike s postID userID)).posts.find?
      (fun p => p.ID == postID) = some row := by
    rw [writeLike_posts]; exact hrow
  unfold postRow at hrow
  simp only [Like, hp, Bool.not_true, Bool.false_eq_true, if_false, writeLike_posts, hrow]

theorem likeStatements_posts (s : Store) (postID : Int) (userID : Nat) (like : PostLikeEntity) :
    (likeStatements s postID userID like).posts = s.posts.map (fun p =>
      if p.ID == postID then { p with LikeCount := p.LikeCount + likeFactor like } else p) := by
  unfold likeStatements
  simp only [writeLike_posts]

theorem likeStatements_post_likes (s : Store) (postID : Int) (userID : Nat)
    (like : PostLikeEntity) :
    (likeStatements s postID userID like).post_likes
      = (writeLike s postID userID like).post_likes := rfl

theorem postRow_bump (s t : Store) (postID : Int) (d : Int)
    (ht : t.posts = s.posts.map (fun p =>
      if p.ID == postID then { p with LikeCount := p.LikeCount + d } else p)) :
    postRow t postID = (postRow s postID).map (fun p => { p with LikeCount := p.LikeCount + d }) := by
  unfold postRow
  rw [ht, find?_map_keepID _ (by intro p; split <;> rfl)]
  cases h : s.posts.find? (fun p => p.ID == postID) with
  | none => rfl
  | some row =>
    have hid : (row.ID == postID) = true :=
      List.find?_some (p := fun p : PostEntity => p.ID == postID) h
    have hid2 : row.ID = postID := by simpa using hid
    simp [hid2]

theorem findLike_absent {s : Store} {postID : Int} {userID : Nat}
    (h : (findLike s postID userID).Present = false) :
    s.post_likes.find? (fun r => r.PostID == postID && r.BukalapakUserID == userID) = none := by
  unfold findLike at h
  cases hf : s.post_likes.find? (fun r => r.PostID == postID && r.BukalapakUserID == userID) with
  | none => rfl
  | some r => simp [hf] at h

theorem findLike_present {s : Store} {postID : Int} {userID : Nat} {b : Bool}
    (h : findLike s postID userID = { Present := true, Liked := b }) :
    ∃ r, s.post_likes.find? (fun r => r.PostID == postID && r.BukalapakUserID == userID) = some r
      ∧ r.Liked = b := by
  unfold findLike at h
  cases hf : s.post_likes.find? (fun r => r.PostID == postID && r.BukalapakUserID == userID) with
  | none => simp [hf] at h
  | some r =>
    simp only [hf, PostLikeEntity.mk.injEq, true_and] at h
    exact ⟨r, rfl, h⟩

theorem find?_map_keepKey (f : PostLikeRow → PostLikeRow)
    (hf : ∀ r, (f r).PostID = r.PostID ∧ (f r).BukalapakUserID = r.BukalapakUserID)
    (l : List PostLikeRow) (postID : Int) (userID : Nat) :
    (l.map f).find? (fun r => r.PostID == postID && r.BukalapakUserID == userID)
      = (l.find? (fun r => r.PostID == postID && r.BukalapakUserID == userID)).map f := by
  induction l with
  | nil => rfl
  | cons x xs ih =>
    by_cases hx : (x.PostID == postID && x.BukalapakUserID == userID) = true
    · simp [List.find?_cons, hf, hx]
    · simp only [Bool.not_eq_true] at hx
      simp [List.find?_cons, hf, hx, ih]

/-- The like state of a user after Like has written the like row. -/
theorem findLike_writeLike (s : Store) (postID : Int) (userID : Nat) :
    findLike (writeLike s postID userID (findLike s postID userID)) postID userID
      = { Present := true, Liked := !(findLike s postID userID).Liked } := by
  cases hp : (findLike s postID userID).Present with
  | false =>
    have hnone := findLike_absent hp
    have hl : (findLike s postID userID).Liked = false := by
      unfold findLike; rw [hnone]
    unfold writeLike
    simp only [hp, Bool.not_false, if_true, hl]
    unfold findLike
    simp [List.find?_append, hnone]
  | true =>
    obtain ⟨r, hr, _⟩ := findLike_present
      (show findLike s postID userID = { Present := true, Liked := (findLike s postID userID).Liked } by
        rw [← hp])
    have hkey : (r.PostID == postID && r.BukalapakUserID == userID) = true :=
      List.find?_some
        (p := fun r : PostLikeRow => r.PostID == postID && r.BukalapakUserID == userID) hr
    have hkey2 : r.PostID = postID ∧ r.BukalapakUserID = userID := by simpa using hkey
    have hfl : findLike s postID userID = { Present := true, Liked := r.Liked } := by
      unfold findLike; rw [hr]
    rw [hfl]
    unfold writeLike
    simp only [Bool.not_true, Bool.false_eq_true, if_false]
    unfold findLike
    rw [find?_map_keepKey _ (by intro r; split <;> exact ⟨rfl, rfl⟩), hr]
    simp [hkey2]

theorem findLike_congr {s t : Store} (h : t.post_likes = s.post_likes) (postID : Int)
    (userID : Nat) : findLike t postID userID = findLike s postID userID := by
  unfold findLike; rw [h]

theorem writeLike_length (s : Store) (postID : Int) (userID : Nat) (like : PostLikeEntity)
    (h : like.Present = true) :
    (writeLike s postID userID like).post_likes.length = s.post_likes.length := by
  unfold writeLike
  simp [h]

/-- C7: on an existing post whose stored counter is k, Like makes exactly one of
three transitions, chosen by the like row of the user.  No row: a row with
liked=true is appended, the counter becomes k+1 and the response is (true, k+1).
Row with liked=true: the row becomes liked=false, no row is added, the counter
becomes k-1 and the response is (false, k-1).  Row with liked=false: the row
becomes liked=true, no row is added, the counter becomes k+1 and the response
is (true, k+1). -/
theorem like_performs_one_of_three_transitions (s : Store) (userID : Nat) (postID : Int)
    (row : PostEntity) (k : Int) (hrow : postRow s postID = some row) (hk : row.LikeCount = k) :
    ((findLike s postID userID).Present = false ∨
      findLike s postID userID = { Present := true, Liked := true } ∨
      findLike s postID userID = { Present := true, Liked := false }) ∧
    ((findLike s postID userID).Present = false →
      (Like s userID (some postID)).store.post_likes
        = s.post_likes ++ [{ PostID := postID, BukalapakUserID := userID, Liked := true }] ∧
      findLike (Like s userID (some postID)).store postID userID
        = { Present := true, Liked := true } ∧
      (postRow (Like s userID (some postID)).store postID).map (fun p => p.LikeCount)
        = some (k + 1) ∧
      (Like s userID (some postID)).response
        = Response.like 202 { UserLike := true, Count := k + 1 }) ∧
    (findLike s postID userID = { Present := true, Liked := true } →
      findLike (Like s userID (some postID)).store postID userID
        = { Present := true, Liked := false } ∧
      (Like s userID (some postID)).store.post_likes.length = s.post_likes.length ∧
      (postRow (Like s userID (some postID)).store postID).map (fun p => p.LikeCount)
        = some (k - 1) ∧
      (Like s userID (some postID)).response
        = Response.like 202 { UserLike := false, Count := k - 1 }) ∧
    (findLike s postID userID = { Present := true, Liked := false } →
      findLike (Like s userID (some postID)).store postID userID
        = { Present := true, Liked := true } ∧
      (Like s userID (some postID)).store.post_likes.length = s.post_likes.length ∧
      (postRow (Like s userID (some postID)).store postID).map (fun p => p.LikeCount)
        = some (k + 1) ∧
      (Like s userID (some postID)).response
        = Response.like 202 { UserLike := true, Count := k + 1 }) := by
  subst hk
  have hcount : ∀ like : PostLikeEntity,
      (postRow (likeStatements s postID userID like) postID).map (fun p => p.LikeCount)
        = some (row.LikeCount + likeFactor like) := by
    intro like
    rw [postRow_bump s _ postID _ (likeStatements_posts s postID userID like), hrow]
    rfl
  have hafter : findLike (Like s userID (some postID)).store postID userID
      = { Present := true, Liked := !(findLike s postID userID).Liked } := by
    rw [Like_present userID hrow]
    exact (findLike_congr rfl postID userID).trans (findLike_writeLike s postID userID)
  refine ⟨?_, ?_, ?_, ?_⟩
  · cases hp : (findLike s postID userID).Present with
    | false => exact Or.inl rfl
    | true =>
      right
      have e : findLike s postID userID
          = { Present := (findLike s postID userID).Present,
              Liked := (findLike s postID userID).Liked } := rfl
      cases hl : (findLike s postID userID).Liked with
      | true => left; rw [hp, hl] at e; exact e
      | false => right; rw [hp, hl] at e; exact e
  · intro hp
    have hl : (findLike s postID userID).Liked = false := by
      have hnone := findLike_absent hp
      unfold findLike; rw [hnone]
    have hf : likeFactor (findLike s postID userID) = 1 := by simp [likeFactor, hp]
    refine ⟨?_, ?_, ?_, ?_⟩
    · rw [Like_present userID hrow]
      show (writeLike s postID userID (findLike s postID userID)).post_likes = _
      simp [writeLike, hp]
    · rw [hafter, hl]; rfl
    · rw [Like_present userID hrow]
      have := hcount (findLike s postID userID)
      rw [hf] at this
      exact this
    · rw [Like_present userID hrow, hf, hl]; rfl
  · intro hfl
    have hf : likeFactor (findLike s postID userID) = -1 := by simp [likeFactor, hfl]
    refine ⟨?_, ?_, ?_, ?_⟩
    · rw [hafter, hfl]; rfl
    · rw [Like_present userID hrow]
      exact writeLike_length s postID userID _ (by rw [hfl])
    · rw [Like_present userID hrow]
      have := hcount (findLike s postID userID)
      rw [hf] at this
      exact this
    · rw [Like_present userID hrow, hf, hfl]; rfl
  · intro hfl
    have hf : likeFactor (findLike s postID userID) = 1 := by simp [likeFactor, hfl]
    refine ⟨?_, ?_, ?_, ?_⟩
    · rw [hafter, hfl]; rfl
    · rw [Like_present userID hrow]
      exact writeLike_length s postID userID _ (by rw [hfl])
    · rw [Like_present userID hrow]
      have := hcount (findLike s postID userID)
      rw [hf] at this
      exact this
    · rw [Like_present userID hrow, hf, hfl]; rfl

/-- Witness of C7: the post of TestLike, with counter 10 and no like row. -/
theorem like_performs_one_of_three_transitions_witness :
    postRow (storeWithPost (samplePost 1 true false 10 none none)) 1
      = some (samplePost 1 true false 10 none none) ∧
    (Like (storeWithPost (samplePost 1 true false 10 none none)) 7 (some 1)).response
      = Response.like 202 { UserLike := true, Count := 10 + 1 } :=
  ⟨by decide,
   ((like_performs_one_of_three_transitions (storeWithPost (samplePost 1 true false 10 none none))
      7 1 (samplePost 1 true false 10 none none) 10 (by decide) (by decide)).2.1 (by decide)).2.2.2⟩

/-- C8: on a present post, two consecutive Like calls of one user both succeed
and leave every posts row, hence the like_count of the post, as it was before
the first call, whatever the like state of the user was. -/
theorem like_twice_restores_count (s : Store) (userID : Nat) (postID : Int)
    (h : isPostPresent s postID = true) :
    (∃ l, (Like s userID (some postID)).response = Response.like 202 l) ∧
    (∃ l, (Like (Like s userID (some postID)).store userID (some postID)).response
      = Response.like 202 l) ∧
    (Like (Like s userID (some postID)).store userID (some postID)).store.posts = s.posts ∧
    (postRow (Like (Like s userID (some postID)).store userID (some postID)).store postID).map
        (fun p => p.LikeCount)
      = (postRow s postID).map (fun p => p.LikeCount) := by
  obtain ⟨row, hrow⟩ := isPostPresent_iff.1 h
  have h1 := Like_present userID hrow
  have hrow1 : postRow (Like s userID (some postID)).store postID
      = some { row with LikeCount := row.LikeCount + likeFactor (findLike s postID userID) } := by
    rw [h1, postRow_bump s _ postID _ (likeStatements_posts s postID userID _), hrow]; rfl
  have h2 := Like_present userID hrow1
  have hfl : findLike (Like s userID (some postID)).store postID userID
      = { Present := true, Liked := !(findLike s postID userID).Liked } := by
    rw [h1]
    exact (findLike_congr rfl postID userID).trans (findLike_writeLike s postID userID)
  have hsum : likeFactor (findLike s postID userID)
      + likeFactor (findLike (Like s userID (some postID)).store postID userID) = 0 := by
    rw [hfl]
    cases hp : (findLike s postID userID).Present with
    | false =>
      have hl : (findLike s postID userID).Liked = false := by
        have hnone := findLike_absent hp
        unfold findLike; rw [hnone]
      simp [likeFactor, hp, hl]
    | true =>
      cases hl : (findLike s postID userID).Liked <;> simp [likeFactor, hp, hl]
  have hposts : (Like (Like s userID (some postID)).store userID (some postID)).store.posts
      = s.posts := by
    rw [h2]
    show (likeStatements _ postID userID _).posts = s.posts
    rw [likeStatements_posts]
    rw [h1]
    show List.map _ (likeStatements s postID userID _).posts = s.posts
    rw [likeStatements_posts, List.map_map]
    conv_rhs => rw [← List.map_id s.posts]
    apply List.map_congr_left
    intro p _
    by_cases hp : (p.ID == postID) = true
    · simp only [Function.comp, hp, if_true, id]
      have : p.LikeCount + likeFactor (findLike s postID userID)
          + likeFactor (findLike (Like s userID (some postID)).store postID userID)
          = p.LikeCount := by omega
      rw [h1] at this
      rw [this]
    · simp only [Function.comp, hp, if_false, id, Bool.false_eq_true]
  refine ⟨⟨_, by rw [h1]⟩, ⟨_, by rw [h2]⟩, hposts, ?_⟩
  unfold postRow
  rw [hposts]

/-- Witness of C8: the post of TestLike, liked twice by user 7. -/
theorem like_twice_restores_count_witness :
    isPostPresent (storeWithPost (samplePost 1 true false 10 none none)) 1 = true ∧
    (Like (Like (storeWithPost (samplePost 1 true false 10 none none)) 7 (some 1)).store 7
        (some 1)).store.posts
      = (storeWithPost (samplePost 1 true false 10 none none)).posts :=
  ⟨by decide,
   (like_twice_restores_count (storeWithPost (samplePost 1 true false 10 none none)) 7 1
      (by decide)).2.2.1⟩

/-- C9: on a post whose stored like_count is -3, Show answers with like count -3
and Like (no like row yet) answers with like count -2; neither handler calls
normalizeLikeCount, which maps both values to 0 and which the admin index
applies to the same row. -/
theorem show_and_like_answer_negative_count :
    likeCountInResponse
        (Show (storeWithPost (samplePost 1 true false (-3) none none)) (some 1)).response
      = some (-3) ∧
    likeCountInResponse
        (Like (storeWithPost (samplePost 1 true false (-3) none none)) 7 (some 1)).response
      = some (-2) ∧
    normalizeLikeCount (-3) = 0 ∧ normalizeLikeCount (-2) = 0 ∧
    (buildExclusivePostResponses [samplePost 1 true false (-3) none none] []).map
        (fun rs => rs.map (fun r => r.LikeCount)) = some [0] := by
  decide

/-! ### Frames: what each helper leaves alone -/

theorem incrementCategoryCount_eq (now : Time) (s : Store) (c : Int) :
    incrementCategoryCount now s c = { s with categories := bumpCount now 1 s.categories c } :=
  rfl

theorem decrementCategoryCount_eq (now : Time) (s : Store) (c : Int) :
    decrementCategoryCount now s c = { s with categories := bumpCount now (-1) s.categories c } :=
  rfl

theorem foldl_bump_store (now : Time) (d : Int) (f : Store → Int → Store)
    (hf : ∀ s c, f s c = { s with categories := bumpCount now d s.categories c })
    (ids : List Int) (s : Store) :
    ids.foldl f s = { s with categories := ids.foldl (bumpCount now d) s.categories } := by
  induction ids generalizing s with
  | nil => rfl
  | cons c cs ih => simp only [List.foldl_cons, ih, hf]

theorem foldl_tags_eq {α : Type} (f : Store → Int → Store) (g : α → Int) (s : Store)
    (l : List α) : l.foldl (fun s x => f s (g x)) s = (l.map g).foldl f s := by
  induction l generalizing s with
  | nil => rfl
  | cons x xs ih => simp only [List.foldl_cons, List.map_cons, ih]

theorem foldl_images_eq (f : Store → Int → Store) (images : List PostImageEntity) (s : Store) :
    images.foldl (fun s image =>
        image.Tags.foldl (fun s tag => f s tag.BukalapakCategoryID) s) s
      = (images.flatMap (fun image => image.Tags.map (fun tag => tag.BukalapakCategoryID))).foldl f s := by
  induction images generalizing s with
  | nil => rfl
  | cons x xs ih =>
    rw [List.foldl_cons, List.flatMap_cons, List.foldl_append, ih,
      foldl_tags_eq f (fun tag : PostTagEntity => tag.BukalapakCategoryID)]

/-- The bulk decrement in closed form: only the categories table changes. -/
theorem decrementCategoryCounts_eq (now : Time) (s : Store) (post : PostEntity) :
    decrementCategoryCounts now s post
      = { s with categories := (postCategoryIDs post).foldl (bumpCount now (-1)) s.categories } := by
  unfold decrementCategoryCounts postCategoryIDs
  rw [foldl_images_eq (decrementCategoryCount now)]
  exact foldl_bump_store now (-1) _ (decrementCategoryCount_eq now) _ s

/-- The bulk increment in closed form: only the categories table changes. -/
theorem incrementCategoryCounts_eq (now : Time) (s : Store) (post : PostEntity) :
    incrementCategoryCounts now s post
      = { s with categories := (postCategoryIDs post).foldl (bumpCount now 1) s.categories } := by
  unfold incrementCategoryCounts postCategoryIDs
  rw [foldl_images_eq (incrementCategoryCount now)]
  exact foldl_bump_store now 1 _ (incrementCategoryCount_eq now) _ s

theorem addCategory_eq (now : Time) (s : Store) (tag : PostTagRequest) :
    addCategory now s tag = { s with categories := (addCategory now s tag).categories } := by
  unfold addCategory
  split <;> rfl

theorem addPostLogHistory_eq (s : Store) (now : Time) (userID : Nat) (postID : Int)
    (was : PostEntity) :
    addPostLogHistory s now userID postID was
      = { s with action_log_histories :=
            (addPostLogHistory s now userID postID was).action_log_histories } := by
  unfold addPostLogHistory
  split
  · rfl
  · simp only []
    split <;> rfl

theorem findOrCreateInfluencer_eq (now : Time) (s : Store) (name : String) :
    (findOrCreateInfluencer now s name).1
      = { s with influencers := (findOrCreateInfluencer now s name).1.influencers,
                 nextInfluencerID := (findOrCreateInfluencer now s name).1.nextInfluencerID } := by
  unfold findOrCreateInfluencer
  split <;> rfl

theorem addCategory_eq_row (now : Time) (s : Store) (tag : PostTagRequest) :
    addCategory now s tag = { s with categories := addCategoryRow now s.categories tag.Category } := by
  unfold addCategory addCategoryRow
  simp only []
  split <;> rfl

/-- One pass of the body of the tag loop. -/
theorem insertTag_spec {parseTagURL : String → Option (Int × String)} {now : Time}
    {published : Bool} {postID imageID : Int} {acc acc1 : Store × List PostTagRow}
    {tag : PostTagRequest}
    (h : insertTag parseTagURL now published postID imageID acc tag = some acc1) :
    TagLoopSpec now published postID imageID [tag] acc acc1 := by
  unfold insertTag at h
  simp only [] at h
  have hcat : (if (tag.Category != zeroCategory) = true then tag.Category.ID else 0)
      = tagCategoryID tag := rfl
  have hs1 : (if (tag.Category != zeroCategory) = true then
        (if published = true then
          incrementCategoryCount now (addCategory now acc.1 tag) (tagCategoryID tag)
         else addCategory now acc.1 tag)
      else acc.1) = { acc.1 with categories := tagLedger now published acc.1.categories tag } := by
    unfold tagLedger tagCategoryID
    by_cases hc : (tag.Category != zeroCategory) = true
    · cases published
      · simp only [hc, if_true, if_false, Bool.false_eq_true, addCategory_eq_row]
      · simp only [hc, if_true, incrementCategoryCount_eq, addCategory_eq_row]
    · simp only [hc, if_false, Bool.false_eq_true]
  rw [hcat, hs1] at h
  cases hparse : parseTagURL tag.URL with
  | none => simp [hparse] at h
  | some ref =>
    simp only [hparse, Option.some.injEq] at h
    subst h
    refine ⟨?_, ?_, ?_, ?_, ?_, ?_, ⟨[_], rfl, ?_, ?_⟩⟩
    · split <;> rfl
    · split <;> rfl
    · split <;> rfl
    · split <;> rfl
    · split <;> rfl
    · simp only [List.foldl_cons, List.foldl_nil]
      split <;> rfl
    · intro t ht
      simp only [List.mem_singleton] at ht
      subst ht
      exact ⟨rfl, rfl⟩
    · rfl

/-- A completed run of the tag loop. -/
theorem insertTags_spec {parseTagURL : String → Option (Int × String)} {now : Time}
    {published : Bool} {postID imageID : Int} (tags : List PostTagRequest)
    {acc acc1 : Store × List PostTagRow}
    (h : insertTags parseTagURL now published postID imageID tags acc = some acc1) :
    TagLoopSpec now published postID imageID tags acc acc1 := by
  induction tags generalizing acc with
  | nil =>
    simp only [insertTags, Option.some.injEq] at h
    subst h
    exact ⟨rfl, rfl, rfl, rfl, rfl, rfl, ⟨[], by simp, by simp, rfl⟩⟩
  | cons tag tags ih =>
    simp only [insertTags] at h
    cases h1 : insertTag parseTagURL now published postID imageID acc tag with
    | none => simp [h1] at h
    | some acc0 =>
      simp only [h1] at h
      have a := insertTag_spec h1
      have b := ih h
      obtain ⟨r1, hr1, hr1p, hr1c⟩ := a.rows
      obtain ⟨r2, hr2, hr2p, hr2c⟩ := b.rows
      refine ⟨b.posts.trans a.posts, b.nextPostID.trans a.nextPostID,
        b.post_images.trans a.post_images, b.nextImageID.trans a.nextImageID,
        b.post_tags.trans a.post_tags, ?_, ⟨r1 ++ r2, ?_, ?_, ?_⟩⟩
      · rw [b.categories, a.categories]; rfl
      · rw [hr2, hr1, List.append_assoc]
      · intro t ht
        rcases List.mem_append.1 ht with ht | ht
        · exact hr1p t ht
        · exact hr2p t ht
      · rw [List.map_append, hr1c, hr2c]; rfl

theorem requestTags_cons (image : PostImageRequest) (images : List PostImageRequest) :
    requestTags (image :: images) = image.Tags ++ requestTags images := by
  simp [requestTags, List.flatMap_cons]

theorem requestCategoryIDs_cons (image : PostImageRequest) (images : List PostImageRequest) :
    requestCategoryIDs (image :: images)
      = image.Tags.map tagCategoryID ++ requestCategoryIDs images := by
  simp [requestCategoryIDs, List.flatMap_cons]

theorem requestCategoryIDs_eq (images : List PostImageRequest) :
    requestCategoryIDs images = (requestTags images).map tagCategoryID := by
  induction images with
  | nil => rfl
  | cons x xs ih => rw [requestCategoryIDs_cons, requestTags_cons, List.map_append, ih]

/-- One pass of the body of the image loop, for an image with a url. -/
theorem insertImage_spec {parseTagURL : String → Option (Int × String)} {now : Time}
    {published : Bool} {postID : Int} {s s1 : Store} {pos : Int} {image : PostImageRequest}
    (hurl : image.URL ≠ "")
    (h : insertImage parseTagURL now published postID s pos image = some s1) :
    ImageLoopSpec now published postID [image] s s1 := by
  unfold insertImage at h
  have hadd : (if (image.URL != "") = true then addImage now s postID image pos else (s, 0))
      = addImage now s postID image pos := by
    simp [hurl]
  simp only [hadd] at h
  have hreq : requestTags [image] = image.Tags := by simp [requestTags]
  have hcats : requestCategoryIDs [image] = image.Tags.map tagCategoryID := by
    simp [requestCategoryIDs]
  by_cases hlen : image.Tags.length > 0
  · simp only [hlen, if_true] at h
    cases ht : insertTags parseTagURL now published postID (addImage now s postID image pos).2
        image.Tags ((addImage now s postID image pos).1, []) with
    | none => simp [ht] at h
    | some r =>
      simp only [ht, Option.some.injEq] at h
      subst h
      have a := insertTags_spec image.Tags ht
      obtain ⟨rows, hrows, hrp, hrc⟩ := a.rows
      simp only [List.nil_append] at hrows
      refine ⟨a.posts, a.nextPostID, ?_, ?_,
        ⟨[({ ID := s.nextImageID, PostID := postID, URL := image.URL,
                                Height := image.Height, Width := image.Width, Position := pos,
                                CreatedAt := now, UpdatedAt := now } : PostImageRow)], rows,
          ?_, ?_, ?_, ?_, ?_, ?_⟩⟩
      · rw [hreq]; exact a.categories
      · show s.nextImageID ≤ r.1.nextImageID
        rw [a.nextImageID]
        show s.nextImageID ≤ s.nextImageID + 1
        omega
      · exact a.post_images
      · show r.1.post_tags ++ r.2 = s.post_tags ++ rows
        rw [a.post_tags, hrows]; rfl
      · intro i hi
        simp only [List.mem_singleton] at hi
        subst hi
        refine ⟨rfl, le_refl _, ?_⟩
        show s.nextImageID < r.1.nextImageID
        rw [a.nextImageID]
        show s.nextImageID < s.nextImageID + 1
        omega
      · simp
      · intro t ht
        exact ⟨(hrp t ht).1, _, List.mem_singleton.2 rfl, ((hrp t ht).2).symm⟩
      · rw [hcats]; exact hrc
  · simp only [hlen, if_false, Option.some.injEq] at h
    subst h
    have hnil : image.Tags = [] := by
      cases hT : image.Tags with
      | nil => rfl
      | cons x xs => simp [hT] at hlen
    refine ⟨rfl, rfl, ?_, ?_,
      ⟨[({ ID := s.nextImageID, PostID := postID, URL := image.URL,
                                Height := image.Height, Width := image.Width, Position := pos,
                                CreatedAt := now, UpdatedAt := now } : PostImageRow)], [],
        rfl, ?_, ?_, ?_, ?_, ?_⟩⟩
    · rw [hreq, hnil]; rfl
    · show s.nextImageID ≤ s.nextImageID + 1
      omega
    · simp [addImage]
    · intro i hi
      simp only [List.mem_singleton] at hi
      subst hi
      refine ⟨rfl, le_refl _, ?_⟩
      show s.nextImageID < s.nextImageID + 1
      omega
    · simp
    · intro t ht
      simp at ht
    · rw [hcats, hnil]; rfl

/-- Two consecutive runs of the image loop compose. -/
theorem imageLoopSpec_append {now : Time} {published : Bool} {postID : Int}
    {xs ys : List PostImageRequest} {s s1 s2 : Store}
    (a : ImageLoopSpec now published postID xs s s1)
    (b : ImageLoopSpec now published postID ys s1 s2) :
    ImageLoopSpec now published postID (xs ++ ys) s s2 := by
  obtain ⟨i1, t1, hi1, ht1, hi1p, hi1n, ht1p, ht1c⟩ := a.rows
  obtain ⟨i2, t2, hi2, ht2, hi2p, hi2n, ht2p, ht2c⟩ := b.rows
  have hnext1 := a.nextImageID
  have hnext2 := b.nextImageID
  refine ⟨b.posts.trans a.posts, b.nextPostID.trans a.nextPostID, ?_, le_trans hnext1 hnext2,
    ⟨i1 ++ i2, t1 ++ t2, ?_, ?_, ?_, ?_, ?_, ?_⟩⟩
  · rw [b.categories, a.categories]
    simp [requestTags, List.flatMap_append, List.foldl_append]
  · rw [hi2, hi1, List.append_assoc]
  · rw [ht2, ht1, List.append_assoc]
  · intro i hi
    rcases List.mem_append.1 hi with hi | hi
    · obtain ⟨h1, h2, h3⟩ := hi1p i hi
      exact ⟨h1, h2, lt_of_lt_of_le h3 hnext2⟩
    · obtain ⟨h1, h2, h3⟩ := hi2p i hi
      exact ⟨h1, le_trans hnext1 h2, h3⟩
  · rw [List.map_append, List.nodup_append]
    refine ⟨hi1n, hi2n, ?_⟩
    intro x hx1 hx2
    obtain ⟨a1, ha1, rfl⟩ := List.mem_map.1 hx1
    obtain ⟨a2, ha2, he⟩ := List.mem_map.1 hx2
    have h1 := (hi1p a1 ha1).2.2
    have h2 := (hi2p a2 ha2).2.1
    have he2 : a2.ID = a1.ID := he
    omega
  · intro t ht
    rcases List.mem_append.1 ht with ht | ht
    · obtain ⟨h1, i, hi, he⟩ := ht1p t ht
      exact ⟨h1, i, List.mem_append_left _ hi, he⟩
    · obtain ⟨h1, i, hi, he⟩ := ht2p t ht
      exact ⟨h1, i, List.mem_append_right _ hi, he⟩
  · rw [List.map_append, ht1c, ht2c]
    simp [requestCategoryIDs, List.flatMap_append]

/-- The image loop on no images. -/
theorem imageLoopSpec_nil (now : Time) (published : Bool) (postID : Int) (s : Store) :
    ImageLoopSpec now published postID [] s s :=
  ⟨rfl, rfl, rfl, le_refl _, ⟨[], [], by simp, by simp, by simp, by simp, by simp, rfl⟩⟩

/-- A completed run of the image loop, for images that all have a url. -/
theorem insertImages_spec {parseTagURL : String → Option (Int × String)} {now : Time}
    {published : Bool} {postID : Int} (images : List PostImageRequest) {pos : Int}
    {s s1 : Store} (hurl : ∀ image ∈ images, image.URL ≠ "")
    (h : insertImages parseTagURL now published postID pos images s = some s1) :
    ImageLoopSpec now published postID images s s1 := by
  induction images generalizing s pos with
  | nil =>
    simp only [insertImages, Option.some.injEq] at h
    subst h
    exact imageLoopSpec_nil now published postID s
  | cons image images ih =>
    simp only [insertImages] at h
    cases h1 : insertImage parseTagURL now published postID s pos image with
    | none => simp [h1] at h
    | some s0 =>
      simp only [h1] at h
      have a := insertImage_spec (hurl image (List.mem_cons_self _ _)) h1
      have b := ih (fun x hx => hurl x (List.mem_cons_of_mem _ hx)) h
      exact imageLoopSpec_append a b

theorem isValid_url {pr : PostRequest} (h : pr.isValid = true) :
    ∀ image ∈ pr.Images, image.URL ≠ "" := by
  intro image hi
  unfold PostRequest.isValid at h
  rw [List.all_eq_true] at h
  have := h image hi
  simp only [Bool.not_eq_true', Bool.or_eq_false_iff, beq_eq_false_iff_ne, ne_eq] at this
  exact this.1.1.1

/-! ### Handlers in closed form -/

theorem Publish_found {s : Store} {post : PostEntity} (now : Time) (userID : Nat) {postID : Int}
    (published : Bool) (h : findPost s postID = some post) (hd : post.Deleted = false) :
    Publish s now userID (some postID) (some published) =
      { store := addPostLogHistory (publishStatements now s postID post published)
          now userID postID post,
        response := Response.publish 202 published } := by
  simp [Publish, h, hd]

theorem Publish_cases (s : Store) (now : Time) (userID : Nat) (id : Option Int)
    (body : Option Bool) :
    (Publish s now userID id body).store = s ∨
    ∃ postID post published, id = some postID ∧ body = some published ∧
      findPost s postID = some post ∧ post.Deleted = false ∧
      (Publish s now userID id body).store =
        addPostLogHistory (publishStatements now s postID post published) now userID postID post := by
  cases id with
  | none => left; rfl
  | some postID =>
    cases h : findPost s postID with
    | none => left; simp [Publish, h]
    | some post =>
      cases hd : post.Deleted with
      | true => left; simp [Publish, h, hd]
      | false =>
        cases body with
        | none => left; simp [Publish, h, hd]
        | some published =>
          right
          exact ⟨postID, post, published, rfl, rfl, h, hd, by rw [Publish_found now userID published h hd]⟩

theorem Delete_found {s : Store} {post : PostEntity} (now : Time) (userID : Nat) {postID : Int}
    (h : findPost s postID = some post) (hd : post.Deleted = false) :
    Delete s now userID (some postID) =
      { store := addPostLogHistory (deleteStatements now s postID post) now userID postID post,
        response := Response.message 202 "Post has been deleted" } := by
  simp [Delete, h, hd]

theorem Delete_cases (s : Store) (now : Time) (userID : Nat) (id : Option Int) :
    (Delete s now userID id).store = s ∨
    ∃ postID post, id = some postID ∧ findPost s postID = some post ∧ post.Deleted = false ∧
      (Delete s now userID id).store =
        addPostLogHistory (deleteStatements now s postID post) now userID postID post := by
  cases id with
  | none => left; rfl
  | some postID =>
    cases h : findPost s postID with
    | none => left; simp [Delete, h]
    | some post =>
      cases hd : post.Deleted with
      | true => left; simp [Delete, h, hd]
      | false =>
        right
        exact ⟨postID, post, rfl, h, hd, by rw [Delete_found now userID h hd]⟩

theorem Update_found {parseTagURL : String → Option (Int × String)} {s committed : Store}
    {post : PostEntity} {now : Time} (userID : Nat) {postID : Int} {pr : PostRequest}
    (hv : pr.isValid = true) (h : findPost s postID = some post) (hd : post.Deleted = false)
    (hc : insertImages parseTagURL now pr.Published postID 0 pr.Images
      (updateStatements now s postID post pr) = some committed) :
    (Update parseTagURL s now userID (some postID) (some pr)).store
        = addPostLogHistory committed now userID postID post ∧
    ∃ p, (Update parseTagURL s now userID (some postID) (some pr)).response
        = Response.post 202 p := by
  simp [Update, h, hd, hv, hc]

theorem Update_aborted {parseTagURL : String → Option (Int × String)} {s : Store}
    {post : PostEntity} {now : Time} (userID : Nat) {postID : Int} {pr : PostRequest}
    (hv : pr.isValid = true) (h : findPost s postID = some post) (hd : post.Deleted = false)
    (hc : insertImages parseTagURL now pr.Published postID 0 pr.Images
      (updateStatements now s postID post pr) = none) :
    Update parseTagURL s now userID (some postID) (some pr)
      = { store := s, response := Response.aborted } := by
  simp [Update, h, hd, hv, hc]

theorem Update_cases (parseTagURL : String → Option (Int × String)) (s : Store) (now : Time)
    (userID : Nat) (id : Option Int) (body : Option PostRequest) :
    (Update parseTagURL s now userID id body).store = s ∨
    ∃ postID pr post committed, id = some postID ∧ body = some pr ∧ pr.isValid = true ∧
      findPost s postID = some post ∧ post.Deleted = false ∧
      insertImages parseTagURL now pr.Published postID 0 pr.Images
        (updateStatements now s postID post pr) = some committed ∧
      (Update parseTagURL s now userID id body).store =
        addPostLogHistory committed now userID postID post := by
  cases id with
  | none => left; rfl
  | some postID =>
    cases body with
    | none => left; rfl
    | some pr =>
      cases hv : pr.isValid with
      | false => left; simp [Update, hv]
      | true =>
        cases h : findPost s postID with
        | none => left; simp [Update, h, hv]
        | some post =>
          cases hd : post.Deleted with
          | true => left; simp [Update, h, hd, hv]
          | false =>
            cases hc : insertImages parseTagURL now pr.Published postID 0 pr.Images
                (updateStatements now s postID post pr) with
            | none => left; rw [Update_aborted userID hv h hd hc]
            | some committed =>
              right
              exact ⟨postID, pr, post, committed, rfl, rfl, hv, h, hd, hc,
                (Update_found userID hv h hd hc).1⟩

theorem Create_found {parseTagURL : String → Option (Int × String)} {s committed : Store}
    {now : Time} (userID : Nat) {pr : PostRequest} (hv : pr.isValid = true)
    (hc : insertImages parseTagURL now pr.Published
      (findOrCreateInfluencer now s pr.InfluencerName).1.nextPostID 0 pr.Images
      (createStatements now s pr) = some committed) :
    (Create parseTagURL s now userID (some pr)).store
        = addPostLogHistory committed now userID
            (findOrCreateInfluencer now s pr.InfluencerName).1.nextPostID zeroPostEntity ∧
    ∃ p, (Create parseTagURL s now userID (some pr)).response = Response.post 201 p ∧
      p.ID = (findOrCreateInfluencer now s pr.InfluencerName).1.nextPostID := by
  simp [Create, hv, hc]

theorem Create_aborted {parseTagURL : String → Option (Int × String)} {s : Store}
    {now : Time} (userID : Nat) {pr : PostRequest} (hv : pr.isValid = true)
    (hc : insertImages parseTagURL now pr.Published
      (findOrCreateInfluencer now s pr.InfluencerName).1.nextPostID 0 pr.Images
      (createStatements now s pr) = none) :
    Create parseTagURL s now userID (some pr) = { store := s, response := Response.aborted } := by
  simp [Create, hv, hc]

theorem Create_cases (parseTagURL : String → Option (Int × String)) (s : Store) (now : Time)
    (userID : Nat) (body : Option PostRequest) :
    (Create parseTagURL s now userID body).store = s ∨
    ∃ pr committed, body = some pr ∧ pr.isValid = true ∧
      insertImages parseTagURL now pr.Published
        (findOrCreateInfluencer now s pr.InfluencerName).1.nextPostID 0 pr.Images
        (createStatements now s pr) = some committed ∧
      (Create parseTagURL s now userID body).store =
        addPostLogHistory committed now userID
          (findOrCreateInfluencer now s pr.InfluencerName).1.nextPostID zeroPostEntity := by
  cases body with
  | none => left; rfl
  | some pr =>
    cases hv : pr.isValid with
    | false => left; simp [Create, hv]
    | true =>
      cases hc : insertImages parseTagURL now pr.Published
          (findOrCreateInfluencer now s pr.InfluencerName).1.nextPostID 0 pr.Images
          (createStatements now s pr) with
      | none => left; rw [Create_aborted userID hv hc]
      | some committed =>
        right
        exact ⟨pr, committed, rfl, hv, hc, (Create_found userID hv hc).1⟩

theorem Like_cases (s : Store) (userID : Nat) (id : Option Int) :
    (Like s userID id).store = s ∨
    ∃ postID row, id = some postID ∧ postRow s postID = some row ∧
      (Like s userID id).store = likeStatements s postID userID (findLike s postID userID) := by
  cases id with
  | none => left; rfl
  | some postID =>
    cases hp : isPostPresent s postID with
    | false => left; simp [Like, hp]
    | true =>
      obtain ⟨row, hrow⟩ := isPostPresent_iff.1 hp
      right
      exact ⟨postID, row, rfl, hrow, by rw [Like_present userID hrow]⟩

/-! ### The posts table under each handler -/

theorem publishLedger_eq (now : Time) (s : Store) (post : PostEntity) (published : Bool) :
    publishLedger now s post published
      = { s with categories := (publishLedger now s post published).categories } := by
  unfold publishLedger
  cases post.LastPublishedAt <;> cases published <;> cases post.Published <;>
    simp [incrementCategoryCounts_eq, decrementCategoryCounts_eq]

theorem publishStatements_posts (now : Time) (s : Store) (postID : Int) (post : PostEntity)
    (published : Bool) :
    (publishStatements now s postID post published).posts
      = s.posts.map (fun p => if p.ID == postID then publishRow post published now p else p) := by
  unfold publishStatements
  rw [publishLedger_eq]

theorem deleteStatements_posts (now : Time) (s : Store) (postID : Int) (post : PostEntity) :
    (deleteStatements now s postID post).posts
      = s.posts.map (fun p => if p.ID == postID then deleteRow now p else p) := by
  unfold deleteStatements
  cases post.Published <;> simp [decrementCategoryCounts_eq]

theorem updateStatements_posts (now : Time) (s : Store) (postID : Int) (post : PostEntity)
    (pr : PostRequest) :
    (updateStatements now s postID post pr).posts
      = s.posts.map (fun p =>
          if p.ID == postID then
            updateRow post pr (findOrCreateInfluencer now s pr.InfluencerName).2 now p
          else p) := by
  unfold updateStatements
  have h := findOrCreateInfluencer_eq now s pr.InfluencerName
  cases post.Published
  · simp only [Bool.false_eq_true, if_false]
    rw [h]
  · simp only [if_true, decrementCategoryCounts_eq]
    rw [h]

theorem createStatements_posts (now : Time) (s : Store) (pr : PostRequest) :
    (createStatements now s pr).posts
      = s.posts ++ [createPostRow now (findOrCreateInfluencer now s pr.InfluencerName).1
          (findOrCreateInfluencer now s pr.InfluencerName).2 pr] := by
  unfold createStatements
  have h := findOrCreateInfluencer_eq now s pr.InfluencerName
  simp only []
  rw [show (findOrCreateInfluencer now s pr.InfluencerName).1.posts = s.posts by rw [h]]

theorem findOrCreateInfluencer_nextPostID (now : Time) (s : Store) (name : String) :
    (findOrCreateInfluencer now s name).1.nextPostID = s.nextPostID := by
  rw [findOrCreateInfluencer_eq]

theorem addPostLogHistory_posts (s : Store) (now : Time) (userID : Nat) (postID : Int)
    (was : PostEntity) : (addPostLogHistory s now userID postID was).posts = s.posts := by
  rw [addPostLogHistory_eq]

theorem publishRow_ID (post : PostEntity) (published : Bool) (now : Time) (p : PostEntity) :
    (publishRow post published now p).ID = p.ID := by
  unfold publishRow
  cases post.LastPublishedAt <;> cases published <;> cases post.Published <;> rfl

theorem updateRow_ID (post : PostEntity) (pr : PostRequest) (influencer : InfluencerEntity)
    (now : Time) (p : PostEntity) : (updateRow post pr influencer now p).ID = p.ID := by
  unfold updateRow updateTimeline
  cases post.LastPublishedAt <;> cases pr.Published <;> cases post.Published <;> rfl

theorem findPost_row {s : Store} {postID : Int} {post : PostEntity}
    (h : findPost s postID = some post) :
    ∃ row, postRow s postID = some row ∧ row.LastPublishedAt = post.LastPublishedAt ∧
      row.FirstPublishedAt = post.FirstPublishedAt ∧ row.Published = post.Published ∧
      row.Deleted = post.Deleted ∧ row.ID = post.ID ∧ row.LikeCount = post.LikeCount := by
  obtain ⟨row, hrow, rfl⟩ := findPost_eq_some h
  exact ⟨row, hrow, rfl, rfl, rfl, rfl, rfl, rfl⟩

/-- Every handler call changes the posts table in one of the three ways. -/
theorem step_postsChange {s t : Store} (h : Step s t) : PostsChange s t := by
  cases h with
  | create parseTagURL _ now userID body =>
    rcases Create_cases parseTagURL s now userID body with h | ⟨pr, committed, _, hv, hc, hs⟩
    · exact PostsChange.same (by rw [h])
    · have spec := insertImages_spec pr.Images (isValid_url hv) hc
      refine PostsChange.insert
        (createPostRow now (findOrCreateInfluencer now s pr.InfluencerName).1
          (findOrCreateInfluencer now s pr.InfluencerName).2 pr) ?_ ?_
      · rw [hs, addPostLogHistory_posts, spec.posts, createStatements_posts]
      · unfold createPostRow
        cases pr.Published <;> simp
  | update parseTagURL _ now userID id body =>
    rcases Update_cases parseTagURL s now userID id body with
      h | ⟨postID, pr, post, committed, _, _, hv, hf, _, hc, hs⟩
    · exact PostsChange.same (by rw [h])
    · have spec := insertImages_spec pr.Images (isValid_url hv) hc
      obtain ⟨row, hrow, hlast, _⟩ := findPost_row hf
      refine PostsChange.update postID row
        (updateRow post pr (findOrCreateInfluencer now s pr.InfluencerName).2 now) hrow ?_
        (updateRow_ID post pr _ now) ?_ ?_
      · rw [hs, addPostLogHistory_posts, spec.posts, updateStatements_posts]
      · intro hne p
        rw [hlast] at hne
        unfold updateRow updateTimeline
        cases hl : post.LastPublishedAt with
        | none => exact absurd hl hne
        | some last => cases pr.Published <;> cases post.Published <;> rfl
      · intro p
        unfold updateRow updateTimeline
        cases post.LastPublishedAt <;> cases pr.Published <;> cases post.Published <;> simp
  | publish _ now userID id body =>
    rcases Publish_cases s now userID id body with
      h | ⟨postID, post, published, _, _, hf, _, hs⟩
    · exact PostsChange.same (by rw [h])
    · obtain ⟨row, hrow, hlast, _⟩ := findPost_row hf
      refine PostsChange.update postID row (publishRow post published now) hrow ?_
        (publishRow_ID post published now) ?_ ?_
      · rw [hs, addPostLogHistory_posts, publishStatements_posts]
      · intro hne p
        rw [hlast] at hne
        unfold publishRow
        cases hl : post.LastPublishedAt with
        | none => exact absurd hl hne
        | some last => cases published <;> cases post.Published <;> rfl
      · intro p
        unfold publishRow
        cases post.LastPublishedAt <;> cases published <;> cases post.Published <;> simp
  | delete _ now userID id =>
    rcases Delete_cases s now userID id with h | ⟨postID, post, _, hf, _, hs⟩
    · exact PostsChange.same (by rw [h])
    · obtain ⟨row, hrow, _⟩ := findPost_row hf
      refine PostsChange.update postID row (deleteRow now) hrow ?_ (fun _ => rfl)
        (fun _ _ => rfl) (fun _ => ⟨Or.inl rfl, Or.inl rfl⟩)
      rw [hs, addPostLogHistory_posts, deleteStatements_posts]
  | like _ userID id =>
    rcases Like_cases s userID id with h | ⟨postID, row, _, hrow, hs⟩
    · exact PostsChange.same (by rw [h])
    · refine PostsChange.update postID row
        (fun p => { p with LikeCount := p.LikeCount + likeFactor (findLike s postID userID) })
        hrow ?_ (fun _ => rfl) (fun _ _ => rfl) (fun _ => ⟨Or.inl rfl, Or.inl rfl⟩)
      rw [hs, likeStatements_posts]

/-! ### The publish timeline -/

theorem postRow_of_map {s t : Store} {g : PostEntity → PostEntity} (hg : ∀ p, (g p).ID = p.ID)
    (ht : t.posts = s.posts.map g) (x : Int) : postRow t x = (postRow s x).map g := by
  unfold postRow
  rw [ht, find?_map_keepID g hg]

theorem postRow_of_append {s t : Store} {row q : PostEntity} {x : Int}
    (ht : t.posts = s.posts ++ [row]) (hq : postRow s x = some q) : postRow t x = some q := by
  unfold postRow at hq ⊢
  rw [ht, List.find?_append, hq]
  rfl

theorem findPost_of_postRow {s : Store} {postID : Int} {p : PostEntity}
    (h : postRow s postID = some p) :
    ∃ post, findPost s postID = some post ∧ post.LastPublishedAt = p.LastPublishedAt ∧
      post.FirstPublishedAt = p.FirstPublishedAt ∧ post.Published = p.Published ∧
      post.Deleted = p.Deleted ∧ post.ID = p.ID ∧ post.LikeCount = p.LikeCount := by
  unfold postRow at h
  unfold findPost
  rw [h]
  exact ⟨_, rfl, rfl, rfl, rfl, rfl, rfl, rfl⟩

theorem publishRow_congr {post p : PostEntity} (h1 : post.LastPublishedAt = p.LastPublishedAt)
    (h2 : post.Published = p.Published) (published : Bool) (now : Time) :
    publishRow post published now = publishRow p published now := by
  funext q
  unfold publishRow
  rw [h1, h2]

theorem TimelineInv_empty : TimelineInv emptyStore := by
  intro p hp
  simp [emptyStore] at hp

theorem postsChange_timelineInv {s t : Store} (h : PostsChange s t) (hs : TimelineInv s) :
    TimelineInv t := by
  intro p hp
  cases h with
  | same he => rw [he] at hp; exact hs p hp
  | insert row he hrow =>
    rw [he] at hp
    rcases List.mem_append.1 hp with hp | hp
    · exact hs p hp
    · simp only [List.mem_singleton] at hp
      subst hp
      exact hrow
  | update postID row f _ he _ _ hf =>
    rw [he] at hp
    obtain ⟨q, hq, rfl⟩ := List.mem_map.1 hp
    have hq2 := hs q hq
    by_cases hid : (q.ID == postID) = true
    · simp only [hid, if_true]
      intro hfirst
      rcases (hf q).2 with h1 | h1
      · rcases (hf q).1 with h2 | h2
        · rw [h2]; exact hq2 (by rw [← h1]; exact hfirst)
        · exact h2
      · exact h1.2
    · simp only [hid, if_false, Bool.false_eq_true]
      exact hq2

theorem steps_timelineInv {s t : Store} (h : Steps s t) (hs : TimelineInv s) : TimelineInv t := by
  induction h with
  | refl => exact hs
  | tail _ hstep ih => exact postsChange_timelineInv (step_postsChange hstep) ih

theorem reachable_timelineInv {s : Store} (h : Reachable s) : TimelineInv s :=
  steps_timelineInv h TimelineInv_empty

theorem postsChange_first_kept {s t : Store} (h : PostsChange s t) (hs : TimelineInv s)
    {x : Int} {q : PostEntity} {t0 : Time} (hq : postRow s x = some q)
    (hfirst : q.FirstPublishedAt = some t0) :
    ∃ q1, postRow t x = some q1 ∧ q1.FirstPublishedAt = some t0 := by
  cases h with
  | same he => exact ⟨q, by unfold postRow at hq ⊢; rw [he]; exact hq, hfirst⟩
  | insert row he _ => exact ⟨q, postRow_of_append he hq, hfirst⟩
  | update postID row f hrow he hid hkeep _ =>
    have hg : ∀ p, (if (p.ID == postID) = true then f p else p).ID = p.ID := by
      intro p; split
      · exact hid p
      · rfl
    have hmap := postRow_of_map (g := fun p => if (p.ID == postID) = true then f p else p) hg he x
    rw [hq] at hmap
    refine ⟨_, hmap, ?_⟩
    obtain ⟨hqmem, hqid⟩ := postRow_mem hq
    by_cases hx : (q.ID == postID) = true
    · simp only [hx, if_true]
      have hxe : x = postID := by
        have : q.ID = postID := by simpa using hx
        rw [← hqid, this]
      subst hxe
      rw [hq] at hrow
      simp only [Option.some.injEq] at hrow
      subst hrow
      have hlast : q.LastPublishedAt ≠ none := hs q hqmem (by rw [hfirst]; simp)
      rw [hkeep hlast q]
      exact hfirst
    · simp only [hx, if_false, Bool.false_eq_true]
      exact hfirst

theorem steps_first_kept {s t : Store} (h : Steps s t) (hs : TimelineInv s)
    {x : Int} {q : PostEntity} {t0 : Time} (hq : postRow s x = some q)
    (hfirst : q.FirstPublishedAt = some t0) :
    ∃ q1, postRow t x = some q1 ∧ q1.FirstPublishedAt = some t0 := by
  induction h with
  | refl => exact ⟨q, hq, hfirst⟩
  | tail hst hstep ih =>
    obtain ⟨q1, hq1, hf1⟩ := ih
    exact postsChange_first_kept (step_postsChange hstep) (steps_timelineInv hst hs) hq1 hf1

/-- The row of a post after Publish has accepted the request. -/
theorem Publish_postRow {s : Store} {postID : Int} {p : PostEntity} (now : Time) (userID : Nat)
    (published : Bool) (hp : postRow s postID = some p) (hd : p.Deleted = false) :
    postRow (Publish s now userID (some postID) (some published)).store postID
      = some (publishRow p published now p) := by
  obtain ⟨post, hf, hl, _, hpub, hdel, _⟩ := findPost_of_postRow hp
  rw [Publish_found now userID published hf (hdel.trans hd)]
  have hmap := postRow_of_map
    (s := s)
    (t := addPostLogHistory (publishStatements now s postID post published) now userID postID post)
    (g := fun q => if (q.ID == postID) = true then publishRow post published now q else q)
    (by intro q
        by_cases hq : (q.ID == postID) = true
        · simp only [hq, if_true]; exact publishRow_ID _ _ _ _
        · simp only [hq, if_false, Bool.false_eq_true])
    (by rw [addPostLogHistory_posts, publishStatements_posts]) postID
  rw [hmap, hp]
  have hid : (p.ID == postID) = true := by
    have := (postRow_mem hp).2
    simp [this]
  simp only [Option.map_some', hid, if_true]
  rw [publishRow_congr hl hpub]

/-- C3: in a store that the handlers have built, a post whose first_published_at
is set keeps that value through every later run of Create, Update, Publish,
Delete and Like calls; re-publishing it while it is unpublished sets
last_published_at to the new instant and leaves first_published_at, and
unpublishing it while it is published changes neither timestamp. -/
theorem first_published_at_is_set_once (s : Store) (hs : Reachable s) (postID : Int)
    (p : PostEntity) (t : Time) (hp : postRow s postID = some p)
    (hfirst : p.FirstPublishedAt = some t) :
    (∀ s1, Steps s s1 → ∃ q, postRow s1 postID = some q ∧ q.FirstPublishedAt = some t) ∧
    (p.Deleted = false → p.Published = false → ∀ (now : Time) (userID : Nat),
      ∃ q, postRow (Publish s now userID (some postID) (some true)).store postID = some q ∧
        q.FirstPublishedAt = some t ∧ q.LastPublishedAt = some now ∧ q.Published = true) ∧
    (p.Deleted = false → p.Published = true → ∀ (now : Time) (userID : Nat),
      ∃ q, postRow (Publish s now userID (some postID) (some false)).store postID = some q ∧
        q.FirstPublishedAt = some t ∧ q.LastPublishedAt = p.LastPublishedAt ∧
        q.Published = false) := by
  have hinv := reachable_timelineInv hs
  have hlast : p.LastPublishedAt ≠ none :=
    hinv p (postRow_mem hp).1 (by rw [hfirst]; simp)
  obtain ⟨last, hl⟩ := Option.ne_none_iff_exists'.1 hlast
  refine ⟨fun s1 h1 => steps_first_kept h1 hinv hp hfirst, ?_, ?_⟩
  · intro hd hpub now userID
    refine ⟨_, Publish_postRow now userID true hp hd, ?_, ?_, ?_⟩ <;>
      simp [publishRow, hl, hpub, hfirst]
  · intro hd hpub now userID
    refine ⟨_, Publish_postRow now userID false hp hd, ?_, ?_, ?_⟩ <;>
      simp [publishRow, hl, hpub, hfirst]

/-- Witness of C3: the post of one published Create, then unpublished. -/
theorem first_published_at_is_set_once_witness :
    Reachable createdStore ∧ postRow createdStore 1 = some createdPost ∧
    ∃ q, postRow (Publish createdStore 1700000500 7 (some 1) (some false)).store 1 = some q ∧
      q.FirstPublishedAt = some 1700000000 ∧
      q.LastPublishedAt = createdPost.LastPublishedAt ∧ q.Published = false :=
  ⟨Steps.tail (Steps.refl _) (Step.create plainURL emptyStore 1700000000 7 (some (sampleRequest true))),
   by decide,
   (first_published_at_is_set_once createdStore
      (Steps.tail (Steps.refl _)
        (Step.create plainURL emptyStore 1700000000 7 (some (sampleRequest true))))
      1 createdPost 1700000000 (by decide) (by decide)).2.2 (by decide) (by decide) 1700000500 7⟩

theorem updateRow_congr {post p : PostEntity} (h1 : post.LastPublishedAt = p.LastPublishedAt)
    (h2 : post.Published = p.Published) (pr : PostRequest) (influencer : InfluencerEntity)
    (now : Time) : updateRow post pr influencer now = updateRow p pr influencer now := by
  funext q
  unfold updateRow updateTimeline
  rw [h1, h2]

/-- The row of a post after Update has committed. -/
theorem Update_postRow {parseTagURL : String → Option (Int × String)} {s : Store}
    {postID : Int} {p : PostEntity} {pr : PostRequest} (now : Time) (userID : Nat)
    (hp : postRow s postID = some p) (hd : p.Deleted = false) (hv : pr.isValid = true)
    (hne : (Update parseTagURL s now userID (some postID) (some pr)).response
      ≠ Response.aborted) :
    postRow (Update parseTagURL s now userID (some postID) (some pr)).store postID
      = some (updateRow p pr (findOrCreateInfluencer now s pr.InfluencerName).2 now p) := by
  obtain ⟨post, hf, hl, _, hpub, hdel, _⟩ := findPost_of_postRow hp
  cases hc : insertImages parseTagURL now pr.Published postID 0 pr.Images
      (updateStatements now s postID post pr) with
  | none =>
    rw [Update_aborted userID hv hf (hdel.trans hd) hc] at hne
    exact absurd rfl hne
  | some committed =>
    have spec := insertImages_spec pr.Images (isValid_url hv) hc
    rw [(Update_found userID hv hf (hdel.trans hd) hc).1]
    have hmap := postRow_of_map
      (s := s) (t := addPostLogHistory committed now userID postID post)
      (g := fun q => if (q.ID == postID) = true then
        updateRow post pr (findOrCreateInfluencer now s pr.InfluencerName).2 now q else q)
      (by intro q
          by_cases hq : (q.ID == postID) = true
          · simp only [hq, if_true]; exact updateRow_ID _ _ _ _ _
          · simp only [hq, if_false, Bool.false_eq_true])
      (by rw [addPostLogHistory_posts, spec.posts, updateStatements_posts]) postID
    rw [hmap, hp]
    have hid : (p.ID == postID) = true := by
      have := (postRow_mem hp).2
      simp [this]
    simp only [Option.map_some', hid, if_true]
    rw [updateRow_congr hl hpub]

/-- C2: on a non-deleted post whose last_published_at is null, Publish with
published=true and a committed Update with published=true leave the row with
first_published_at and last_published_at both equal to the instant of the
request and with published=true; a committed Create with published=true inserts
the new row, under the next id of the table, with the same three values. -/
theorem publishing_a_never_published_post (s : Store) (now : Time) (userID : Nat) :
    (∀ (postID : Int) (p : PostEntity), postRow s postID = some p → p.Deleted = false →
      p.LastPublishedAt = none →
      ∃ q, postRow (Publish s now userID (some postID) (some true)).store postID = some q ∧
        q.FirstPublishedAt = some now ∧ q.LastPublishedAt = some now ∧ q.Published = true) ∧
    (∀ (parseTagURL : String → Option (Int × String)) (postID : Int) (p : PostEntity)
      (pr : PostRequest), postRow s postID = some p → p.Deleted = false →
      p.LastPublishedAt = none → pr.isValid = true → pr.Published = true →
      (Update parseTagURL s now userID (some postID) (some pr)).response ≠ Response.aborted →
      ∃ q, postRow (Update parseTagURL s now userID (some postID) (some pr)).store postID
          = some q ∧
        q.FirstPublishedAt = some now ∧ q.LastPublishedAt = some now ∧ q.Published = true) ∧
    (∀ (parseTagURL : String → Option (Int × String)) (pr : PostRequest),
      pr.isValid = true → pr.Published = true →
      (Create parseTagURL s now userID (some pr)).response ≠ Response.aborted →
      ∃ q ∈ (Create parseTagURL s now userID (some pr)).store.posts, q.ID = s.nextPostID ∧
        q.FirstPublishedAt = some now ∧ q.LastPublishedAt = some now ∧ q.Published = true ∧
        ∃ r, (Create parseTagURL s now userID (some pr)).response = Response.post 201 r ∧
          r.ID = s.nextPostID) := by
  refine ⟨?_, ?_, ?_⟩
  · intro postID p hp hd hl
    refine ⟨_, Publish_postRow now userID true hp hd, ?_, ?_, ?_⟩ <;> simp [publishRow, hl]
  · intro parseTagURL postID p pr hp hd hl hv hpub hne
    refine ⟨_, Update_postRow now userID hp hd hv hne, ?_, ?_, ?_⟩ <;>
      simp [updateRow, updateTimeline, hl, hpub]
  · intro parseTagURL pr hv hpub hne
    cases hc : insertImages parseTagURL now pr.Published
        (findOrCreateInfluencer now s pr.InfluencerName).1.nextPostID 0 pr.Images
        (createStatements now s pr) with
    | none =>
      rw [Create_aborted userID hv hc] at hne
      exact absurd rfl hne
    | some committed =>
      have spec := insertImages_spec pr.Images (isValid_url hv) hc
      obtain ⟨hstore, r, hr, hrid⟩ := Create_found userID hv hc
      refine ⟨createPostRow now (findOrCreateInfluencer now s pr.InfluencerName).1
          (findOrCreateInfluencer now s pr.InfluencerName).2 pr, ?_, ?_, ?_, ?_, ?_,
        r, hr, ?_⟩
      · rw [hstore, addPostLogHistory_posts, spec.posts, createStatements_posts]
        simp
      · exact findOrCreateInfluencer_nextPostID now s pr.InfluencerName
      · simp [createPostRow, hpub]
      · simp [createPostRow, hpub]
      · simp [createPostRow, hpub]
      · rw [hrid]; exact findOrCreateInfluencer_nextPostID now s pr.InfluencerName

/-- Witness of C2: the unpublished post of one Create, then published. -/
theorem publishing_a_never_published_post_witness :
    postRow draftStore 1 = some draftPost ∧
    ∃ q, postRow (Publish draftStore 1700000500 7 (some 1) (some true)).store 1 = some q ∧
      q.FirstPublishedAt = some 1700000500 ∧ q.LastPublishedAt = some 1700000500 ∧
      q.Published = true :=
  ⟨by decide,
   (publishing_a_never_published_post draftStore 1700000500 7).1 1 draftPost
      (by decide) (by decide) (by decide)⟩

/-! ### Counts in the categories table -/

theorem categoryCount_eq (s : Store) (c : Int) : categoryCount s c = countOf s.categories c :=
  rfl

theorem hasCategory_iff_find (cats : List CategoryRow) (c : Int) :
    hasCategory cats c = true ↔
      ∃ r, cats.find? (fun r => r.BukalapakCategoryID == c) = some r := by
  unfold hasCategory
  induction cats with
  | nil => simp
  | cons x xs ih =>
    by_cases hx : (x.BukalapakCategoryID == c) = true
    · simp [List.find?_cons, hx]
    · simp only [Bool.not_eq_true] at hx
      simp only [List.any_cons, hx, Bool.false_or, List.find?_cons]
      exact ih

theorem hasCategory_iff_mem (cats : List CategoryRow) (c : Int) :
    hasCategory cats c = true ↔ ∃ r ∈ cats, r.BukalapakCategoryID = c := by
  unfold hasCategory
  simp [List.any_eq_true]

theorem countOf_of_not_has {cats : List CategoryRow} {c : Int} (h : hasCategory cats c = false) :
    countOf cats c = 0 := by
  unfold countOf
  cases hf : cats.find? (fun r => r.BukalapakCategoryID == c) with
  | none => rfl
  | some r =>
    have := (hasCategory_iff_find cats c).2 ⟨r, hf⟩
    rw [h] at this
    exact absurd this (by simp)

theorem find?_map_keepCat (f : CategoryRow → CategoryRow)
    (hf : ∀ r, (f r).BukalapakCategoryID = r.BukalapakCategoryID)
    (l : List CategoryRow) (c : Int) :
    (l.map f).find? (fun r => r.BukalapakCategoryID == c)
      = (l.find? (fun r => r.BukalapakCategoryID == c)).map f := by
  induction l with
  | nil => rfl
  | cons x xs ih =>
    by_cases hx : (x.BukalapakCategoryID == c) = true
    · simp [List.find?_cons, hf, hx]
    · simp only [Bool.not_eq_true] at hx
      simp [List.find?_cons, hf, hx, ih]

theorem hasCategory_bumpCount (now : Time) (d : Int) (cats : List CategoryRow) (x c : Int) :
    hasCategory (bumpCount now d cats x) c = hasCategory cats c := by
  unfold hasCategory bumpCount
  rw [List.any_map]
  congr 1
  funext r
  simp only [Function.comp]
  split <;> rfl

theorem countOf_bumpCount (now : Time) (d : Int) (cats : List CategoryRow) (x c : Int) :
    countOf (bumpCount now d cats x) c
      = countOf cats c + (if x = c then (if hasCategory cats c = true then d else 0) else 0) := by
  unfold countOf bumpCount
  rw [find?_map_keepCat _ (by intro r; split <;> rfl)]
  cases hf : cats.find? (fun r => r.BukalapakCategoryID == c) with
  | none =>
    have hno : hasCategory cats c = false := by
      cases hh : hasCategory cats c with
      | false => rfl
      | true =>
        obtain ⟨r, hr⟩ := (hasCategory_iff_find cats c).1 hh
        rw [hf] at hr
        exact absurd hr (by simp)
    simp [hno]
  | some r =>
    have hhas : hasCategory cats c = true := (hasCategory_iff_find cats c).2 ⟨r, hf⟩
    have hrc : r.BukalapakCategoryID = c := by
      have := List.find?_some (p := fun r : CategoryRow => r.BukalapakCategoryID == c) hf
      simpa using this
    by_cases hx : x = c
    · subst hx
      simp [hrc, hhas]
    · have hne : ¬ r.BukalapakCategoryID = x := by rw [hrc]; exact fun h => hx h.symm
      simp [hne, hx]

theorem hasCategory_foldl_bump (now : Time) (d : Int) (ids : List Int) (cats : List CategoryRow)
    (c : Int) : hasCategory (ids.foldl (bumpCount now d) cats) c = hasCategory cats c := by
  induction ids generalizing cats with
  | nil => rfl
  | cons x xs ih => rw [List.foldl_cons, ih, hasCategory_bumpCount]

theorem countOf_foldl_bump (now : Time) (d : Int) (ids : List Int) (cats : List CategoryRow)
    (c : Int) (h : hasCategory cats c = true ∨ ids.count c = 0) :
    countOf (ids.foldl (bumpCount now d) cats) c = countOf cats c + d * (ids.count c : Int) := by
  induction ids generalizing cats with
  | nil => simp
  | cons x xs ih =>
    rw [List.foldl_cons, ih, countOf_bumpCount]
    · by_cases hx : x = c
      · subst hx
        have hhas : hasCategory cats x = true := by
          rcases h with h | h
          · exact h
          · simp at h
        simp only [if_true, hhas, List.count_cons_self, Nat.cast_add, Nat.cast_one]
        ring
      · have hne : (x == c) = false := by simpa using hx
        simp only [hx, if_false, add_zero, List.count_cons, hne, Bool.false_eq_true]
    · rcases h with h | h
      · left; rw [hasCategory_bumpCount]; exact h
      · by_cases hx : x = c
        · subst hx; simp at h
        · right
          have hne : (x == c) = false := by simpa using hx
          simpa [List.count_cons, hne] using h

theorem hasCategory_addCategoryRow (now : Time) (cats : List CategoryRow)
    (cat : PostTagCategoryRequest) (c : Int) :
    hasCategory (addCategoryRow now cats cat) c = (hasCategory cats c || cat.ID == c) := by
  unfold addCategoryRow
  simp only []
  by_cases h : (cats.any (fun r => r.BukalapakCategoryID == cat.ID)) = true
  · simp only [h, if_true]
    by_cases hc : (cat.ID == c) = true
    · have hce : cat.ID = c := by simpa using hc
      subst hce
      unfold hasCategory
      simp [h]
    · simp only [Bool.not_eq_true] at hc
      simp [hc]
  · simp only [h, if_false, Bool.false_eq_true]
    unfold hasCategory
    simp [List.any_append]

theorem countOf_addCategoryRow (now : Time) (cats : List CategoryRow)
    (cat : PostTagCategoryRequest) (c : Int) :
    countOf (addCategoryRow now cats cat) c = countOf cats c := by
  unfold addCategoryRow
  simp only []
  by_cases h : (cats.any (fun r => r.BukalapakCategoryID == cat.ID)) = true
  · simp only [h, if_true]
  · simp only [h, if_false, Bool.false_eq_true]
    unfold countOf
    rw [List.find?_append]
    cases hf : cats.find? (fun r => r.BukalapakCategoryID == c) with
    | some r => rfl
    | none =>
      by_cases hc : (cat.ID == c) = true
      · simp [List.find?_cons, hc]
      · simp only [Bool.not_eq_true] at hc
        simp [List.find?_cons, hc]

theorem tagCategoryID_eq_iff (tag : PostTagRequest) {c : Int} (hc : c ≠ 0) :
    tagCategoryID tag = c ↔ ((tag.Category != zeroCategory) = true ∧ tag.Category.ID = c) := by
  unfold tagCategoryID
  by_cases h : (tag.Category != zeroCategory) = true
  · simp [h]
  · simp only [h, if_false, Bool.false_eq_true, false_and, iff_false]
    exact fun h0 => hc h0.symm

theorem countOf_tagLedger (now : Time) (published : Bool) (cats : List CategoryRow)
    (tag : PostTagRequest) {c : Int} (hc : c ≠ 0) :
    countOf (tagLedger now published cats tag) c
      = countOf cats c + (if published = true ∧ tagCategoryID tag = c then 1 else 0) := by
  unfold tagLedger
  by_cases h : (tag.Category != zeroCategory) = true
  · cases published
    · simp [h, countOf_addCategoryRow]
    · simp only [h, if_true, countOf_bumpCount, countOf_addCategoryRow, true_and,
        hasCategory_addCategoryRow]
      by_cases hid : tag.Category.ID = c
      · have : tagCategoryID tag = c := (tagCategoryID_eq_iff tag hc).2 ⟨h, hid⟩
        simp [hid, this]
      · have : ¬ tagCategoryID tag = c := fun h2 => hid ((tagCategoryID_eq_iff tag hc).1 h2).2
        simp [hid, this]
  · have : ¬ tagCategoryID tag = c := fun h2 => h ((tagCategoryID_eq_iff tag hc).1 h2).1
    simp [h, this]

theorem hasCategory_tagLedger (now : Time) (published : Bool) (cats : List CategoryRow)
    (tag : PostTagRequest) {c : Int} (hc : c ≠ 0) :
    hasCategory (tagLedger now published cats tag) c = true ↔
      (hasCategory cats c = true ∨ tagCategoryID tag = c) := by
  unfold tagLedger
  by_cases h : (tag.Category != zeroCategory) = true
  · have hiff := tagCategoryID_eq_iff tag hc
    cases published
    · simp only [h, if_true, Bool.false_eq_true, if_false, hasCategory_addCategoryRow,
        Bool.or_eq_true, beq_iff_eq]
      rw [hiff]; simp [h]
    · simp only [h, if_true, hasCategory_bumpCount, hasCategory_addCategoryRow,
        Bool.or_eq_true, beq_iff_eq]
      rw [hiff]; simp [h]
  · have : ¬ tagCategoryID tag = c := fun h2 => h ((tagCategoryID_eq_iff tag hc).1 h2).1
    simp [h, this]

theorem countOf_foldl_tagLedger (now : Time) (published : Bool) (tags : List PostTagRequest)
    (cats : List CategoryRow) {c : Int} (hc : c ≠ 0) :
    countOf (tags.foldl (tagLedger now published) cats) c
      = countOf cats c + (if published = true then ((tags.map tagCategoryID).count c : Int) else 0) := by
  induction tags generalizing cats with
  | nil => simp
  | cons tag tags ih =>
    rw [List.foldl_cons, ih, countOf_tagLedger now published cats tag hc]
    cases published
    · simp
    · by_cases hid : tagCategoryID tag = c
      · simp [hid]; ring
      · have hne : (tagCategoryID tag == c) = false := by simpa using hid
        simp [hid, List.count_cons, hne]

theorem hasCategory_foldl_tagLedger (now : Time) (published : Bool) (tags : List PostTagRequest)
    (cats : List CategoryRow) {c : Int} (hc : c ≠ 0) :
    hasCategory (tags.foldl (tagLedger now published) cats) c = true ↔
      (hasCategory cats c = true ∨ c ∈ tags.map tagCategoryID) := by
  induction tags generalizing cats with
  | nil => simp
  | cons tag tags ih =>
    rw [List.foldl_cons, ih, hasCategory_tagLedger now published cats tag hc]
    simp only [List.map_cons, List.mem_cons]
    constructor
    · rintro ((h | h) | h)
      · exact Or.inl h
      · exact Or.inr (Or.inl h.symm)
      · exact Or.inr (Or.inr h)
    · rintro (h | h | h)
      · exact Or.inl (Or.inl h)
      · exact Or.inl (Or.inr h.symm)
      · exact Or.inr h

/-! ### The tags that findPost reads -/

theorem insertByPosition_perm (r : PostImageRow) (l : List PostImageRow) :
    (insertByPosition r l).Perm (r :: l) := by
  induction l with
  | nil => exact List.Perm.refl _
  | cons x xs ih =>
    unfold insertByPosition
    split
    · exact List.Perm.refl _
    · exact (List.Perm.cons x ih).trans (List.Perm.swap r x xs)

theorem orderByPosition_perm (l : List PostImageRow) : (orderByPosition l).Perm l := by
  induction l with
  | nil => exact List.Perm.refl _
  | cons x xs ih =>
    unfold orderByPosition
    exact (insertByPosition_perm x _).trans (List.Perm.cons x ih)

theorem countP_or_disjoint {α : Type} (p q : α → Bool) (l : List α)
    (h : ∀ x ∈ l, ¬ (p x = true ∧ q x = true)) :
    l.countP (fun x => p x || q x) = l.countP p + l.countP q := by
  induction l with
  | nil => rfl
  | cons x xs ih =>
    have hx := h x (List.mem_cons_self _ _)
    rw [List.countP_cons, List.countP_cons, List.countP_cons,
      ih (fun y hy => h y (List.mem_cons_of_mem _ hy))]
    cases hp : p x <;> cases hq : q x <;> simp_all <;> omega

theorem count_flatMap_tags (ids : List Int) (hids : ids.Nodup) (tags : List PostTagEntity)
    (c : Int) :
    (ids.flatMap (fun i =>
        (tags.filter (fun t => t.ImageID == i)).map (fun t => t.BukalapakCategoryID))).count c
      = tags.countP (fun t => ids.contains t.ImageID && t.BukalapakCategoryID == c) := by
  induction ids with
  | nil => simp
  | cons i rest ih =>
    have hnd := List.nodup_cons.1 hids
    rw [List.flatMap_cons, List.count_append, ih hnd.2, List.count_eq_countP, List.countP_map,
      List.countP_filter]
    rw [← countP_or_disjoint]
    · apply List.countP_congr
      intro t _
      simp only [Function.comp, List.contains_cons, Bool.or_eq_true, Bool.and_eq_true,
        beq_iff_eq]
      constructor
      · rintro (⟨h1, h2⟩ | ⟨h1, h2⟩)
        · exact ⟨Or.inl h2, h1⟩
        · exact ⟨Or.inr h1, h2⟩
      · rintro ⟨h1 | h1, h2⟩
        · exact Or.inl ⟨h2, h1⟩
        · exact Or.inr ⟨h1, h2⟩
    · intro t _ hboth
      simp only [Function.comp, Bool.and_eq_true, beq_iff_eq] at hboth
      obtain ⟨⟨_, h1⟩, h2, _⟩ := hboth
      have hmem : i ∈ rest := by
        rw [← h1]
        simpa using h2
      exact hnd.1 hmem

theorem flatMap_merge (images : List PostImageEntity) (tags : List PostTagEntity) :
    (mergeTagsToImages images tags).flatMap
        (fun image => image.Tags.map (fun tag => tag.BukalapakCategoryID))
      = (images.map (fun im => im.ID)).flatMap (fun i =>
          (tags.filter (fun t => t.ImageID == i)).map (fun t => t.BukalapakCategoryID)) := by
  induction images with
  | nil => rfl
  | cons x xs ih =>
    unfold mergeTagsToImages at ih ⊢
    rw [List.map_cons, List.map_cons, List.flatMap_cons, List.flatMap_cons, ih]
    rfl

theorem postCategoryIDs_merge (images : List PostImageEntity)
    (tags : List PostTagEntity) (post : PostEntity)
    (hpost : post.Images = mergeTagsToImages images tags) :
    postCategoryIDs post
      = (images.map (fun im => im.ID)).flatMap (fun i =>
          (tags.filter (fun t => t.ImageID == i)).map (fun t => t.BukalapakCategoryID)) := by
  unfold postCategoryIDs
  rw [hpost, flatMap_merge]

theorem findPost_images {s : Store} {postID : Int} {post : PostEntity}
    (h : findPost s postID = some post) :
    post.Images = mergeTagsToImages (findImagesByPostID s postID) (findTagsByPostID s postID) := by
  obtain ⟨row, _, rfl⟩ := findPost_eq_some h
  rfl

/-- In a consistent store the bulk helpers walk through every tag row of the
post exactly once. -/
theorem postCategoryIDs_count {s : Store} (hs : Consistent s) {postID : Int} {post : PostEntity}
    (h : findPost s postID = some post) (c : Int) :
    (postCategoryIDs post).count c = tagsOf s postID c := by
  rw [postCategoryIDs_merge _ _ post (findPost_images h)]
  have hperm : ((findImagesByPostID s postID).map (fun im => im.ID)).Perm
      ((s.post_images.filter (fun r => r.PostID == postID)).map (fun r => r.ID)) := by
    unfold findImagesByPostID
    rw [List.map_map]
    have : ((fun im : PostImageEntity => im.ID) ∘ imageEntityOfRow)
        = (fun r : PostImageRow => r.ID) := rfl
    rw [this]
    exact (orderByPosition_perm _).map _
  have hnd : ((findImagesByPostID s postID).map (fun im => im.ID)).Nodup := by
    rw [hperm.nodup_iff]
    exact List.Nodup.sublist ((List.filter_sublist _).map _) hs.imageIDsNodup
  rw [count_flatMap_tags _ hnd]
  have hlen : (s.post_tags.filter (fun r => r.PostID == postID)).length ≤ 10 := by
    rw [← List.countP_eq_length_filter]
    exact hs.tagLimit postID
  unfold findTagsByPostID tagsOf
  rw [List.take_of_length_le hlen, List.countP_map, List.countP_filter]
  apply List.countP_congr
  intro t ht
  simp only [Function.comp, tagEntityOfRow, Bool.and_eq_true, beq_iff_eq]
  constructor
  · rintro ⟨⟨_, h2⟩, h3⟩
    exact ⟨h3, h2⟩
  · rintro ⟨h1, h2⟩
    refine ⟨⟨?_, h2⟩, h1⟩
    obtain ⟨i, hi, hid, hpid⟩ := hs.tagImages t ht
    have hmem : t.ImageID ∈ (findImagesByPostID s postID).map (fun im => im.ID) := by
      rw [hperm.mem_iff]
      refine List.mem_map.2 ⟨i, List.mem_filter.2 ⟨hi, ?_⟩, hid⟩
      simp [hpid, h1]
    simpa using hmem

/-! ### Live posts and their tags -/

theorem liveTagCount_split (s : Store) (postID c : Int) :
    liveTagCount s c
      = othersLive s postID c + (if isLive s postID = true then tagsOf s postID c else 0) := by
  unfold liveTagCount othersLive tagsOf
  rw [List.countP_eq_countP_filter_add _ _ (fun t => t.PostID != postID), List.countP_filter,
    List.countP_filter]
  congr 1
  · apply List.countP_congr
    intro t _
    simp only [Bool.and_eq_true, bne_iff_ne, ne_eq, beq_iff_eq]
    tauto
  · by_cases hl : isLive s postID = true
    · simp only [hl, if_true]
      apply List.countP_congr
      intro t _
      simp only [Bool.and_eq_true, beq_iff_eq, Bool.not_eq_true', bne_eq_false_iff_eq,
        decide_eq_true_eq]
      constructor
      · rintro ⟨⟨h1, _⟩, h2⟩
        exact ⟨h2, h1⟩
      · rintro ⟨h1, h2⟩
        exact ⟨⟨h2, by rw [h1]; exact hl⟩, h1⟩
    · simp only [hl, if_false, Bool.false_eq_true]
      rw [List.countP_eq_zero]
      intro t _
      simp only [Bool.and_eq_true, beq_iff_eq, Bool.not_eq_true', bne_eq_false_iff_eq,
        decide_eq_true_eq, not_and]
      rintro ⟨_, h1⟩ h2
      rw [h2] at h1
      exact hl h1

theorem isLive_of_postRow {s t : Store} {x : Int} (h : postRow t x = postRow s x) :
    isLive t x = isLive s x := by
  unfold isLive
  rw [h]

theorem postRow_map_other {s t : Store} {postID : Int} {f : PostEntity → PostEntity}
    (hf : ∀ p, (f p).ID = p.ID)
    (ht : t.posts = s.posts.map (fun p => if p.ID == postID then f p else p))
    {x : Int} (hx : x ≠ postID) : postRow t x = postRow s x := by
  have hg : ∀ p, (if (p.ID == postID) = true then f p else p).ID = p.ID := by
    intro p; split
    · exact hf p
    · rfl
  rw [postRow_of_map (g := fun p => if (p.ID == postID) = true then f p else p) hg ht x]
  cases hq : postRow s x with
  | none => rfl
  | some q =>
    have hqid := (postRow_mem hq).2
    have hne : ¬ q.ID = postID := by
      rw [hqid]; exact hx
    simp [hne]

theorem postRow_map_self {s t : Store} {postID : Int} {f : PostEntity → PostEntity}
    (hf : ∀ p, (f p).ID = p.ID)
    (ht : t.posts = s.posts.map (fun p => if p.ID == postID then f p else p))
    {row : PostEntity} (hrow : postRow s postID = some row) :
    postRow t postID = some (f row) := by
  have hg : ∀ p, (if (p.ID == postID) = true then f p else p).ID = p.ID := by
    intro p; split
    · exact hf p
    · rfl
  rw [postRow_of_map (g := fun p => if (p.ID == postID) = true then f p else p) hg ht postID, hrow]
  have hid : row.ID = postID := (postRow_mem hrow).2
  simp [hid]

theorem postRow_append_other {s t : Store} {row : PostEntity}
    (ht : t.posts = s.posts ++ [row]) {x : Int} (hx : x ≠ row.ID) :
    postRow t x = postRow s x := by
  unfold postRow
  rw [ht, List.find?_append]
  cases hq : s.posts.find? (fun p => p.ID == x) with
  | some q => rfl
  | none =>
    have hne : (row.ID == x) = false := by simpa using (fun h : row.ID = x => hx h.symm)
    simp [List.find?_cons, hne]

theorem postRow_none_of_fresh {s : Store} {x : Int} (h : ∀ p ∈ s.posts, p.ID ≠ x) :
    postRow s x = none := by
  unfold postRow
  rw [List.find?_eq_none]
  intro p hp
  simpa using h p hp

theorem postRow_append_self {s t : Store} {row : PostEntity}
    (ht : t.posts = s.posts ++ [row]) (hfresh : ∀ p ∈ s.posts, p.ID ≠ row.ID) :
    postRow t row.ID = some row := by
  have hnone := postRow_none_of_fresh hfresh
  unfold postRow at hnone ⊢
  rw [ht, List.find?_append, hnone]
  simp [List.find?_cons]

theorem othersLive_congr {s t : Store} {postID : Int}
    (hlive : ∀ x, x ≠ postID → isLive t x = isLive s x) (htags : t.post_tags = s.post_tags)
    (c : Int) : othersLive t postID c = othersLive s postID c := by
  unfold othersLive
  rw [htags]
  apply List.countP_congr
  intro r _
  by_cases hr : r.PostID = postID
  · simp [hr]
  · rw [hlive r.PostID hr]

theorem othersLive_rewrite {s t : Store} {postID : Int} {new : List PostTagRow}
    (hlive : ∀ x, x ≠ postID → isLive t x = isLive s x)
    (htags : t.post_tags = s.post_tags.filter (fun r => r.PostID != postID) ++ new)
    (hnew : ∀ r ∈ new, r.PostID = postID) (c : Int) :
    othersLive t postID c = othersLive s postID c := by
  unfold othersLive
  rw [htags, List.countP_append, List.countP_filter]
  have hzero : new.countP (fun r =>
      r.PostID != postID && (r.BukalapakCategoryID == c && isLive t r.PostID)) = 0 := by
    rw [List.countP_eq_zero]
    intro r hr
    simp [hnew r hr]
  rw [hzero, Nat.add_zero]
  apply List.countP_congr
  intro r _
  by_cases hr : r.PostID = postID
  · simp [hr]
  · rw [hlive r.PostID hr]
    simp [hr]

theorem tagsOf_rewrite {s t : Store} {postID : Int} {new : List PostTagRow}
    (htags : t.post_tags = s.post_tags.filter (fun r => r.PostID != postID) ++ new)
    (hnew : ∀ r ∈ new, r.PostID = postID) (c : Int) :
    tagsOf t postID c = (new.map (fun r => r.BukalapakCategoryID)).count c := by
  unfold tagsOf
  rw [htags, List.countP_append, List.countP_filter, List.count_eq_countP, List.countP_map]
  have hzero : s.post_tags.countP (fun r =>
      (r.PostID == postID && r.BukalapakCategoryID == c) && (r.PostID != postID)) = 0 := by
    rw [List.countP_eq_zero]
    intro r _
    by_cases hr : r.PostID = postID <;> simp [hr]
  rw [hzero, Nat.zero_add]
  apply List.countP_congr
  intro r hr
  simp [hnew r hr]

/-! ### Consistency is kept: the two shapes of a transaction -/

theorem row_unique {s : Store} (hs : Consistent s) {p q : PostEntity} (hp : p ∈ s.posts)
    (hq : q ∈ s.posts) (h : p.ID = q.ID) : p = q :=
  List.inj_on_of_nodup_map hs.postIDsNodup hp hq h

theorem isLive_of_row {s : Store} {postID : Int} {row : PostEntity}
    (h : postRow s postID = some row) : isLive s postID = (row.Published && !row.Deleted) := by
  unfold isLive
  rw [h]

/-- A transaction that updates the row of one post and the categories table,
and leaves images and tags alone (Publish, Delete), keeps the store consistent
when the counts move by the tags of the post, once per tag, in step with the
change of its live state. -/
theorem consistent_of_flag_change {s t : Store} (hs : Consistent s) {postID : Int}
    {row : PostEntity} {f : PostEntity → PostEntity}
    (hrow : postRow s postID = some row)
    (hposts : t.posts = s.posts.map (fun p => if p.ID == postID then f p else p))
    (hf : ∀ p, (f p).ID = p.ID)
    (hnp : t.nextPostID = s.nextPostID) (himg : t.post_images = s.post_images)
    (hni : t.nextImageID = s.nextImageID) (htags : t.post_tags = s.post_tags)
    (hhas : ∀ c, hasCategory t.categories c = hasCategory s.categories c)
    (htl : (f row).Published = true → (f row).LastPublishedAt ≠ none)
    (hcount : ∀ c : Int, c ≠ 0 →
      countOf t.categories c + (if isLive s postID = true then (tagsOf s postID c : Int) else 0)
        = countOf s.categories c
          + (if ((f row).Published && !(f row).Deleted) = true then (tagsOf s postID c : Int)
             else 0)) :
    Consistent t := by
  have hlive : ∀ x, x ≠ postID → isLive t x = isLive s x := fun x hx =>
    isLive_of_postRow (postRow_map_other hf hposts hx)
  have hlive2 : isLive t postID = ((f row).Published && !(f row).Deleted) :=
    isLive_of_row (postRow_map_self hf hposts hrow)
  refine ⟨?_, ?_, ?_, ?_, ?_, ?_, ?_, ?_, ?_⟩
  · intro p hp
    rw [hposts] at hp
    obtain ⟨q, hq, rfl⟩ := List.mem_map.1 hp
    rw [hnp]
    have := hs.postIDs q hq
    split
    · rw [hf]; exact this
    · exact this
  · rw [hposts, List.map_map]
    have : ((fun p : PostEntity => p.ID) ∘ fun p => if (p.ID == postID) = true then f p else p)
        = fun p : PostEntity => p.ID := by
      funext p
      simp only [Function.comp]
      split
      · exact hf p
      · rfl
    rw [this]
    exact hs.postIDsNodup
  · intro i hi
    rw [himg] at hi
    rw [hni, hnp]
    exact hs.imageIDs i hi
  · rw [himg]; exact hs.imageIDsNodup
  · intro r hr
    rw [htags] at hr
    rw [himg]
    exact hs.tagImages r hr
  · intro x
    rw [htags]; exact hs.tagLimit x
  · intro r hr hne
    rw [htags] at hr
    rw [hhas]
    exact hs.tagCategories r hr hne
  · intro p hp
    rw [hposts] at hp
    obtain ⟨q, hq, rfl⟩ := List.mem_map.1 hp
    by_cases hid : (q.ID == postID) = true
    · simp only [hid, if_true]
      have hqe : q = row :=
        row_unique hs hq (postRow_mem hrow).1
          ((by simpa using hid : q.ID = postID).trans (postRow_mem hrow).2.symm)
      rw [hqe]
      exact htl
    · simp only [hid, if_false, Bool.false_eq_true]
      exact hs.publishedTimeline q hq
  · intro c hc
    have h1 := hs.ledger c hc
    rw [categoryCount_eq, liveTagCount_split s postID c] at h1
    have h2 := hcount c hc
    rw [categoryCount_eq, liveTagCount_split t postID c, othersLive_congr hlive htags, hlive2]
    have h3 : tagsOf t postID c = tagsOf s postID c := by unfold tagsOf; rw [htags]
    rw [h3]
    by_cases ha : isLive s postID = true <;>
      by_cases hb : ((f row).Published && !(f row).Deleted) = true <;>
      simp only [ha, hb, if_true, if_false, Bool.false_eq_true] at h1 h2 ⊢ <;>
      push_cast at h1 ⊢ <;> omega

theorem addPostLogHistory_fields (s : Store) (now : Time) (userID : Nat) (postID : Int)
    (was : PostEntity) :
    (addPostLogHistory s now userID postID was).post_images = s.post_images ∧
    (addPostLogHistory s now userID postID was).post_tags = s.post_tags ∧
    (addPostLogHistory s now userID postID was).categories = s.categories ∧
    (addPostLogHistory s now userID postID was).nextPostID = s.nextPostID ∧
    (addPostLogHistory s now userID postID was).nextImageID = s.nextImageID ∧
    (addPostLogHistory s now userID postID was).post_filters = s.post_filters := by
  rw [addPostLogHistory_eq]
  exact ⟨rfl, rfl, rfl, rfl, rfl, rfl⟩

theorem publishLedger_categories (now : Time) (s : Store) (post : PostEntity) (published : Bool)
    (c : Int) :
    hasCategory (publishLedger now s post published).categories c = hasCategory s.categories c ∧
    ((hasCategory s.categories c = true ∨ (postCategoryIDs post).count c = 0) →
      countOf (publishLedger now s post published).categories c
        = countOf s.categories c
          + publishDelta post published * ((postCategoryIDs post).count c : Int)) := by
  unfold publishLedger publishDelta
  cases post.LastPublishedAt <;> cases published <;> cases post.Published <;>
    simp only [incrementCategoryCounts_eq, decrementCategoryCounts_eq, if_true, if_false,
      Bool.false_eq_true, Bool.not_true, Bool.not_false, hasCategory_foldl_bump, zero_mul,
      add_zero, true_and, implies_true] <;>
    exact fun h => countOf_foldl_bump now _ _ _ c h

theorem tagsOf_pos_hasCategory {s : Store} (hs : Consistent s) {postID c : Int} (hc : c ≠ 0) :
    hasCategory s.categories c = true ∨ tagsOf s postID c = 0 := by
  by_cases h : tagsOf s postID c = 0
  · exact Or.inr h
  · left
    have hpos : 0 < tagsOf s postID c := Nat.pos_of_ne_zero h
    unfold tagsOf at hpos
    obtain ⟨r, hr, hp⟩ := List.countP_pos_iff.1 hpos
    simp only [Bool.and_eq_true, beq_iff_eq] at hp
    have := hs.tagCategories r hr (by rw [hp.2]; exact hc)
    rw [hp.2] at this
    exact this

theorem publishRow_flags (post : PostEntity) (published : Bool) (now : Time) (p : PostEntity) :
    (publishRow post published now p).Published = published ∧
    (publishRow post published now p).Deleted = p.Deleted := by
  unfold publishRow
  cases post.LastPublishedAt <;> cases published <;> cases post.Published <;> exact ⟨rfl, rfl⟩

/-- Publish keeps the store consistent. -/
theorem Publish_consistent {s : Store} (hs : Consistent s) (now : Time) (userID : Nat)
    (id : Option Int) (body : Option Bool) :
    Consistent (Publish s now userID id body).store := by
  rcases Publish_cases s now userID id body with
    h | ⟨postID, post, published, _, _, hf, hd, hstore⟩
  · rw [h]; exact hs
  · obtain ⟨row, hrow, hlast, _, hpub, hdel, _⟩ := findPost_row hf
    have hfields := addPostLogHistory_fields (publishStatements now s postID post published)
      now userID postID post
    have hst : publishStatements now s postID post published
        = { s with
            posts := s.posts.map (fun p =>
              if p.ID == postID then publishRow post published now p else p),
            categories := (publishLedger now s post published).categories } := by
      unfold publishStatements
      rw [publishLedger_eq]
    have hcats := publishLedger_categories now s post published
    have hflags := publishRow_flags post published now row
    have hrowdel : row.Deleted = false := hdel.trans hd
    rw [hstore]
    refine consistent_of_flag_change hs hrow
      (f := publishRow post published now) ?_ (publishRow_ID post published now) ?_ ?_ ?_ ?_ ?_ ?_ ?_
    · rw [addPostLogHistory_posts, publishStatements_posts]
    · rw [hfields.2.2.2.1, hst]
    · rw [hfields.1, hst]
    · rw [hfields.2.2.2.2.1, hst]
    · rw [hfields.2.1, hst]
    · intro c
      rw [hfields.2.2.1, hst]
      exact (hcats c).1
    · intro hp
      have h7 := hs.publishedTimeline row (postRow_mem hrow).1
      rw [hlast] at h7
      rw [hpub] at h7
      unfold publishRow at hp ⊢
      cases hl : post.LastPublishedAt <;> cases published <;> cases hpp : post.Published <;>
        simp_all
    · intro c hc
      rw [hfields.2.2.1]
      have hcnt := (hcats c).2 (by
        rw [postCategoryIDs_count hs hf c]
        exact tagsOf_pos_hasCategory hs hc)
      rw [postCategoryIDs_count hs hf c] at hcnt
      have hcat2 : (publishStatements now s postID post published).categories
          = (publishLedger now s post published).categories := by rw [hst]
      rw [hcat2, hcnt, isLive_of_row hrow, hflags.1, hflags.2, hrowdel, hpub]
      have h7 := hs.publishedTimeline row (postRow_mem hrow).1
      rw [hlast, hpub] at h7
      unfold publishDelta
      cases hl : post.LastPublishedAt <;> cases published <;> cases hpp : post.Published <;>
        simp_all

theorem deleteStatements_eq (now : Time) (s : Store) (postID : Int) (post : PostEntity) :
    deleteStatements now s postID post
      = { s with
          posts := s.posts.map (fun p => if p.ID == postID then deleteRow now p else p),
          categories := (deleteStatements now s postID post).categories,
          post_filters := (deleteStatements now s postID post).post_filters } := by
  unfold deleteStatements
  cases post.Published <;> simp [decrementCategoryCounts_eq]

theorem deleteStatements_categories (now : Time) (s : Store) (postID : Int) (post : PostEntity) :
    (deleteStatements now s postID post).categories
      = if post.Published = true then
          (postCategoryIDs post).foldl (bumpCount now (-1)) s.categories
        else s.categories := by
  unfold deleteStatements
  cases post.Published <;> simp [decrementCategoryCounts_eq]

/-- Delete keeps the store consistent. -/
theorem Delete_consistent {s : Store} (hs : Consistent s) (now : Time) (userID : Nat)
    (id : Option Int) : Consistent (Delete s now userID id).store := by
  rcases Delete_cases s now userID id with h | ⟨postID, post, _, hf, hd, hstore⟩
  · rw [h]; exact hs
  · obtain ⟨row, hrow, hlast, _, hpub, hdel, _⟩ := findPost_row hf
    have hfields := addPostLogHistory_fields (deleteStatements now s postID post)
      now userID postID post
    have hst := deleteStatements_eq now s postID post
    have hcats := deleteStatements_categories now s postID post
    have hrowdel : row.Deleted = false := hdel.trans hd
    rw [hstore]
    refine consistent_of_flag_change hs hrow
      (f := deleteRow now) ?_ (fun _ => rfl) ?_ ?_ ?_ ?_ ?_ ?_ ?_
    · rw [addPostLogHistory_posts, deleteStatements_posts]
    · rw [hfields.2.2.2.1, hst]
    · rw [hfields.1, hst]
    · rw [hfields.2.2.2.2.1, hst]
    · rw [hfields.2.1, hst]
    · intro c
      rw [hfields.2.2.1, hcats]
      split
      · exact hasCategory_foldl_bump now (-1) _ _ c
      · rfl
    · intro hp
      simp [deleteRow] at hp
    · intro c hc
      rw [hfields.2.2.1, hcats, isLive_of_row hrow, hrowdel, hpub]
      cases hpp : post.Published
      · simp [deleteRow]
      · have hcnt := countOf_foldl_bump now (-1) (postCategoryIDs post) s.categories c (by
          rw [postCategoryIDs_count hs hf c]
          exact tagsOf_pos_hasCategory hs hc)
        rw [postCategoryIDs_count hs hf c] at hcnt
        simp only [if_true, hcnt]
        simp [deleteRow]

/-- A transaction that replaces the images and tags of one post by new rows and
moves the counts accordingly (Update, and Create for a post that had none)
keeps the store consistent. -/
theorem consistent_of_rewrite {s t : Store} (hs : Consistent s) (postID : Int)
    (imgs : List PostImageRow) (new : List PostTagRow)
    (hP1 : ∀ p ∈ t.posts, p.ID < t.nextPostID)
    (hP2 : (t.posts.map (fun p => p.ID)).Nodup)
    (hP3 : ∀ p ∈ t.posts, p.Published = true → p.LastPublishedAt ≠ none)
    (hnp : s.nextPostID ≤ t.nextPostID) (hpid : postID < t.nextPostID)
    (hlive : ∀ x, x ≠ postID → isLive t x = isLive s x)
    (himg : t.post_images = s.post_images.filter (fun r => r.PostID != postID) ++ imgs)
    (hni : s.nextImageID ≤ t.nextImageID)
    (himgs : ∀ i ∈ imgs, i.PostID = postID ∧ s.nextImageID ≤ i.ID ∧ i.ID < t.nextImageID)
    (himgsnd : (imgs.map (fun i => i.ID)).Nodup)
    (htags : t.post_tags = s.post_tags.filter (fun r => r.PostID != postID) ++ new)
    (hnew : ∀ r ∈ new, r.PostID = postID ∧ ∃ i ∈ imgs, i.ID = r.ImageID)
    (hnewlen : new.length ≤ 10)
    (hhas : ∀ c : Int, c ≠ 0 → hasCategory s.categories c = true →
      hasCategory t.categories c = true)
    (hhasnew : ∀ r ∈ new, r.BukalapakCategoryID ≠ 0 →
      hasCategory t.categories r.BukalapakCategoryID = true)
    (hcount : ∀ c : Int, c ≠ 0 →
      countOf t.categories c + (if isLive s postID = true then (tagsOf s postID c : Int) else 0)
        = countOf s.categories c
          + (if isLive t postID = true then
              ((new.map (fun r => r.BukalapakCategoryID)).count c : Int) else 0)) :
    Consistent t := by
  refine ⟨hP1, hP2, ?_, ?_, ?_, ?_, ?_, hP3, ?_⟩
  · intro i hi
    rw [himg] at hi
    rcases List.mem_append.1 hi with hi | hi
    · have := hs.imageIDs i (List.mem_filter.1 hi).1
      exact ⟨lt_of_lt_of_le this.1 hni, lt_of_lt_of_le this.2 hnp⟩
    · obtain ⟨h1, _, h3⟩ := himgs i hi
      exact ⟨h3, by rw [h1]; exact hpid⟩
  · rw [himg, List.map_append, List.nodup_append]
    refine ⟨List.Nodup.sublist ((List.filter_sublist _).map _) hs.imageIDsNodup, himgsnd, ?_⟩
    intro x hx1 hx2
    obtain ⟨a1, ha1, rfl⟩ := List.mem_map.1 hx1
    obtain ⟨a2, ha2, he⟩ := List.mem_map.1 hx2
    have h1 := (hs.imageIDs a1 (List.mem_filter.1 ha1).1).1
    have h2 := (himgs a2 ha2).2.1
    have he2 : a2.ID = a1.ID := he
    omega
  · intro r hr
    rw [htags] at hr
    rw [himg]
    rcases List.mem_append.1 hr with hr | hr
    · obtain ⟨hr1, hr2⟩ := List.mem_filter.1 hr
      obtain ⟨i, hi, hid, hpid2⟩ := hs.tagImages r hr1
      refine ⟨i, List.mem_append_left _ (List.mem_filter.2 ⟨hi, ?_⟩), hid, hpid2⟩
      rw [hpid2]; exact hr2
    · obtain ⟨h1, i, hi, hid⟩ := hnew r hr
      exact ⟨i, List.mem_append_right _ hi, hid, by rw [h1]; exact (himgs i hi).1⟩
  · intro x
    rw [htags, List.countP_append, List.countP_filter]
    by_cases hx : x = postID
    · subst hx
      have hzero : s.post_tags.countP (fun r => r.PostID == x && (r.PostID != x)) = 0 := by
        rw [List.countP_eq_zero]
        intro r _
        by_cases hr : r.PostID = x <;> simp [hr]
      rw [hzero, Nat.zero_add]
      exact le_trans (List.countP_le_length _) hnewlen
    · have hzero : new.countP (fun r => r.PostID == x) = 0 := by
        rw [List.countP_eq_zero]
        intro r hr
        rw [(hnew r hr).1]
        simpa using fun h : postID = x => hx h.symm
      rw [hzero, Nat.add_zero]
      refine le_trans (List.countP_mono_left ?_) (hs.tagLimit x)
      intro r _ hr
      simp only [Bool.and_eq_true] at hr
      exact hr.1
  · intro r hr hne
    rw [htags] at hr
    rcases List.mem_append.1 hr with hr | hr
    · exact hhas _ hne (hs.tagCategories r (List.mem_filter.1 hr).1 hne)
    · exact hhasnew r hr hne
  · intro c hc
    have h1 := hs.ledger c hc
    rw [categoryCount_eq, liveTagCount_split s postID c] at h1
    have h2 := hcount c hc
    rw [categoryCount_eq, liveTagCount_split t postID c,
      othersLive_rewrite hlive htags (fun r hr => (hnew r hr).1),
      tagsOf_rewrite htags (fun r hr => (hnew r hr).1)]
    by_cases ha : isLive s postID = true <;> by_cases hb : isLive t postID = true <;>
      simp only [ha, hb, if_true, if_false, Bool.false_eq_true] at h1 h2 ⊢ <;>
      push_cast at h1 ⊢ <;> omega

theorem posts_map_consistent {s t : Store} (hs : Consistent s) {postID : Int}
    {row : PostEntity} {f : PostEntity → PostEntity}
    (hrow : postRow s postID = some row)
    (hposts : t.posts = s.posts.map (fun p => if p.ID == postID then f p else p))
    (hf : ∀ p, (f p).ID = p.ID) (hnp : t.nextPostID = s.nextPostID)
    (htl : (f row).Published = true → (f row).LastPublishedAt ≠ none) :
    (∀ p ∈ t.posts, p.ID < t.nextPostID) ∧ (t.posts.map (fun p => p.ID)).Nodup ∧
    (∀ p ∈ t.posts, p.Published = true → p.LastPublishedAt ≠ none) := by
  refine ⟨?_, ?_, ?_⟩
  · intro p hp
    rw [hposts] at hp
    obtain ⟨q, hq, rfl⟩ := List.mem_map.1 hp
    rw [hnp]
    have := hs.postIDs q hq
    split
    · rw [hf]; exact this
    · exact this
  · rw [hposts, List.map_map]
    have : ((fun p : PostEntity => p.ID) ∘ fun p => if (p.ID == postID) = true then f p else p)
        = fun p : PostEntity => p.ID := by
      funext p
      simp only [Function.comp]
      split
      · exact hf p
      · rfl
    rw [this]
    exact hs.postIDsNodup
  · intro p hp
    rw [hposts] at hp
    obtain ⟨q, hq, rfl⟩ := List.mem_map.1 hp
    by_cases hid : (q.ID == postID) = true
    · simp only [hid, if_true]
      have hqe : q = row :=
        row_unique hs hq (postRow_mem hrow).1
          ((by simpa using hid : q.ID = postID).trans (postRow_mem hrow).2.symm)
      rw [hqe]
      exact htl
    · simp only [hid, if_false, Bool.false_eq_true]
      exact hs.publishedTimeline q hq

theorem updateStatements_fields (now : Time) (s : Store) (postID : Int) (post : PostEntity)
    (pr : PostRequest) :
    (updateStatements now s postID post pr).nextPostID = s.nextPostID ∧
    (updateStatements now s postID post pr).nextImageID = s.nextImageID ∧
    (updateStatements now s postID post pr).post_images
      = s.post_images.filter (fun r => r.PostID != postID) ∧
    (updateStatements now s postID post pr).post_tags
      = s.post_tags.filter (fun r => r.PostID != postID) ∧
    (updateStatements now s postID post pr).categories
      = (if post.Published = true then
          (postCategoryIDs post).foldl (bumpCount now (-1)) s.categories
        else s.categories) := by
  unfold updateStatements
  have h := findOrCreateInfluencer_eq now s pr.InfluencerName
  cases post.Published
  · simp only [Bool.false_eq_true, if_false]
    rw [h]
    exact ⟨rfl, rfl, rfl, rfl, rfl⟩
  · simp only [if_true, decrementCategoryCounts_eq]
    rw [h]
    exact ⟨rfl, rfl, rfl, rfl, rfl⟩

theorem updateRow_flags (post : PostEntity) (pr : PostRequest) (influencer : InfluencerEntity)
    (now : Time) (p : PostEntity) :
    (updateRow post pr influencer now p).Published = pr.Published ∧
    (updateRow post pr influencer now p).Deleted = p.Deleted := by
  unfold updateRow updateTimeline
  cases post.LastPublishedAt <;> cases pr.Published <;> cases post.Published <;> exact ⟨rfl, rfl⟩

theorem requestCategoryIDs_length (images : List PostImageRequest) :
    (requestCategoryIDs images).length = (requestTags images).length := by
  rw [requestCategoryIDs_eq, List.length_map]

/-- Update keeps the store consistent when the request has at most ten tags. -/
theorem Update_consistent {s : Store} (hs : Consistent s)
    (parseTagURL : String → Option (Int × String)) (now : Time) (userID : Nat)
    (id : Option Int) (body : Option PostRequest)
    (small : ∀ pr, body = some pr → (requestTags pr.Images).length ≤ 10) :
    Consistent (Update parseTagURL s now userID id body).store := by
  rcases Update_cases parseTagURL s now userID id body with
    h | ⟨postID, pr, post, committed, _, hbody, hv, hf, hd, hc, hstore⟩
  · rw [h]; exact hs
  · obtain ⟨row, hrow, hlast, _, hpub, hdel, _⟩ := findPost_row hf
    have spec := insertImages_spec pr.Images (isValid_url hv) hc
    have hfields := addPostLogHistory_fields committed now userID postID post
    have hU := updateStatements_fields now s postID post pr
    have hrowdel : row.Deleted = false := hdel.trans hd
    obtain ⟨imgs, tags, himg, htags, himgs, himgsnd, htagsp, htagsc⟩ := spec.rows
    have hflags := updateRow_flags post pr (findOrCreateInfluencer now s pr.InfluencerName).2 now row
    have hposts : (addPostLogHistory committed now userID postID post).posts
        = s.posts.map (fun p =>
            if p.ID == postID then
              updateRow post pr (findOrCreateInfluencer now s pr.InfluencerName).2 now p
            else p) := by
      rw [addPostLogHistory_posts, spec.posts, updateStatements_posts]
    have hnp : (addPostLogHistory committed now userID postID post).nextPostID = s.nextPostID := by
      rw [hfields.2.2.2.1, spec.nextPostID, hU.1]
    have h7 := hs.publishedTimeline row (postRow_mem hrow).1
    obtain ⟨hP1, hP2, hP3⟩ := posts_map_consistent hs hrow hposts
      (updateRow_ID post pr _ now) hnp (by
        intro hp
        rw [hlast, hpub] at h7
        unfold updateRow updateTimeline at hp ⊢
        cases hl : post.LastPublishedAt <;> cases hq : pr.Published <;>
          cases hpp : post.Published <;> simp_all)
    have hlive : ∀ x, x ≠ postID →
        isLive (addPostLogHistory committed now userID postID post) x = isLive s x :=
      fun x hx => isLive_of_postRow (postRow_map_other (updateRow_ID post pr _ now) hposts hx)
    have hlive2 : isLive (addPostLogHistory committed now userID postID post) postID
        = pr.Published := by
      rw [isLive_of_row (postRow_map_self (updateRow_ID post pr _ now) hposts hrow),
        hflags.1, hflags.2, hrowdel]
      simp
    have hcatU : ∀ c : Int, hasCategory (updateStatements now s postID post pr).categories c
        = hasCategory s.categories c := by
      intro c
      rw [hU.2.2.2.2]
      split
      · exact hasCategory_foldl_bump now (-1) _ _ c
      · rfl
    rw [hstore]
    refine consistent_of_rewrite hs postID imgs tags
      hP1 hP2 hP3 (le_of_eq hnp.symm) ?_ hlive ?_ ?_ ?_ himgsnd ?_ ?_ ?_ ?_ ?_ ?_
    · rw [hnp, ← (postRow_mem hrow).2]
      exact hs.postIDs row (postRow_mem hrow).1
    · rw [hfields.1, himg, hU.2.2.1]
    · rw [hfields.2.2.2.2.1, ← hU.2.1]; exact spec.nextImageID
    · intro i hi
      obtain ⟨h1, h2, h3⟩ := himgs i hi
      rw [hfields.2.2.2.2.1]
      rw [hU.2.1] at h2
      exact ⟨h1, h2, h3⟩
    · rw [hfields.2.1, htags, hU.2.2.2.1]
    · exact htagsp
    · have : tags.length = (requestTags pr.Images).length := by
        rw [← requestCategoryIDs_length, ← htagsc, List.length_map]
      rw [this]
      exact small pr hbody
    · intro c hc0 hhas
      rw [hfields.2.2.1, spec.categories,
        hasCategory_foldl_tagLedger now pr.Published _ _ hc0]
      left
      rw [hcatU]; exact hhas
    · intro r hr hne
      rw [hfields.2.2.1, spec.categories,
        hasCategory_foldl_tagLedger now pr.Published _ _ hne]
      right
      rw [← requestCategoryIDs_eq, ← htagsc]
      exact List.mem_map.2 ⟨r, hr, rfl⟩
    · intro c hc0
      rw [hfields.2.2.1, spec.categories, countOf_foldl_tagLedger now pr.Published _ _ hc0,
        hlive2, htagsc, ← requestCategoryIDs_eq, hU.2.2.2.2, isLive_of_row hrow, hrowdel, hpub]
      cases hpp : post.Published
      · simp
      · have hcnt := countOf_foldl_bump now (-1) (postCategoryIDs post) s.categories c (by
          rw [postCategoryIDs_count hs hf c]
          exact tagsOf_pos_hasCategory hs hc0)
        rw [postCategoryIDs_count hs hf c] at hcnt
        simp only [if_true, hcnt]
        simp only [Bool.not_false, Bool.and_true, if_true]
        ring

theorem createStatements_fields (now : Time) (s : Store) (pr : PostRequest) :
    (createStatements now s pr).nextPostID = s.nextPostID + 1 ∧
    (createStatements now s pr).nextImageID = s.nextImageID ∧
    (createStatements now s pr).post_images = s.post_images ∧
    (createStatements now s pr).post_tags = s.post_tags ∧
    (createStatements now s pr).categories = s.categories := by
  unfold createStatements
  have h := findOrCreateInfluencer_eq now s pr.InfluencerName
  simp only []
  rw [h]
  exact ⟨rfl, rfl, rfl, rfl, rfl⟩

theorem createPostRow_fields (now : Time) (tx : Store) (influencer : InfluencerEntity)
    (pr : PostRequest) :
    (createPostRow now tx influencer pr).ID = tx.nextPostID ∧
    (createPostRow now tx influencer pr).Published = pr.Published ∧
    (createPostRow now tx influencer pr).Deleted = false ∧
    ((createPostRow now tx influencer pr).Published = true →
      (createPostRow now tx influencer pr).LastPublishedAt ≠ none) := by
  unfold createPostRow
  refine ⟨rfl, rfl, rfl, ?_⟩
  cases pr.Published <;> simp

theorem filter_fresh_images {s : Store} (hs : Consistent s) :
    s.post_images.filter (fun r => r.PostID != s.nextPostID) = s.post_images := by
  rw [List.filter_eq_self]
  intro i hi
  have := (hs.imageIDs i hi).2
  simp only [bne_iff_ne, ne_eq]
  omega

theorem filter_fresh_tags {s : Store} (hs : Consistent s) :
    s.post_tags.filter (fun r => r.PostID != s.nextPostID) = s.post_tags := by
  rw [List.filter_eq_self]
  intro r hr
  obtain ⟨i, hi, _, hpid⟩ := hs.tagImages r hr
  have := (hs.imageIDs i hi).2
  simp only [bne_iff_ne, ne_eq]
  omega

/-- Create keeps the store consistent when the request has at most ten tags. -/
theorem Create_consistent {s : Store} (hs : Consistent s)
    (parseTagURL : String → Option (Int × String)) (now : Time) (userID : Nat)
    (body : Option PostRequest)
    (small : ∀ pr, body = some pr → (requestTags pr.Images).length ≤ 10) :
    Consistent (Create parseTagURL s now userID body).store := by
  rcases Create_cases parseTagURL s now userID body with
    h | ⟨pr, committed, hbody, hv, hc, hstore⟩
  · rw [h]; exact hs
  · rw [findOrCreateInfluencer_nextPostID] at hc hstore
    have spec := insertImages_spec pr.Images (isValid_url hv) hc
    have hfields := addPostLogHistory_fields committed now userID s.nextPostID zeroPostEntity
    have hC := createStatements_fields now s pr
    obtain ⟨imgs, tags, himg, htags, himgs, himgsnd, htagsp, htagsc⟩ := spec.rows
    have hrowf := createPostRow_fields now (findOrCreateInfluencer now s pr.InfluencerName).1
      (findOrCreateInfluencer now s pr.InfluencerName).2 pr
    rw [findOrCreateInfluencer_nextPostID] at hrowf
    have hposts : (addPostLogHistory committed now userID s.nextPostID zeroPostEntity).posts
        = s.posts ++ [createPostRow now (findOrCreateInfluencer now s pr.InfluencerName).1
            (findOrCreateInfluencer now s pr.InfluencerName).2 pr] := by
      rw [addPostLogHistory_posts, spec.posts, createStatements_posts]
    have hnp : (addPostLogHistory committed now userID s.nextPostID zeroPostEntity).nextPostID
        = s.nextPostID + 1 := by
      rw [hfields.2.2.2.1, spec.nextPostID, hC.1]
    have hfresh : ∀ p ∈ s.posts, p.ID ≠
        (createPostRow now (findOrCreateInfluencer now s pr.InfluencerName).1
          (findOrCreateInfluencer now s pr.InfluencerName).2 pr).ID := by
      intro p hp
      rw [hrowf.1]
      have := hs.postIDs p hp
      omega
    have hlive : ∀ x, x ≠ s.nextPostID →
        isLive (addPostLogHistory committed now userID s.nextPostID zeroPostEntity) x
          = isLive s x :=
      fun x hx => isLive_of_postRow (postRow_append_other hposts (by rw [hrowf.1]; exact hx))
    have hlive2 : isLive (addPostLogHistory committed now userID s.nextPostID zeroPostEntity)
        s.nextPostID = pr.Published := by
      have := postRow_append_self hposts hfresh
      rw [hrowf.1] at this
      rw [isLive_of_row this, hrowf.2.1, hrowf.2.2.1]
      simp
    have hlive0 : isLive s s.nextPostID = false := by
      unfold isLive
      rw [postRow_none_of_fresh (fun p hp => by have := hs.postIDs p hp; omega)]
    rw [hstore]
    refine consistent_of_rewrite hs s.nextPostID imgs tags
      ?_ ?_ ?_ ?_ ?_ hlive ?_ ?_ ?_ himgsnd ?_ htagsp ?_ ?_ ?_ ?_
    · intro p hp
      rw [hposts] at hp
      rw [hnp]
      rcases List.mem_append.1 hp with hp | hp
      · have := hs.postIDs p hp
        omega
      · simp only [List.mem_singleton] at hp
        rw [hp, hrowf.1]
        omega
    · rw [hposts, List.map_append, List.nodup_append]
      refine ⟨hs.postIDsNodup, by simp, ?_⟩
      intro x hx1 hx2
      obtain ⟨p, hp, rfl⟩ := List.mem_map.1 hx1
      simp only [List.map_cons, List.map_nil, List.mem_singleton] at hx2
      exact hfresh p hp hx2
    · intro p hp
      rw [hposts] at hp
      rcases List.mem_append.1 hp with hp | hp
      · exact hs.publishedTimeline p hp
      · simp only [List.mem_singleton] at hp
        rw [hp]
        exact hrowf.2.2.2
    · rw [hnp]; omega
    · rw [hnp]; omega
    · rw [hfields.1, himg, hC.2.2.1, filter_fresh_images hs]
    · rw [hfields.2.2.2.2.1, ← hC.2.1]; exact spec.nextImageID
    · intro i hi
      obtain ⟨h1, h2, h3⟩ := himgs i hi
      rw [hfields.2.2.2.2.1]
      rw [hC.2.1] at h2
      exact ⟨h1, h2, h3⟩
    · rw [hfields.2.1, htags, hC.2.2.2.1, filter_fresh_tags hs]
    · have : tags.length = (requestTags pr.Images).length := by
        rw [← requestCategoryIDs_length, ← htagsc, List.length_map]
      rw [this]
      exact small pr hbody
    · intro c hc0 hhas
      rw [hfields.2.2.1, spec.categories,
        hasCategory_foldl_tagLedger now pr.Published _ _ hc0]
      left
      rw [hC.2.2.2.2]; exact hhas
    · intro r hr hne
      rw [hfields.2.2.1, spec.categories,
        hasCategory_foldl_tagLedger now pr.Published _ _ hne]
      right
      rw [← requestCategoryIDs_eq, ← htagsc]
      exact List.mem_map.2 ⟨r, hr, rfl⟩
    · intro c hc0
      rw [hfields.2.2.1, spec.categories, countOf_foldl_tagLedger now pr.Published _ _ hc0,
        hlive2, htagsc, ← requestCategoryIDs_eq, hC.2.2.2.2, hlive0]
      simp

theorem Consistent_empty : Consistent emptyStore := by
  refine ⟨?_, ?_, ?_, ?_, ?_, ?_, ?_, ?_, ?_⟩ <;>
    simp [emptyStore, categoryCount, liveTagCount]

/-! ### C1, C4, C5, C6: the category ledger -/

/-- C1, as stated, fails: on the empty database, where every count and every
number of posts is 0, a published Create whose one image carries two tags of
category 32 commits and leaves the count of category 32 at 2, while one
non-deleted published post has a tag of that category. -/
theorem count_differs_from_number_of_posts :
    emptyStore.categories = [] ∧ emptyStore.posts = [] ∧
    twoTagRequest.isValid = true ∧
    responseStatus (Create plainURL emptyStore 1700000000 7 (some twoTagRequest)).response
      = some 201 ∧
    categoryCount (Create plainURL emptyStore 1700000000 7 (some twoTagRequest)).store 32 = 2 ∧
    livePostCount (Create plainURL emptyStore 1700000000 7 (some twoTagRequest)).store 32 = 1 ∧
    liveTagCount (Create plainURL emptyStore 1700000000 7 (some twoTagRequest)).store 32 = 2 := by
  decide

/-- C1, amended: the ledger counts tags.  The empty database is consistent;
every call of Create, Update, Publish or Delete, with a post request of at most
ten tags over all its images, takes a consistent store to a consistent store;
in a consistent store the count of every category id c other than 0 equals
the number of tag rows with category c that belong to non-deleted, published
posts (a post with two tags of one category counts twice); hence the equation
holds after every run of such calls on the empty database. -/
theorem ledger_counts_tags_of_live_posts :
    Consistent emptyStore ∧
    (∀ s t : Store, Consistent s → LedgerStep s t → Consistent t) ∧
    (∀ s : Store, Consistent s → ∀ c : Int, c ≠ 0 →
      categoryCount s c = (liveTagCount s c : Int)) ∧
    (∀ s : Store, Relation.ReflTransGen LedgerStep emptyStore s → ∀ c : Int, c ≠ 0 →
      categoryCount s c = (liveTagCount s c : Int)) := by
  have hstep : ∀ s t : Store, Consistent s → LedgerStep s t → Consistent t := by
    intro s t hs hstep
    cases hstep with
    | create parseTagURL _ now userID body small =>
      exact Create_consistent hs parseTagURL now userID body small
    | update parseTagURL _ now userID id body small =>
      exact Update_consistent hs parseTagURL now userID id body small
    | publish _ now userID id body => exact Publish_consistent hs now userID id body
    | delete _ now userID id => exact Delete_consistent hs now userID id
  refine ⟨Consistent_empty, hstep, fun s hs => hs.ledger, ?_⟩
  intro s hrun
  have hcons : Consistent s := by
    induction hrun with
    | refl => exact Consistent_empty
    | tail _ hlast ih => exact hstep _ _ ih hlast
  exact hcons.ledger

/-- Witness of C1, amended: after the Create of the two-tag request on the empty
database the count of category 32 is the number of its tags on live posts. -/
theorem ledger_counts_tags_of_live_posts_witness :
    Consistent emptyStore ∧
    categoryCount (Create plainURL emptyStore 1700000000 7 (some twoTagRequest)).store 32
      = (liveTagCount (Create plainURL emptyStore 1700000000 7 (some twoTagRequest)).store 32 : Int) :=
  ⟨ledger_counts_tags_of_live_posts.1,
   ledger_counts_tags_of_live_posts.2.2.1 _
     (ledger_counts_tags_of_live_posts.2.1 _ _ ledger_counts_tags_of_live_posts.1
       (LedgerStep.create plainURL emptyStore 1700000000 7 (some twoTagRequest)
         (fun pr h => by cases h; decide)))
     32 (by decide)⟩

/-- C4 at a failing input (N = 1): the post of elevenTagStore is unpublished and
not deleted and carries exactly one tag of category 32, whose count is 0, after
ten tags of category 77; Publish with published=true commits and publishes the
post, and the count of category 32 is still 0, not 1. -/
theorem publish_misses_the_eleventh_tag :
    (elevenTagRequest false).isValid = true ∧
    (postRow (elevenTagStore false) 1).map (fun p => (p.Published, p.Deleted))
      = some (false, false) ∧
    tagsOf (elevenTagStore false) 1 32 = 1 ∧
    hasCategory (elevenTagStore false).categories 32 = true ∧
    categoryCount (elevenTagStore false) 32 = 0 ∧
    (Publish (elevenTagStore false) 1700000500 7 (some 1) (some true)).response
      = Response.publish 202 true ∧
    (postRow (Publish (elevenTagStore false) 1700000500 7 (some 1) (some true)).store 1).map
        (fun p => p.Published) = some true ∧
    categoryCount (Publish (elevenTagStore false) 1700000500 7 (some 1) (some true)).store 32
      = 0 := by
  decide

/-- C5 at a failing input: on the empty database, Create of the valid published
request elevenTagRequest (two images, ten tags and one tag) followed by Delete
of the created post 1 leaves the count of category 32 at 1, while it had no
count before the Create; the filter rows of the post are gone and no
non-deleted post is left. -/
theorem create_then_delete_leaves_a_count :
    (elevenTagRequest true).isValid = true ∧
    categoryCount emptyStore 32 = 0 ∧
    categoryCount (elevenTagStore true) 32 = 1 ∧
    (Delete (elevenTagStore true) 1700000500 7 (some 1)).response
      = Response.message 202 "Post has been deleted" ∧
    categoryCount (Delete (elevenTagStore true) 1700000500 7 (some 1)).store 32 = 1 ∧
    categoryCount (Delete (elevenTagStore true) 1700000500 7 (some 1)).store 77 = 0 ∧
    (Delete (elevenTagStore true) 1700000500 7 (some 1)).store.post_filters = [] ∧
    (Delete (elevenTagStore true) 1700000500 7 (some 1)).store.posts.all
        (fun p => p.Deleted) = true := by
  decide

/-- C6 at a failing input: the post of elevenTagStore is published and carries
one tag of category 32, whose count is 1; Update with the valid published
request without images commits, and the count of category 32 is still 1, where
the claim gives 1 + 0 - 1 = 0. -/
theorem update_misses_the_eleventh_tag :
    (noImageRequest true).isValid = true ∧
    (postRow (elevenTagStore true) 1).map (fun p => (p.Published, p.Deleted))
      = some (true, false) ∧
    tagsOf (elevenTagStore true) 1 32 = 1 ∧
    (requestCategoryIDs (noImageRequest true).Images).count 32 = 0 ∧
    categoryCount (elevenTagStore true) 32 = 1 ∧
    responseStatus
        (Update plainURL (elevenTagStore true) 1700000500 7 (some 1)
          (some (noImageRequest true))).response = some 202 ∧
    categoryCount
        (Update plainURL (elevenTagStore true) 1700000500 7 (some 1)
          (some (noImageRequest true))).store 32 = 1 := by
  decide

/-! ## Request validation (C19) -/

/-- C19: isValid returns true exactly when every image of the request has a
non-empty url, a non-zero width, a non-zero height and at most ten tags (so a
request without images is valid), and for a request on which isValid is false
Create and Update (whatever the id) answer InvalidParameterError and return the
store they were given. -/
theorem isValid_iff_and_invalid_is_rejected (parseTagURL : String → Option (Int × String))
    (s : Store) (now : Time) (userID : Nat) (id : Option Int) (pr : PostRequest) :
    (pr.isValid = true ↔ ∀ image ∈ pr.Images,
      image.URL ≠ "" ∧ image.Width ≠ 0 ∧ image.Height ≠ 0 ∧ image.Tags.length ≤ 10) ∧
    (pr.Images = [] → pr.isValid = true) ∧
    (pr.isValid = false →
      Create parseTagURL s now userID (some pr)
        = { store := s, response := Response.error InvalidParameterError } ∧
      Update parseTagURL s now userID id (some pr)
        = { store := s, response := Response.error InvalidParameterError }) := by
  refine ⟨?_, ?_, ?_⟩
  · unfold PostRequest.isValid
    rw [List.all_eq_true]
    constructor
    · intro h image hi
      have := h image hi
      simp at this
      exact ⟨this.1.1.1, this.1.2, this.1.1.2, this.2⟩
    · intro h image hi
      obtain ⟨h1, h2, h3, h4⟩ := h image hi
      simp
      exact ⟨⟨⟨h1, h3⟩, h2⟩, h4⟩
  · intro h
    unfold PostRequest.isValid
    rw [h]
    rfl
  · intro h
    constructor
    · simp [Create, h]
    · cases id <;> simp [Update, h]

/-- C19 at a request whose image has width 0, sent to Create and to Update of
post 1 on the store that holds the sample post. -/
theorem isValid_iff_and_invalid_is_rejected_witness :
    zeroWidthRequest.isValid = false ∧
    Create plainURL createdStore 1700000100 7 (some zeroWidthRequest)
      = { store := createdStore, response := Response.error InvalidParameterError } ∧
    Update plainURL createdStore 1700000100 7 (some 1) (some zeroWidthRequest)
      = { store := createdStore, response := Response.error InvalidParameterError } :=
  ⟨by decide,
   (isValid_iff_and_invalid_is_rejected plainURL createdStore 1700000100 7 (some 1)
      zeroWidthRequest).2.2 (by decide)⟩

/-! ## Search forms and query text (C12, C13, C14, C15, C17, C18, C20) -/

theorem whereConditions_head (form : PostSearchForm) :
    ∃ rest : List String, whereConditions form = "deleted=false" :: rest := by
  unfold whereConditions
  simp only []
  repeat' split
  all_goals exact ⟨_, by simp; rfl⟩

theorem where_deleted_literal : "WHERE " ++ "deleted=false" = "WHERE deleted=false" := by
  decide

/-- C12: for every search form, buildWhereQuery is the text WHERE followed by
a list of conjuncts joined with AND and a closing blank, and the first conjunct
of that list is deleted=false, so the text starts with WHERE deleted=false
whatever the fields of the form are. -/
theorem buildWhereQuery_starts_with_deleted_false (form : PostSearchForm) :
    ∃ rest : List String,
      whereConditions form = "deleted=false" :: rest ∧
      buildWhereQuery form = "WHERE " ++ stringsJoin " AND " ("deleted=false" :: rest) ++ " " ∧
      buildWhereQuery form
        = "WHERE deleted=false" ++
            (if rest = [] then "" else " AND " ++ stringsJoin " AND " rest) ++ " " := by
  obtain ⟨rest, h⟩ := whereConditions_head form
  refine ⟨rest, h, ?_, ?_⟩
  · unfold buildWhereQuery
    rw [h]
  · unfold buildWhereQuery
    rw [h, ← where_deleted_literal]
    cases rest with
    | nil => simp [stringsJoin]
    | cons c rest =>
      rw [if_neg (List.cons_ne_nil c rest)]
      simp only [stringsJoin, String.append_assoc]

theorem decimalValue_toString_small (n : Nat) (h : n ≤ 25) :
    decimalValue (toString n) = some n := by
  interval_cases n <;> decide

/-- C13: buildBasePostSearchForm and getLimitOffsetFromURLQuery resolve the same
limit; it is n when the limit parameter is a run of decimal digits with value n
and 1 ≤ n ≤ 25 (in particular when it is the decimal text of such an n), and
it is 10 for every other text, be it empty, not a run of digits (a sign
included), of value 0 or of any value above 25. -/
theorem limit_is_parameter_or_default (params : Values) :
    (getLimitOffsetFromURLQuery params).1 = (buildBasePostSearchForm params).limit ∧
    (∀ n : Nat, decimalValue (params.Get "limit") = some n → 1 ≤ n → n ≤ 25 →
      (buildBasePostSearchForm params).limit = n) ∧
    (∀ n : Nat, params.Get "limit" = toString n → 1 ≤ n → n ≤ 25 →
      (buildBasePostSearchForm params).limit = n) ∧
    ((∀ n : Nat, decimalValue (params.Get "limit") = some n → n = 0 ∨ 25 < n) →
      (buildBasePostSearchForm params).limit = 10) := by
  have key : ∀ n : Nat, decimalValue (params.Get "limit") = some n → 1 ≤ n → n ≤ 25 →
      (buildBasePostSearchForm params).limit = n := by
    intro n hn h1 h25
    have h255 : ¬ n > 255 := by omega
    have hz : ¬ n = 0 := by omega
    have hb : ¬ 25 < n := by omega
    simp [buildBasePostSearchForm, parseUint8, hn, h255, hz, hb]
  refine ⟨rfl, key, ?_, ?_⟩
  · intro n hn h1 h25
    exact key n (by rw [hn]; exact decimalValue_toString_small n h25) h1 h25
  · intro h
    cases hd : decimalValue (params.Get "limit") with
    | none => simp [buildBasePostSearchForm, parseUint8, hd]
    | some n =>
      by_cases h255 : n > 255
      · simp [buildBasePostSearchForm, parseUint8, hd, h255]
      · rcases h n hd with h0 | h25
        · simp [buildBasePostSearchForm, parseUint8, hd, h0]
        · simp [buildBasePostSearchForm, parseUint8, hd, h255, h25]

/-- C13 at the parameters limit=25, limit=7 and, for the default, limit=500 and
limit=-5. -/
theorem limit_is_parameter_or_default_witness :
    (buildBasePostSearchForm (queryOf [("limit", "25")])).limit = 25 ∧
    (buildBasePostSearchForm (queryOf [("limit", "7")])).limit = 7 ∧
    (buildBasePostSearchForm (queryOf [("limit", "500")])).limit = 10 ∧
    (buildBasePostSearchForm (queryOf [("limit", "-5")])).limit = 10 :=
  ⟨(limit_is_parameter_or_default (queryOf [("limit", "25")])).2.1 25 (by decide) (by decide)
      (by decide),
   (limit_is_parameter_or_default (queryOf [("limit", "7")])).2.2.1 7 (by decide) (by decide)
      (by decide),
   (limit_is_parameter_or_default (queryOf [("limit", "500")])).2.2.2
      (by intro n hn; have e : decimalValue (Values.Get (queryOf [("limit", "500")]) "limit")
            = some 500 := by decide
          rw [e] at hn; injection hn with hn; omega),
   (limit_is_parameter_or_default (queryOf [("limit", "-5")])).2.2.2
      (by intro n hn; have e : decimalValue (Values.Get (queryOf [("limit", "-5")]) "limit")
            = none := by decide
          rw [e] at hn; cases hn)⟩

theorem parseUint8_le (text : String) (n : Nat) (h : parseUint8 text = some n) : n ≤ 255 := by
  unfold parseUint8 at h
  cases hd : decimalValue text with
  | none => simp [hd] at h
  | some m =>
    by_cases hm : m > 255
    · simp [hd, hm] at h
    · simp [hd, hm] at h
      omega

/-- C14: buildBasePostSearchForm and getLimitOffsetFromURLQuery resolve the same
offset, and it never exceeds 255: the parameter offset=300, a decimal integer
within 0..10000, resolves to 0 and not to 300, as does offset=10000, while
offset=255 resolves to 255. -/
theorem offset_above_255_resolves_to_zero :
    (∀ params : Values,
      (getLimitOffsetFromURLQuery params).2 = (buildBasePostSearchForm params).offset ∧
      (buildBasePostSearchForm params).offset ≤ 255) ∧
    decimalValue "300" = some 300 ∧
    (buildBasePostSearchForm (queryOf [("offset", "300")])).offset = 0 ∧
    (getLimitOffsetFromURLQuery (queryOf [("offset", "300")])).2 = 0 ∧
    (buildBasePostSearchForm (queryOf [("offset", "10000")])).offset = 0 ∧
    (buildBasePostSearchForm (queryOf [("offset", "255")])).offset = 255 := by
  refine ⟨?_, by decide, by decide, by decide, by decide, by decide⟩
  intro params
  refine ⟨rfl, ?_⟩
  cases hp : parseUint8 (params.Get "offset") with
  | none => simp [buildBasePostSearchForm, hp]
  | some n =>
    have := parseUint8_le _ n hp
    have h2 : ¬ 10000 < n := by omega
    simp [buildBasePostSearchForm, hp, h2]
    exact this

/-- C15, counterexample: for the sort key bestselling buildOrderQuery emits an
ORDER BY clause without any ordering, not the relevance ordering. -/
theorem unknown_sort_key_gives_no_ordering :
    buildOrderQuery (formWithSort "bestselling") = "ORDER BY  " ∧
    buildOrderQuery (formWithSort "bestselling") ≠ buildOrderQuery (formWithSort "relevance") := by
  decide

/-- C15, amended: buildOrderQuery emits first_published_at DESC for the sort key
date, like_count DESC, first_published_at DESC for popular, score DESC,
first_published_at DESC for relevance and created_at DESC for created, and for
every other sort key it emits an ORDER BY clause with no ordering at all.  The
default is applied when the form is built: buildBasePostSearchForm keeps the
sort parameter when it is relevance, date or popular and replaces every other
value by relevance, so the form it returns is ordered as fixed by one of these
three keys. -/
theorem buildOrderQuery_by_sort_key (form : PostSearchForm) (params : Values) :
    (form.sort = "date" → buildOrderQuery form = "ORDER BY first_published_at DESC ") ∧
    (form.sort = "popular" →
      buildOrderQuery form = "ORDER BY like_count DESC, first_published_at DESC ") ∧
    (form.sort = "relevance" →
      buildOrderQuery form = "ORDER BY score DESC, first_published_at DESC ") ∧
    (form.sort = "created" → buildOrderQuery form = "ORDER BY created_at DESC ") ∧
    (form.sort ≠ "date" → form.sort ≠ "popular" → form.sort ≠ "relevance" →
      form.sort ≠ "created" → buildOrderQuery form = "ORDER BY  ") ∧
    (params.Get "sort" ∈ ["relevance", "date", "popular"] →
      (buildBasePostSearchForm params).sort = params.Get "sort") ∧
    (params.Get "sort" ∉ ["relevance", "date", "popular"] →
      (buildBasePostSearchForm params).sort = "relevance" ∧
      buildOrderQuery (buildBasePostSearchForm params)
        = "ORDER BY score DESC, first_published_at DESC ") := by
  refine ⟨?_, ?_, ?_, ?_, ?_, ?_, ?_⟩
  · intro h
    simp [buildOrderQuery, h]
  · intro h
    simp [buildOrderQuery, h]
  · intro h
    simp [buildOrderQuery, h]
  · intro h
    simp [buildOrderQuery, h]
  · intro h1 h2 h3 h4
    simp [buildOrderQuery, h1, h2, h3, h4]
  · intro h
    simp only [List.mem_cons, List.mem_singleton, List.not_mem_nil, or_false] at h
    rcases h with h | h | h <;>
      simp [buildBasePostSearchForm, availableSortOptions, isInSliceString, h]
  · intro h
    simp only [List.mem_cons, List.mem_singleton, List.not_mem_nil, or_false, not_or] at h
    obtain ⟨h1, h2, h3⟩ := h
    have hs : (buildBasePostSearchForm params).sort = "relevance" := by
      simp [buildBasePostSearchForm, availableSortOptions, isInSliceString, h1, h2, h3]
    refine ⟨hs, ?_⟩
    simp [buildOrderQuery, hs]

/-- C15 amended, at the sort parameter bestselling and at forms with the keys
popular and bestselling. -/
theorem buildOrderQuery_by_sort_key_witness :
    buildOrderQuery (formWithSort "popular")
      = "ORDER BY like_count DESC, first_published_at DESC " ∧
    buildOrderQuery (formWithSort "bestselling") = "ORDER BY  " ∧
    (buildBasePostSearchForm (queryOf [("sort", "bestselling")])).sort = "relevance" ∧
    buildOrderQuery (buildBasePostSearchForm (queryOf [("sort", "bestselling")]))
      = "ORDER BY score DESC, first_published_at DESC " :=
  ⟨(buildOrderQuery_by_sort_key (formWithSort "popular") (queryOf [])).2.1 (by decide),
   (buildOrderQuery_by_sort_key (formWithSort "bestselling")
      (queryOf [("sort", "bestselling")])).2.2.2.2.1
      (by decide) (by decide) (by decide) (by decide),
   (buildOrderQuery_by_sort_key (formWithSort "bestselling")
      (queryOf [("sort", "bestselling")])).2.2.2.2.2.2 (by decide)⟩

/-- C20: for every query-parameter set buildPublicPostSearchForm returns a form
with published true and empty keywords, date bounds and date column (the
parameters published, keywords, date_range and date_range_by are not read), its
WHERE clause is WHERE deleted=false AND published=true, and after applyFilters
the conjunct published=true is still the second one. -/
theorem public_form_is_published_only (params : Values) :
    (buildPublicPostSearchForm params).published = "true" ∧
    (buildPublicPostSearchForm params).keywords = "" ∧
    (buildPublicPostSearchForm params).startDate = "" ∧
    (buildPublicPostSearchForm params).finishDate = "" ∧
    (buildPublicPostSearchForm params).dateRangeBy = "" ∧
    buildWhereQuery (buildPublicPostSearchForm params)
      = "WHERE deleted=false AND published=true " ∧
    (∀ filters : List PostFilterEntity, ∃ conjunct : String,
      whereConditions (applyFilters (buildPublicPostSearchForm params) filters)
        = ["deleted=false", "published=true", conjunct]) := by
  refine ⟨rfl, rfl, rfl, rfl, rfl, ?_, ?_⟩
  · simp [buildWhereQuery, whereConditions, buildPublicPostSearchForm, buildBasePostSearchForm,
      stringsJoin]
  · intro filters
    simp [whereConditions, applyFilters, buildPublicPostSearchForm, buildBasePostSearchForm]

theorem splitColon_ne_nil (l : List Char) : splitColon l ≠ [] := by
  cases l with
  | nil => simp [splitColon]
  | cons c cs =>
    unfold splitColon
    by_cases hc : c = ':'
    · simp [hc]
    · cases h : splitColon cs <;> simp [hc]

theorem splitColon_append (a b : List Char) (h : ':' ∉ a) :
    splitColon (a ++ ':' :: b) = a :: splitColon b := by
  induction a with
  | nil => simp [splitColon]
  | cons c cs ih =>
    have hc : ¬ c = ':' := fun e => h (by simp [e])
    have hcs : ':' ∉ cs := fun e => h (by simp [e])
    rw [List.cons_append, splitColon, ih hcs]
    simp [hc]

theorem splitColon_no_colon (b : List Char) (h : ':' ∉ b) : splitColon b = [b] := by
  induction b with
  | nil => simp [splitColon]
  | cons c cs ih =>
    have hc : ¬ c = ':' := fun e => h (by simp [e])
    have hcs : ':' ∉ cs := fun e => h (by simp [e])
    rw [splitColon, ih hcs]
    simp [hc]

theorem splitColon_of_mem (l : List Char) (h : ':' ∈ l) :
    ∃ first second rest, splitColon l = first :: second :: rest := by
  induction l with
  | nil => simp at h
  | cons c cs ih =>
    by_cases hc : c = ':'
    · cases hs : splitColon cs with
      | nil => exact absurd hs (splitColon_ne_nil cs)
      | cons second rest => exact ⟨[], second, rest, by simp [splitColon, hc, hs]⟩
    · have hcs : ':' ∈ cs := by
        rcases List.mem_cons.mp h with e | e
        · exact absurd e.symm hc
        · exact e
      obtain ⟨first, second, rest, e⟩ := ih hcs
      exact ⟨c :: first, second, rest, by simp [splitColon, hc, e]⟩

/-- The form that buildExclusivePostSearchForm returns when the date range
splits into at least two parts. -/
theorem buildExclusive_of_split (params : Values) (first second : List Char)
    (rest : List (List Char))
    (h : splitColon (if params.Get "date_range" != "" then params.Get "date_range"
      else ":").toList = first :: second :: rest) :
    buildExclusivePostSearchForm params =
      some { buildBasePostSearchForm params with
             sort := "created",
             published :=
               if !isInSliceString (params.Get "published") availablePublishedValues then ""
               else params.Get "published",
             keywords := keepNameChars (params.Get "keywords"),
             startDate := dateBound first 0, finishDate := dateBound second 86399,
             dateRangeBy := dateRangeColumn (params.Get "date_range_by") } := by
  unfold buildExclusivePostSearchForm
  simp only []
  rw [h]

theorem buildExclusive_returns (params : Values)
    (h : params.Get "date_range" = "" ∨ ':' ∈ (params.Get "date_range").toList) :
    ∃ first second rest,
      splitColon (if params.Get "date_range" != "" then params.Get "date_range"
        else ":").toList = first :: second :: rest := by
  rcases h with h | h
  · exact ⟨[], [], [], by simp [h]; decide⟩
  · by_cases he : params.Get "date_range" = ""
    · exact ⟨[], [], [], by simp [he]; decide⟩
    · have : (if params.Get "date_range" != "" then params.Get "date_range" else ":")
          = params.Get "date_range" := by simp [he]
      rw [this]
      exact splitColon_of_mem _ h

theorem whereConditions_without_column (form : PostSearchForm) (h : form.dateRangeBy = "")
    (start finish : String) :
    whereConditions { form with startDate := start, finishDate := finish }
      = whereConditions form := by
  simp [whereConditions, h]

/-- Where a form is returned: for every query-parameter set whose date_range
is empty or holds a colon, buildExclusivePostSearchForm returns a form whose
date column is
first_published_at for date_range_by published_at, updated_at for modified_at,
created_at for created_at and empty for every other value (a missing one
included); and for every form with the empty date column the conjuncts of
buildWhereQuery, and so its text, are those of the form without date bounds,
whatever the two bounds are. -/
theorem date_column_of_date_range_by (params : Values)
    (h : params.Get "date_range" = "" ∨ ':' ∈ (params.Get "date_range").toList) :
    (∃ form : PostSearchForm, buildExclusivePostSearchForm params = some form ∧
      (params.Get "date_range_by" = "published_at" → form.dateRangeBy = "first_published_at") ∧
      (params.Get "date_range_by" = "modified_at" → form.dateRangeBy = "updated_at") ∧
      (params.Get "date_range_by" = "created_at" → form.dateRangeBy = "created_at") ∧
      (params.Get "date_range_by" ≠ "published_at" → params.Get "date_range_by" ≠ "modified_at" →
        params.Get "date_range_by" ≠ "created_at" → form.dateRangeBy = "")) ∧
    (∀ form : PostSearchForm, form.dateRangeBy = "" → ∀ start finish : String,
      whereConditions { form with startDate := start, finishDate := finish }
        = whereConditions { form with startDate := "", finishDate := "" } ∧
      buildWhereQuery { form with startDate := start, finishDate := finish }
        = buildWhereQuery { form with startDate := "", finishDate := "" }) := by
  constructor
  · obtain ⟨first, second, rest, hs⟩ := buildExclusive_returns params h
    refine ⟨_, buildExclusive_of_split params first second rest hs, ?_, ?_, ?_, ?_⟩
    · intro e
      simp [dateRangeColumn, e]
    · intro e
      simp [dateRangeColumn, e]
    · intro e
      simp [dateRangeColumn, e]
    · intro e1 e2 e3
      simp [dateRangeColumn, e1, e2, e3]
  · intro form hf start finish
    have e : whereConditions { form with startDate := start, finishDate := finish }
        = whereConditions { form with startDate := "", finishDate := "" } := by
      rw [whereConditions_without_column form hf start finish,
        whereConditions_without_column form hf "" ""]
    refine ⟨e, ?_⟩
    unfold buildWhereQuery
    rw [e]

/-- The date column at the parameters of the tests: date_range_by modified_at
without a date range, and a date range with the unknown column name updated. -/
theorem date_column_of_date_range_by_witness :
    (∃ form : PostSearchForm,
      buildExclusivePostSearchForm (queryOf [("date_range_by", "modified_at")]) = some form ∧
      form.dateRangeBy = "updated_at") ∧
    buildWhereQuery { formWithSort "created" with
                      startDate := "2018-11-30 17:00:00", finishDate := "2018-12-03 16:59:59" }
      = "WHERE deleted=false " :=
  ⟨(date_column_of_date_range_by (queryOf [("date_range_by", "modified_at")])
      (Or.inl (by decide))).1.imp (fun _ hf => ⟨hf.1, hf.2.2.1 (by decide)⟩),
   ((date_column_of_date_range_by (queryOf [("date_range_by", "modified_at")])
      (Or.inl (by decide))).2 (formWithSort "created") rfl "2018-11-30 17:00:00"
        "2018-12-03 16:59:59").2.trans (by decide)⟩

theorem applyFilters_postIDs (filters : List PostFilterEntity) (ids : List Int) :
    filters.foldl (fun ids f =>
      match ids with
      | none => some [f.PostID]
      | some l => some (l ++ [f.PostID])) (some ids)
      = some (ids ++ filters.map (fun f => f.PostID)) := by
  induction filters generalizing ids with
  | nil => simp
  | cons f fs ih => simp [ih]

/-- C18, counterexample: for a filtered form whose post id list is present and
empty, buildWhereQuery renders the list as the empty text, not as NULL. -/
theorem empty_id_list_is_not_rendered_as_null :
    buildWhereQuery (formWithPostIDs (some []))
      = "WHERE deleted=false AND published=true AND id IN () " ∧
    buildWhereQuery (formWithPostIDs none)
      = "WHERE deleted=false AND published=true AND id IN (NULL) " := by
  decide

/-- C18, amended: for every form with filtered = true the last conjunct of
buildWhereQuery is id IN (L), the other conjuncts being those of the unfiltered
form, where L is NULL when the post id list is absent and the ids joined by
commas in list order when it is present (the empty text for a present, empty
list).  For a form whose id list is absent, as every form builder leaves it,
applyFilters sets filtered and makes the list the post ids of the filter rows
in their order, leaving it absent when there is no filter row; so after
applyFilters L is NULL for no filter rows and the joined ids otherwise. -/
theorem filtered_form_lists_post_ids (form : PostSearchForm) (filters : List PostFilterEntity) :
    (form.filtered = true →
      whereConditions form = whereConditions { form with filtered := false } ++
        ["id IN (" ++ (match form.postIDs with
                       | none => "NULL"
                       | some ids => joinSliceInt64 ids) ++ ")"]) ∧
    (form.postIDs = none →
      (applyFilters form filters).filtered = true ∧
      (applyFilters form filters).postIDs
        = (if filters = [] then none else some (filters.map (fun f => f.PostID))) ∧
      whereConditions (applyFilters form filters)
        = whereConditions { form with filtered := false } ++
          ["id IN (" ++ (if filters = [] then "NULL"
                         else joinSliceInt64 (filters.map (fun f => f.PostID))) ++ ")"]) := by
  constructor
  · intro h
    simp [whereConditions, h]
  · intro h
    have hp : (applyFilters form filters).postIDs
        = (if filters = [] then none else some (filters.map (fun f => f.PostID))) := by
      unfold applyFilters
      cases filters with
      | nil => simp [h]
      | cons f fs => simp [h, applyFilters_postIDs]
    refine ⟨rfl, hp, ?_⟩
    have hw : whereConditions (applyFilters form filters)
        = whereConditions { form with filtered := false } ++
          ["id IN (" ++ (match (applyFilters form filters).postIDs with
                         | none => "NULL"
                         | some ids => joinSliceInt64 ids) ++ ")"] := by
      simp [whereConditions, applyFilters]
    rw [hw, hp]
    cases filters with
    | nil =>
      simp
      decide
    | cons f fs => simp

/-- C18 amended, at the public form with no filter row and with the filter rows
of posts 3 and 1. -/
theorem filtered_form_lists_post_ids_witness :
    whereConditions (applyFilters (buildPublicPostSearchForm (queryOf [])) [])
      = ["deleted=false", "published=true", "id IN (NULL)"] ∧
    whereConditions (applyFilters (buildPublicPostSearchForm (queryOf []))
        [{ PostID := 3, BukalapakCategoryID := 32 }, { PostID := 1, BukalapakCategoryID := 32 }])
      = ["deleted=false", "published=true", "id IN (3,1)"] :=
  ⟨((filtered_form_lists_post_ids (buildPublicPostSearchForm (queryOf [])) []).2 rfl).2.2.trans
      (by decide),
   ((filtered_form_lists_post_ids (buildPublicPostSearchForm (queryOf []))
      [{ PostID := 3, BukalapakCategoryID := 32 },
       { PostID := 1, BukalapakCategoryID := 32 }]).2 rfl).2.2.trans (by decide)⟩

/-! ## Date bounds of the exclusive search form (C16) -/

theorem toDigitsCore_small (fuel n : Nat) (ds : List Char) (h : n < 10) :
    Nat.toDigitsCore 10 (fuel + 1) n ds = Nat.digitChar n :: ds := by
  simp [Nat.toDigitsCore, Nat.mod_eq_of_lt h, Nat.div_eq_of_lt h]

theorem toDigitsCore_step (fuel n : Nat) (ds : List Char) (h : 10 ≤ n) :
    Nat.toDigitsCore 10 (fuel + 1) n ds
      = Nat.toDigitsCore 10 fuel (n / 10) (Nat.digitChar (n % 10) :: ds) := by
  have h0 : ¬ n / 10 = 0 := by omega
  simp [Nat.toDigitsCore, h0]

theorem toString_data (n : Nat) (h : n < 10000) :
    (toString n).data =
      if n < 10 then [Nat.digitChar n]
      else if n < 100 then [Nat.digitChar (n / 10), Nat.digitChar (n % 10)]
      else if n < 1000 then
        [Nat.digitChar (n / 100), Nat.digitChar (n / 10 % 10), Nat.digitChar (n % 10)]
      else [Nat.digitChar (n / 1000), Nat.digitChar (n / 100 % 10), Nat.digitChar (n / 10 % 10),
            Nat.digitChar (n % 10)] := by
  show (Nat.toDigits 10 n).asString.data = _
  unfold Nat.toDigits
  simp only [List.asString]
  by_cases h1 : n < 10
  · rw [if_pos h1, toDigitsCore_small n n [] h1]
  · rw [if_neg h1]
    by_cases h2 : n < 100
    · rw [if_pos h2]
      have e : n + 1 = (n - 1) + 1 + 1 := by omega
      rw [e, toDigitsCore_step _ n [] (by omega), toDigitsCore_small _ (n / 10) _ (by omega)]
    · rw [if_neg h2]
      by_cases h3 : n < 1000
      · rw [if_pos h3]
        have e : n + 1 = (n - 2) + 1 + 1 + 1 := by omega
        rw [e, toDigitsCore_step _ n [] (by omega), toDigitsCore_step _ (n / 10) _ (by omega),
          toDigitsCore_small _ (n / 10 / 10) _ (by omega)]
        have e2 : n / 10 / 10 = n / 100 := by omega
        rw [e2]
      · rw [if_neg h3]
        have e : n + 1 = (n - 3) + 1 + 1 + 1 + 1 := by omega
        rw [e, toDigitsCore_step _ n [] (by omega), toDigitsCore_step _ (n / 10) _ (by omega),
          toDigitsCore_step _ (n / 10 / 10) _ (by omega),
          toDigitsCore_small _ (n / 10 / 10 / 10) _ (by omega)]
        have e2 : n / 10 / 10 = n / 100 := by omega
        have e3 : n / 100 / 10 = n / 1000 := by omega
        rw [e2, e3]

theorem pad4_data (n : Nat) (h : n < 10000) :
    (pad4 n).data = [Nat.digitChar (n / 1000), Nat.digitChar (n / 100 % 10),
      Nat.digitChar (n / 10 % 10), Nat.digitChar (n % 10)] := by
  unfold pad4
  by_cases h1 : n < 10
  · have a : n / 1000 = 0 := by omega
    have b : n / 100 % 10 = 0 := by omega
    have c : n / 10 % 10 = 0 := by omega
    have d : n % 10 = n := by omega
    rw [if_pos h1, String.data_append, toString_data n h, if_pos h1, a, b, c, d]
    rfl
  · rw [if_neg h1]
    by_cases h2 : n < 100
    · have a : n / 1000 = 0 := by omega
      have b : n / 100 % 10 = 0 := by omega
      have c : n / 10 % 10 = n / 10 := by omega
      rw [if_pos h2, String.data_append, toString_data n h, if_neg h1, if_pos h2, a, b, c]
      rfl
    · rw [if_neg h2]
      by_cases h3 : n < 1000
      · have a : n / 1000 = 0 := by omega
        have b : n / 100 % 10 = n / 100 := by omega
        rw [if_pos h3, String.data_append, toString_data n h, if_neg h1, if_neg h2, if_pos h3,
          a, b]
        rfl
      · rw [if_neg h3, toString_data n h, if_neg h1, if_neg h2, if_neg h3]

theorem pad2_data (n : Nat) (h : n < 100) :
    (pad2 n).data = [Nat.digitChar (n / 10), Nat.digitChar (n % 10)] := by
  unfold pad2
  by_cases h1 : n < 10
  · have a : n / 10 = 0 := by omega
    have d : n % 10 = n := by omega
    rw [if_pos h1, String.data_append, toString_data n (by omega), if_pos h1, a, d]
    rfl
  · have h2 : n < 100 := h
    rw [if_neg h1, toString_data n (by omega), if_neg h1, if_pos h2]

theorem digitChar_isDigit (k : Nat) (h : k < 10) :
    (Nat.digitChar k).isDigit = true ∧ (Nat.digitChar k).toNat - 48 = k ∧
    Nat.digitChar k ≠ ':' := by
  interval_cases k <;> decide

theorem dateText_data (y m d : Nat) (hy : y < 10000) (hm : m < 100) (hd : d < 100) :
    (dateText y m d).data =
      [Nat.digitChar (y / 1000), Nat.digitChar (y / 100 % 10), Nat.digitChar (y / 10 % 10),
       Nat.digitChar (y % 10), '-', Nat.digitChar (m / 10), Nat.digitChar (m % 10), '-',
       Nat.digitChar (d / 10), Nat.digitChar (d % 10)] := by
  unfold dateText
  simp only [String.data_append, pad4_data y hy, pad2_data m hm, pad2_data d hd]
  rfl

theorem daysIn_le (y m : Nat) : daysIn y m ≤ 31 := by
  unfold daysIn
  repeat' split
  all_goals omega

theorem parseDay_dateText (y m d : Nat) (hy : y < 10000) (hm1 : 1 ≤ m) (hm2 : m ≤ 12)
    (hd1 : 1 ≤ d) (hd2 : d ≤ daysIn y m) :
    parseDay (dateText y m d).data = some (y, m, d) := by
  have hd3 := daysIn_le y m
  rw [dateText_data y m d hy (by omega) (by omega)]
  obtain ⟨a1, a2, _⟩ := digitChar_isDigit (y / 1000) (by omega)
  obtain ⟨b1, b2, _⟩ := digitChar_isDigit (y / 100 % 10) (by omega)
  obtain ⟨c1, c2, _⟩ := digitChar_isDigit (y / 10 % 10) (by omega)
  obtain ⟨e1, e2, _⟩ := digitChar_isDigit (y % 10) (by omega)
  obtain ⟨f1, f2, _⟩ := digitChar_isDigit (m / 10) (by omega)
  obtain ⟨g1, g2, _⟩ := digitChar_isDigit (m % 10) (by omega)
  obtain ⟨i1, i2, _⟩ := digitChar_isDigit (d / 10) (by omega)
  obtain ⟨j1, j2, _⟩ := digitChar_isDigit (d % 10) (by omega)
  have hyear : y / 1000 * 1000 + y / 100 % 10 * 100 + y / 10 % 10 * 10 + y % 10 = y := by omega
  have hmonth : m / 10 * 10 + m % 10 = m := by omega
  have hday : d / 10 * 10 + d % 10 = d := by omega
  unfold parseDay
  simp only [a1, a2, b1, b2, c1, c2, e1, e2, f1, f2, g1, g2, i1, i2, j1, j2, hyear, hmonth, hday]
  have k1 : ¬ m < 1 := by omega
  have k2 : ¬ m > 12 := by omega
  have k3 : ¬ d < 1 := by omega
  have k4 : ¬ d > daysIn y m := by omega
  simp [k1, k2, k3, k4]

theorem clock_start_text :
    " " ++ (pad2 (61200 / 3600) ++ (":" ++ (pad2 (61200 % 3600 / 60) ++ (":" ++ pad2 (61200 % 60)))))
      = " 17:00:00" := by
  decide

theorem utcFromPlus7_start (y m d : Nat) :
    utcFromPlus7 y m d 0 = (previousDay y m d, 61200) := by
  simp [utcFromPlus7]

theorem formatDatabase_start (y : Int) (m d : Nat) :
    formatDatabase ((y, m, d), 61200)
      = formatYear y ++ "-" ++ pad2 m ++ "-" ++ pad2 d ++ " 17:00:00" := by
  unfold formatDatabase
  simp only [String.append_assoc]
  rw [clock_start_text]

theorem clock_finish_text :
    " " ++ (pad2 (61199 / 3600) ++ (":" ++ (pad2 (61199 % 3600 / 60) ++ (":" ++ pad2 (61199 % 60)))))
      = " 16:59:59" := by
  decide

theorem utcFromPlus7_finish (y m d : Nat) :
    utcFromPlus7 y m d 86399 = ((Int.ofNat y, m, d), 61199) := by
  simp [utcFromPlus7]

theorem formatDatabase_finish (y : Int) (m d : Nat) :
    formatDatabase ((y, m, d), 61199)
      = formatYear y ++ "-" ++ pad2 m ++ "-" ++ pad2 d ++ " 16:59:59" := by
  unfold formatDatabase
  simp only [String.append_assoc]
  rw [clock_finish_text]

theorem formatYear_ofNat (y : Nat) : formatYear (Int.ofNat y) = pad4 y := by
  unfold formatYear
  have h : ¬ Int.ofNat y < 0 := not_lt.mpr (Int.ofNat_nonneg y)
  rw [if_neg h]
  rfl

theorem formatYear_before_zero : formatYear (Int.ofNat 0 - 1) = "-0001" := by
  decide

theorem dateText_nonempty (y m d : Nat) (hy : y < 10000) (hm : m < 100) (hd : d < 100) :
    (dateText y m d).data.isEmpty = false := by
  rw [dateText_data y m d hy hm hd]
  rfl

theorem dateBound_start (y m d : Nat) (hy : y < 10000) (hm1 : 1 ≤ m) (hm2 : m ≤ 12)
    (hd1 : 1 ≤ d) (hd2 : d ≤ daysIn y m) :
    dateBound (dateText y m d).data 0 =
      (if 1 < d then dateText y m (d - 1)
       else if 1 < m then dateText y (m - 1) (daysIn y (m - 1))
       else if 1 ≤ y then dateText (y - 1) 12 31
       else "-0001-12-31") ++ " 17:00:00" := by
  have hd3 := daysIn_le y m
  unfold dateBound
  rw [dateText_nonempty y m d hy (by omega) (by omega),
    parseDay_dateText y m d hy hm1 hm2 hd1 hd2]
  simp only [Bool.false_eq_true, if_false]
  rw [utcFromPlus7_start]
  unfold previousDay
  by_cases h1 : 1 < d
  · rw [if_pos h1, if_pos h1, formatDatabase_start, formatYear_ofNat]
    rfl
  · rw [if_neg h1, if_neg h1]
    by_cases h2 : 1 < m
    · rw [if_pos h2, if_pos h2, formatDatabase_start, formatYear_ofNat]
      rfl
    · rw [if_neg h2, if_neg h2, formatDatabase_start]
      by_cases h3 : 1 ≤ y
      · rw [if_pos h3]
        have e : Int.ofNat y - 1 = Int.ofNat (y - 1) := by
          simp only [Int.ofNat_eq_coe]
          omega
        rw [e, formatYear_ofNat]
        rfl
      · rw [if_neg h3]
        have e : y = 0 := by omega
        rw [e, formatYear_before_zero]
        rfl

theorem dateBound_finish (y m d : Nat) (hy : y < 10000) (hm1 : 1 ≤ m) (hm2 : m ≤ 12)
    (hd1 : 1 ≤ d) (hd2 : d ≤ daysIn y m) :
    dateBound (dateText y m d).data 86399 = dateText y m d ++ " 16:59:59" := by
  have hd3 := daysIn_le y m
  unfold dateBound
  rw [dateText_nonempty y m d hy (by omega) (by omega),
    parseDay_dateText y m d hy hm1 hm2 hd1 hd2]
  simp only [Bool.false_eq_true, if_false]
  rw [utcFromPlus7_finish, formatDatabase_finish, formatYear_ofNat]
  rfl

theorem dateBound_malformed (part : List Char) (secondOfDay : Nat)
    (h : part = [] ∨ parseDay part = none) : dateBound part secondOfDay = "" := by
  unfold dateBound
  rcases h with h | h
  · rw [h]
    rfl
  · rw [h]
    simp

/-- Where a form is returned: when date_range is start:finish (one colon
between two texts without a colon), buildExclusivePostSearchForm returns a
form in which, for every
valid calendar date D = YYYY-MM-DD given as start, startDate is the text of the
day before D followed by 17:00:00 (the day before being the last day of the
previous month on the first of a month, 31 December of the previous year on
1 January, and year -0001 before year 0000), whatever finish is; for every
valid date D given as finish, finishDate is D followed by 16:59:59, whatever
start is; and a bound that is empty or not a calendar date gives the empty
text for that bound. -/
theorem date_bounds_of_date_range (params : Values) (start finish : String)
    (hr : params.Get "date_range" = start ++ ":" ++ finish)
    (hs : ':' ∉ start.data) (hf : ':' ∉ finish.data) :
    ∃ form : PostSearchForm, buildExclusivePostSearchForm params = some form ∧
      (∀ y m d : Nat, y < 10000 → 1 ≤ m → m ≤ 12 → 1 ≤ d → d ≤ daysIn y m →
        start = dateText y m d →
        form.startDate =
          (if 1 < d then dateText y m (d - 1)
           else if 1 < m then dateText y (m - 1) (daysIn y (m - 1))
           else if 1 ≤ y then dateText (y - 1) 12 31
           else "-0001-12-31") ++ " 17:00:00") ∧
      (∀ y m d : Nat, y < 10000 → 1 ≤ m → m ≤ 12 → 1 ≤ d → d ≤ daysIn y m →
        finish = dateText y m d → form.finishDate = dateText y m d ++ " 16:59:59") ∧
      (start = "" ∨ parseDay start.data = none → form.startDate = "") ∧
      (finish = "" ∨ parseDay finish.data = none → form.finishDate = "") := by
  have hne : ¬ start ++ ":" ++ finish = "" := by
    intro e
    have := congrArg String.data e
    simp [String.data_append] at this
  have hsplit : splitColon (if params.Get "date_range" != "" then params.Get "date_range"
      else ":").toList = start.data :: finish.data :: [] := by
    have e : (if params.Get "date_range" != "" then params.Get "date_range" else ":")
        = start ++ ":" ++ finish := by
      rw [hr]
      simp [hne]
    rw [e]
    show splitColon (start ++ ":" ++ finish).data = _
    have e2 : (start ++ ":" ++ finish).data = start.data ++ ':' :: finish.data := by
      simp [String.data_append]
    rw [e2, splitColon_append _ _ hs, splitColon_no_colon _ hf]
  refine ⟨_, buildExclusive_of_split params _ _ _ hsplit, ?_, ?_, ?_, ?_⟩
  · intro y m d hy hm1 hm2 hd1 hd2 e
    show dateBound start.data 0 = _
    rw [e]
    exact dateBound_start y m d hy hm1 hm2 hd1 hd2
  · intro y m d hy hm1 hm2 hd1 hd2 e
    show dateBound finish.data 86399 = _
    rw [e]
    exact dateBound_finish y m d hy hm1 hm2 hd1 hd2
  · intro h
    show dateBound start.data 0 = _
    refine dateBound_malformed _ _ (h.imp (fun e => ?_) id)
    rw [e]
  · intro h
    show dateBound finish.data 86399 = _
    refine dateBound_malformed _ _ (h.imp (fun e => ?_) id)
    rw [e]

/-- The date bounds at the date ranges of the tests: 2018-12-01:2018-12-03, and
2018-12-01Z:2018-12-03 with its malformed start. -/
theorem date_bounds_of_date_range_witness :
    (∃ form : PostSearchForm,
      buildExclusivePostSearchForm (queryOf [("date_range", "2018-12-01:2018-12-03")])
        = some form ∧
      form.startDate = "2018-11-30 17:00:00" ∧ form.finishDate = "2018-12-03 16:59:59") ∧
    (∃ form : PostSearchForm,
      buildExclusivePostSearchForm (queryOf [("date_range", "2018-12-01Z:2018-12-03")])
        = some form ∧
      form.startDate = "" ∧ form.finishDate = "2018-12-03 16:59:59") :=
  ⟨(date_bounds_of_date_range (queryOf [("date_range", "2018-12-01:2018-12-03")])
      "2018-12-01" "2018-12-03" (by decide) (by decide) (by decide)).imp
      (fun _ h =>
        ⟨h.1,
         (h.2.1 2018 12 1 (by decide) (by decide) (by decide) (by decide) (by decide)
            (by decide)).trans (by decide),
         (h.2.2.1 2018 12 3 (by decide) (by decide) (by decide) (by decide) (by decide)
            (by decide)).trans (by decide)⟩),
   (date_bounds_of_date_range (queryOf [("date_range", "2018-12-01Z:2018-12-03")])
      "2018-12-01Z" "2018-12-03" (by decide) (by decide) (by decide)).imp
      (fun _ h =>
        ⟨h.1, h.2.2.2.1 (Or.inr (by decide)),
         (h.2.2.1 2018 12 3 (by decide) (by decide) (by decide) (by decide) (by decide)
            (by decide)).trans (by decide)⟩)⟩

/-! ## The soft-delete invariant (C11) -/

theorem publishStatements_nextPostID (now : Time) (s : Store) (postID : Int) (post : PostEntity)
    (published : Bool) :
    (publishStatements now s postID post published).nextPostID = s.nextPostID := by
  unfold publishStatements
  rw [publishLedger_eq]

theorem deleteStatements_nextPostID (now : Time) (s : Store) (postID : Int)
    (post : PostEntity) : (deleteStatements now s postID post).nextPostID = s.nextPostID := by
  rw [deleteStatements_eq]

theorem likeStatements_nextPostID (s : Store) (postID : Int) (userID : Nat)
    (like : PostLikeEntity) : (likeStatements s postID userID like).nextPostID = s.nextPostID := by
  unfold likeStatements writeLike
  split <;> rfl

theorem step_flagsChange {s t : Store} (h : Step s t) : FlagsChange s t := by
  cases h with
  | create parseTagURL _ now userID body =>
    rcases Create_cases parseTagURL s now userID body with h | ⟨pr, committed, _, hv, hc, hs⟩
    · exact FlagsChange.same (by rw [h]) (by rw [h])
    · have spec := insertImages_spec pr.Images (isValid_url hv) hc
      have hrow := createPostRow_fields now (findOrCreateInfluencer now s pr.InfluencerName).1
        (findOrCreateInfluencer now s pr.InfluencerName).2 pr
      refine FlagsChange.insert
        (createPostRow now (findOrCreateInfluencer now s pr.InfluencerName).1
          (findOrCreateInfluencer now s pr.InfluencerName).2 pr) ?_ ?_ hrow.2.2.1 ?_
      · rw [hs, addPostLogHistory_posts, spec.posts, createStatements_posts]
      · rw [hrow.1, findOrCreateInfluencer_nextPostID]
      · rw [hs, (addPostLogHistory_fields _ _ _ _ _).2.2.2.1, spec.nextPostID,
          (createStatements_fields now s pr).1]
  | update parseTagURL _ now userID id body =>
    rcases Update_cases parseTagURL s now userID id body with
      h | ⟨postID, pr, post, committed, _, _, hv, hf, hd, hc, hs⟩
    · exact FlagsChange.same (by rw [h]) (by rw [h])
    · have spec := insertImages_spec pr.Images (isValid_url hv) hc
      obtain ⟨row, hrow, _, _, _, hdel, _⟩ := findPost_row hf
      refine FlagsChange.update postID row
        (updateRow post pr (findOrCreateInfluencer now s pr.InfluencerName).2 now) hrow ?_
        (updateRow_ID post pr _ now) ?_ ?_
      · rw [hs, addPostLogHistory_posts, spec.posts, updateStatements_posts]
      · rw [hs, (addPostLogHistory_fields _ _ _ _ _).2.2.2.1, spec.nextPostID,
          (updateStatements_fields now s postID post pr).1]
      · intro p
        exact Or.inl ⟨(updateRow_flags post pr _ now p).2, Or.inl (hdel.trans hd)⟩
  | publish _ now userID id body =>
    rcases Publish_cases s now userID id body with
      h | ⟨postID, post, published, _, _, hf, hd, hs⟩
    · exact FlagsChange.same (by rw [h]) (by rw [h])
    · obtain ⟨row, hrow, _, _, _, hdel, _⟩ := findPost_row hf
      refine FlagsChange.update postID row (publishRow post published now) hrow ?_
        (publishRow_ID post published now) ?_ ?_
      · rw [hs, addPostLogHistory_posts, publishStatements_posts]
      · rw [hs, (addPostLogHistory_fields _ _ _ _ _).2.2.2.1, publishStatements_nextPostID]
      · intro p
        exact Or.inl ⟨(publishRow_flags post published now p).2, Or.inl (hdel.trans hd)⟩
  | delete _ now userID id =>
    rcases Delete_cases s now userID id with h | ⟨postID, post, _, hf, hd, hs⟩
    · exact FlagsChange.same (by rw [h]) (by rw [h])
    · obtain ⟨row, hrow, _⟩ := findPost_row hf
      refine FlagsChange.update postID row (deleteRow now) hrow ?_ (fun _ => rfl) ?_ ?_
      · rw [hs, addPostLogHistory_posts, deleteStatements_posts]
      · rw [hs, (addPostLogHistory_fields _ _ _ _ _).2.2.2.1, deleteStatements_nextPostID]
      · intro p
        exact Or.inr ⟨rfl, rfl⟩
  | like _ userID id =>
    rcases Like_cases s userID id with h | ⟨postID, row, _, hrow, hs⟩
    · exact FlagsChange.same (by rw [h]) (by rw [h])
    · refine FlagsChange.update postID row
        (fun p => { p with LikeCount := p.LikeCount + likeFactor (findLike s postID userID) })
        hrow ?_ (fun _ => rfl) ?_ ?_
      · rw [hs, likeStatements_posts]
      · rw [hs, likeStatements_nextPostID]
      · intro p
        exact Or.inl ⟨rfl, Or.inr rfl⟩

theorem flagsChange_preserves {s t : Store} (h : FlagsChange s t) (hk : PostKeys s)
    (hinv : DeletedUnpublished s) :
    DeletedUnpublished t ∧ PostKeys t ∧
    (∀ p ∈ s.posts, p.Deleted = true →
      (∃ q ∈ t.posts, q.ID = p.ID) ∧
      ∀ q ∈ t.posts, q.ID = p.ID → q.Deleted = true ∧ q.Published = false) := by
  cases h with
  | same hp hn =>
    refine ⟨fun p hpt => hinv p (hp ▸ hpt), ⟨hp ▸ hk.nodup, ?_⟩, ?_⟩
    · intro p hpt
      rw [hn]
      exact hk.issued p (hp ▸ hpt)
    · intro p hps hd
      refine ⟨⟨p, hp ▸ hps, rfl⟩, ?_⟩
      intro q hq hid
      rw [hp] at hq
      have e : q = p := List.inj_on_of_nodup_map hk.nodup hq hps hid
      rw [e]
      exact ⟨hd, hinv p hps hd⟩
  | insert row hp hid hdel hn =>
    refine ⟨?_, ⟨?_, ?_⟩, ?_⟩
    · intro p hpt hd
      rw [hp] at hpt
      rcases List.mem_append.1 hpt with h1 | h1
      · exact hinv p h1 hd
      · rw [List.mem_singleton.1 h1, hdel] at hd
        cases hd
    · rw [hp, List.map_append, List.nodup_append]
      refine ⟨hk.nodup, by simp, ?_⟩
      intro a ha hb
      obtain ⟨p, hps, rfl⟩ := List.mem_map.1 ha
      have := hk.issued p hps
      simp only [List.map_cons, List.map_nil, List.mem_singleton] at hb
      rw [hb, hid] at this
      omega
    · intro p hpt
      rw [hp] at hpt
      rw [hn]
      rcases List.mem_append.1 hpt with h1 | h1
      · have := hk.issued p h1
        omega
      · rw [List.mem_singleton.1 h1, hid]
        omega
    · intro p hps hd
      refine ⟨⟨p, by rw [hp]; exact List.mem_append_left _ hps, rfl⟩, ?_⟩
      intro q hq hqid
      rw [hp] at hq
      rcases List.mem_append.1 hq with h1 | h1
      · have e : q = p := List.inj_on_of_nodup_map hk.nodup h1 hps hqid
        rw [e]
        exact ⟨hd, hinv p hps hd⟩
      · have := hk.issued p hps
        rw [List.mem_singleton.1 h1, hid] at hqid
        omega
  | update postID row f hrow hp hf hn hflags =>
    have hrowmem := (postRow_mem hrow).1
    have hrowid := (postRow_mem hrow).2
    have hmapid : t.posts.map (fun p => p.ID) = s.posts.map (fun p => p.ID) := by
      rw [hp, List.map_map]
      apply List.map_congr_left
      intro p _
      simp only [Function.comp]
      split
      · exact hf p
      · rfl
    have hrowflags : ∀ p ∈ s.posts, p.ID = postID → (f p).Deleted = true →
        (f p).Published = false := by
      intro p hps hid hd
      have e : p = row := List.inj_on_of_nodup_map hk.nodup hps hrowmem (hid.trans hrowid.symm)
      rcases hflags p with ⟨h1, h2⟩ | ⟨_, h2⟩
      · rw [h1] at hd
        rcases h2 with h2 | h2
        · rw [e] at hd
          rw [h2] at hd
          cases hd
        · rw [h2]
          exact hinv p hps hd
      · exact h2
    refine ⟨?_, ⟨hmapid ▸ hk.nodup, ?_⟩, ?_⟩
    · intro q hq hd
      rw [hp] at hq
      obtain ⟨p, hps, rfl⟩ := List.mem_map.1 hq
      by_cases hid : (p.ID == postID) = true
      · simp only [hid, if_true] at hd ⊢
        exact hrowflags p hps (by simpa using hid) hd
      · simp only [hid, if_false, Bool.false_eq_true] at hd ⊢
        exact hinv p hps hd
    · intro q hq
      have : q.ID ∈ t.posts.map (fun p => p.ID) := List.mem_map.2 ⟨q, hq, rfl⟩
      rw [hmapid] at this
      obtain ⟨p, hps, hpid⟩ := List.mem_map.1 this
      rw [hn, ← hpid]
      exact hk.issued p hps
    · intro p hps hd
      constructor
      · have : p.ID ∈ s.posts.map (fun p => p.ID) := List.mem_map.2 ⟨p, hps, rfl⟩
        rw [← hmapid] at this
        obtain ⟨q, hq, hqid⟩ := List.mem_map.1 this
        exact ⟨q, hq, hqid⟩
      · intro q hq hqid
        rw [hp] at hq
        obtain ⟨p2, hps2, rfl⟩ := List.mem_map.1 hq
        by_cases hid : (p2.ID == postID) = true
        · simp only [hid, if_true] at hqid ⊢
          rw [hf] at hqid
          have e : p2 = p := List.inj_on_of_nodup_map hk.nodup hps2 hps hqid
          have hfd : (f p2).Deleted = true := by
            rcases hflags p2 with ⟨h1, _⟩ | ⟨h1, _⟩
            · rw [h1, e]
              exact hd
            · exact h1
          exact ⟨hfd, hrowflags p2 hps2 (by simpa using hid) hfd⟩
        · simp only [hid, if_false, Bool.false_eq_true] at hqid ⊢
          have e : p2 = p := List.inj_on_of_nodup_map hk.nodup hps2 hps hqid
          rw [e]
          exact ⟨hd, hinv p hps hd⟩

theorem postKeys_empty : PostKeys emptyStore :=
  ⟨by simp [emptyStore], by simp [emptyStore]⟩

/-- In every store that the handlers build from the empty database the ids of
posts are a primary key and every deleted row is unpublished. -/
theorem reachable_deleted_unpublished {s : Store} (h : Reachable s) :
    PostKeys s ∧ DeletedUnpublished s := by
  unfold Reachable at h
  induction h with
  | refl => exact ⟨postKeys_empty, by simp [DeletedUnpublished, emptyStore]⟩
  | tail _ hstep ih =>
    have := flagsChange_preserves (step_flagsChange hstep) ih.1 ih.2
    exact ⟨this.2.1, this.1⟩

/-- C11: for a posts table with a primary key (distinct ids below the
auto-increment counter), if every deleted row is unpublished before a Create,
Update, Publish, Delete or Like, then every deleted row is unpublished after it
and the table still has its primary key; and every row that was deleted before
the call is still in the table after it, deleted and unpublished, so no call
publishes a soft-deleted post. -/
theorem deleted_implies_unpublished_is_preserved {s t : Store} (h : Step s t)
    (hk : PostKeys s) (hinv : DeletedUnpublished s) :
    DeletedUnpublished t ∧ PostKeys t ∧
    (∀ p ∈ s.posts, p.Deleted = true →
      (∃ q ∈ t.posts, q.ID = p.ID) ∧
      ∀ q ∈ t.posts, q.ID = p.ID → q.Deleted = true ∧ q.Published = false) :=
  flagsChange_preserves (step_flagsChange h) hk hinv

/-- C11 at the store in which post 1 was created published and then deleted,
for a Publish request with published=true on post 1. -/
theorem deleted_implies_unpublished_is_preserved_witness :
    (PostKeys deletedStore ∧ DeletedUnpublished deletedStore ∧
      ∃ p ∈ deletedStore.posts, p.ID = 1 ∧ p.Deleted = true) ∧
    DeletedUnpublished (Publish deletedStore 1700000300 7 (some 1) (some true)).store ∧
    PostKeys (Publish deletedStore 1700000300 7 (some 1) (some true)).store ∧
    (∀ p ∈ deletedStore.posts, p.Deleted = true →
      (∃ q ∈ (Publish deletedStore 1700000300 7 (some 1) (some true)).store.posts,
        q.ID = p.ID) ∧
      ∀ q ∈ (Publish deletedStore 1700000300 7 (some 1) (some true)).store.posts,
        q.ID = p.ID → q.Deleted = true ∧ q.Published = false) :=
  ⟨⟨⟨by decide, by decide⟩, by unfold DeletedUnpublished; decide, by decide⟩,
   deleted_implies_unpublished_is_preserved
     (Step.publish deletedStore 1700000300 7 (some 1) (some true))
     ⟨by decide, by decide⟩ (by unfold DeletedUnpublished; decide)⟩

theorem buildExclusive_of_single (params : Values) (only : List Char)
    (h : splitColon (if params.Get "date_range" != "" then params.Get "date_range"
      else ":").toList = [only]) :
    buildExclusivePostSearchForm params = none := by
  unfold buildExclusivePostSearchForm
  simp only []
  rw [h]

/-- C27: for every query-parameter set whose date_range is not empty and holds
no colon, buildExclusivePostSearchForm returns no form: the split of the date
range has one part and the read of its second part is out of range. -/
theorem date_range_without_colon_returns_no_form (params : Values)
    (hne : params.Get "date_range" ≠ "") (hc : ':' ∉ (params.Get "date_range").data) :
    buildExclusivePostSearchForm params = none := by
  apply buildExclusive_of_single params (params.Get "date_range").data
  have e : (if params.Get "date_range" != "" then params.Get "date_range" else ":")
      = params.Get "date_range" := by simp [hne]
  rw [e]
  exact splitColon_no_colon _ hc

/-- C27 at date_range=2018-12-01. -/
theorem date_range_without_colon_returns_no_form_witness :
    buildExclusivePostSearchForm (queryOf [("date_range", "2018-12-01")]) = none :=
  date_range_without_colon_returns_no_form (queryOf [("date_range", "2018-12-01")])
    (by decide) (by decide)

/-- C26: buildHomepageSearchForm returns sort relevance and published true for
every query-parameter set, limit 0 when the offset that buildBasePostSearchForm
resolves is positive and limit 10 when it is 0; for offset=300 and for
offset=10000 the resolved offset is 0, so the form has limit 10 and offset 0,
the first ten posts again, while offset=10 gives limit 0. -/
theorem homepage_form_repeats_first_page_beyond_255 :
    (∀ params : Values,
      (buildHomepageSearchForm params).sort = "relevance" ∧
      (buildHomepageSearchForm params).published = "true" ∧
      (buildHomepageSearchForm params).offset = (buildBasePostSearchForm params).offset ∧
      (buildHomepageSearchForm params).limit
        = (if 0 < (buildBasePostSearchForm params).offset then 0 else 10)) ∧
    (buildHomepageSearchForm (queryOf [("limit", "10"), ("offset", "300")])).limit = 10 ∧
    (buildHomepageSearchForm (queryOf [("limit", "10"), ("offset", "300")])).offset = 0 ∧
    (buildHomepageSearchForm (queryOf [("limit", "10"), ("offset", "10000")])).limit = 10 ∧
    (buildHomepageSearchForm (queryOf [("limit", "10"), ("offset", "10")])).limit = 0 ∧
    (buildHomepageSearchForm (queryOf [("limit", "10"), ("offset", "10")])).offset = 10 := by
  refine ⟨fun params => ⟨rfl, rfl, rfl, ?_⟩, by decide, by decide, by decide, by decide,
    by decide⟩
  simp [buildHomepageSearchForm]

/-! ## A tag url that url.Parse rejects (C23) -/

theorem insertTags_none_of_bad_url (parseTagURL : String → Option (Int × String)) (now : Time)
    (published : Bool) (postID imageID : Int) (tags : List PostTagRequest)
    (acc : Store × List PostTagRow)
    (h : ∃ tag ∈ tags, parseTagURL tag.URL = none) :
    insertTags parseTagURL now published postID imageID tags acc = none := by
  induction tags generalizing acc with
  | nil =>
    obtain ⟨tag, ht, _⟩ := h
    cases ht
  | cons t ts ih =>
    unfold insertTags
    cases hp : parseTagURL t.URL with
    | none => simp [insertTag, hp]
    | some ref =>
      obtain ⟨tag, ht, hbad⟩ := h
      rcases List.mem_cons.1 ht with e | e
      · rw [e, hp] at hbad
        cases hbad
      · cases h1 : insertTag parseTagURL now published postID imageID acc t with
        | none => rfl
        | some acc1 => exact ih acc1 ⟨tag, e, hbad⟩

theorem insertImages_none_of_bad_url (parseTagURL : String → Option (Int × String)) (now : Time)
    (published : Bool) (postID : Int) (images : List PostImageRequest) (pos : Int) (s : Store)
    (h : ∃ image ∈ images, ∃ tag ∈ image.Tags, parseTagURL tag.URL = none) :
    insertImages parseTagURL now published postID pos images s = none := by
  induction images generalizing pos s with
  | nil =>
    obtain ⟨image, hi, _⟩ := h
    cases hi
  | cons i is ih =>
    unfold insertImages
    cases h1 : insertImage parseTagURL now published postID s pos i with
    | none => rfl
    | some s1 =>
      obtain ⟨image, hi, tag, ht, hbad⟩ := h
      rcases List.mem_cons.1 hi with e | e
      · exfalso
        rw [e] at ht
        have hlen : i.Tags.length > 0 := List.length_pos_of_mem ht
        unfold insertImage at h1
        simp only [hlen, if_true] at h1
        rw [insertTags_none_of_bad_url parseTagURL now published postID _ i.Tags _
          ⟨tag, ht, hbad⟩] at h1
        cases h1
      · exact ih (pos + 1) s1 ⟨image, e, tag, ht, hbad⟩

/-- C23: when a request that isValid accepts holds a tag whose url the url
reader rejects (url.Parse fails), Create stops without an answer and leaves
the store as it was, and so does Update of a post that is present and not
deleted: the transaction is rolled back, no row of the request is stored and
nothing is committed. -/
theorem unparsable_tag_url_aborts (parseTagURL : String → Option (Int × String)) (s : Store)
    (now : Time) (userID : Nat) (pr : PostRequest) (hv : pr.isValid = true)
    (hbad : ∃ image ∈ pr.Images, ∃ tag ∈ image.Tags, parseTagURL tag.URL = none) :
    Create parseTagURL s now userID (some pr) = { store := s, response := Response.aborted } ∧
    ∀ (postID : Int) (post : PostEntity), findPost s postID = some post → post.Deleted = false →
      Update parseTagURL s now userID (some postID) (some pr)
        = { store := s, response := Response.aborted } :=
  ⟨Create_aborted userID hv (insertImages_none_of_bad_url _ _ _ _ _ _ _ hbad),
   fun _ _ hf hd =>
     Update_aborted userID hv hf hd (insertImages_none_of_bad_url _ _ _ _ _ _ _ hbad)⟩

/-- C23 at a request whose second tag has the url `://bad`, sent to Create on
the empty database and to Update of post 1 of the sample store. -/
theorem unparsable_tag_url_aborts_witness :
    badURLRequest.isValid = true ∧
    Create rejectBadURL emptyStore 1700000000 7 (some badURLRequest)
      = { store := emptyStore, response := Response.aborted } ∧
    Update rejectBadURL createdStore 1700000100 7 (some 1) (some badURLRequest)
      = { store := createdStore, response := Response.aborted } :=
  ⟨by decide,
   (unparsable_tag_url_aborts rejectBadURL emptyStore 1700000000 7 badURLRequest (by decide)
      (by decide)).1,
   (unparsable_tag_url_aborts rejectBadURL createdStore 1700000100 7 badURLRequest (by decide)
      (by decide)).2 1 ((findPost createdStore 1).getD zeroPostEntity) (by decide) (by decide)⟩

/-! ## The bulk ledger helpers and category id 0 (C24) -/

/-- C24: incrementCategoryCounts and decrementCategoryCounts apply one counter
update per tag of the post with the category id stored in the tag, the id 0 of
a tag without a category included.  After Create of a published post with one
tag of category (0, Misc) and one tag without a category the count of category
0 is 1; unpublishing the post runs the update for id 0 twice and leaves the
count at -1. -/
theorem bulk_helpers_update_category_zero :
    (∀ (now : Time) (s : Store) (post : PostEntity),
      (incrementCategoryCounts now s post).categories
        = (postCategoryIDs post).foldl (bumpCount now 1) s.categories ∧
      (decrementCategoryCounts now s post).categories
        = (postCategoryIDs post).foldl (bumpCount now (-1)) s.categories) ∧
    mixedTagRequest.isValid = true ∧
    (findPost mixedTagStore 1).map postCategoryIDs = some [0, 0] ∧
    categoryCount mixedTagStore 0 = 1 ∧
    (Publish mixedTagStore 1700000100 7 (some 1) (some false)).response
      = Response.publish 202 false ∧
    categoryCount (Publish mixedTagStore 1700000100 7 (some 1) (some false)).store 0 = -1 := by
  refine ⟨fun now s post => ⟨?_, ?_⟩, by decide, by decide, by decide, by decide, by decide⟩
  · rw [incrementCategoryCounts_eq]
  · rw [decrementCategoryCounts_eq]

/-! ## The change record of the history (C25) -/

theorem buildChanges_mem (phd : PostHistoryData) (e : String × String × String) :
    e ∈ buildChanges phd ↔ e ∈ trackedFields phd ∧ e.2.1 ≠ e.2.2 := by
  unfold buildChanges trackedFields
  simp only [List.mem_filter, List.mem_cons, List.mem_singleton, List.not_mem_nil, or_false,
    bne_iff_ne, ne_eq]
  tauto

theorem buildChanges_keys_nodup (phd : PostHistoryData) :
    ((buildChanges phd).map (fun e => e.1)).Nodup := by
  unfold buildChanges
  refine List.Nodup.sublist (List.Sublist.map _ (List.filter_sublist _)) ?_
  simp only [List.map_cons, List.map_nil]
  decide

theorem buildChanges_congr (phd phd2 : PostHistoryData) (hw : phd2.Was = phd.Was)
    (hn : phd2.Now = phd.Now) : buildChanges phd2 = buildChanges phd := by
  unfold buildChanges
  rw [hw, hn]

/-- C25: an entry (key, old, new) is in the object that buildChanges returns
exactly when it is one of the nine tracked fields (title, description,
influencer_name, published, deleted, first_published_at, last_published_at,
created_at, updated_at) with its rendered old and new value and the two values
differ; no key occurs twice; the object is empty exactly when none of the nine
differ; and addPostLogHistory, having read the post as the Now snapshot, leaves
the store as it was when the object is empty and otherwise appends one history
row that holds the object. -/
theorem buildChanges_lists_changed_fields (phd : PostHistoryData) :
    (trackedFields phd).map (fun e => e.1)
      = ["title", "description", "influencer_name", "published", "deleted",
         "first_published_at", "last_published_at", "created_at", "updated_at"] ∧
    (∀ e : String × String × String,
      e ∈ buildChanges phd ↔ e ∈ trackedFields phd ∧ e.2.1 ≠ e.2.2) ∧
    ((buildChanges phd).map (fun e => e.1)).Nodup ∧
    (buildChanges phd = [] ↔ ∀ e ∈ trackedFields phd, e.2.1 = e.2.2) ∧
    (∀ (s : Store) (now : Time) (userID : Nat), findPost s phd.PostID = some phd.Now →
      (buildChanges phd = [] → addPostLogHistory s now userID phd.PostID phd.Was = s) ∧
      (buildChanges phd ≠ [] →
        addPostLogHistory s now userID phd.PostID phd.Was
          = { s with action_log_histories := s.action_log_histories ++
                [{ RecordID := phd.PostID, RecordType := "posts", Changes := buildChanges phd,
                   ActorID := Int.ofNat userID, CreatedAt := now }] })) := by
  refine ⟨rfl, buildChanges_mem phd, buildChanges_keys_nodup phd, ?_, ?_⟩
  · constructor
    · intro h e he
      by_contra hne
      have : e ∈ buildChanges phd := (buildChanges_mem phd e).2 ⟨he, hne⟩
      rw [h] at this
      cases this
    · intro h
      apply List.eq_nil_iff_forall_not_mem.2
      intro e he
      obtain ⟨h1, h2⟩ := (buildChanges_mem phd e).1 he
      exact h2 (h e h1)
  · intro s now userID hf
    have hc : buildChanges ⟨phd.PostID, Int.ofNat userID, phd.Was, phd.Now⟩ = buildChanges phd :=
      buildChanges_congr phd _ rfl rfl
    constructor
    · intro he
      unfold addPostLogHistory
      simp only [hf, hc, he, List.isEmpty_nil, if_true]
    · intro hne
      have hemp : (buildChanges phd).isEmpty = false := by
        cases hb : buildChanges phd with
        | nil => exact absurd hb hne
        | cons _ _ => rfl
      unfold addPostLogHistory
      simp only [hf, hc, hemp, Bool.false_eq_true, if_false]

/-- C25 at the record of a call that left post 1 of the sample store as it
was: no entry and no history row. -/
theorem buildChanges_lists_changed_fields_witness :
    buildChanges unchangedRecord = [] ∧
    addPostLogHistory createdStore 1700000100 7 1 unchangedRecord.Was = createdStore :=
  ⟨by decide,
   ((buildChanges_lists_changed_fields unchangedRecord).2.2.2.2 createdStore 1700000100 7
      (by decide)).1 (by decide)⟩

/-! ## Publish with the flag the post already has (C30) -/

theorem map_row_publishedTimeline {s t : Store} (hk : PostKeys s) (hinv : PublishedTimeline s)
    {postID : Int} {row : PostEntity} {f : PostEntity → PostEntity}
    (hrow : postRow s postID = some row)
    (hposts : t.posts = s.posts.map (fun p => if p.ID == postID then f p else p))
    (htl : (f row).Published = true → (f row).LastPublishedAt ≠ none) :
    PublishedTimeline t := by
  intro q hq
  rw [hposts] at hq
  obtain ⟨p, hps, rfl⟩ := List.mem_map.1 hq
  by_cases hid : (p.ID == postID) = true
  · simp only [hid, if_true]
    have e : p = row := List.inj_on_of_nodup_map hk.nodup hps (postRow_mem hrow).1
      ((by simpa using hid : p.ID = postID).trans (postRow_mem hrow).2.symm)
    rw [e]
    exact htl
  · simp only [hid, if_false, Bool.false_eq_true]
    exact hinv p hps

theorem step_publishedTimeline {s t : Store} (h : Step s t) (hk : PostKeys s)
    (hinv : PublishedTimeline s) : PublishedTimeline t := by
  cases h with
  | create parseTagURL _ now userID body =>
    rcases Create_cases parseTagURL s now userID body with h | ⟨pr, committed, _, hv, hc, hs⟩
    · rw [h]; exact hinv
    · have spec := insertImages_spec pr.Images (isValid_url hv) hc
      have hrow := createPostRow_fields now (findOrCreateInfluencer now s pr.InfluencerName).1
        (findOrCreateInfluencer now s pr.InfluencerName).2 pr
      intro q hq
      rw [hs, addPostLogHistory_posts, spec.posts, createStatements_posts] at hq
      rcases List.mem_append.1 hq with h1 | h1
      · exact hinv q h1
      · rw [List.mem_singleton.1 h1]
        exact hrow.2.2.2
  | update parseTagURL _ now userID id body =>
    rcases Update_cases parseTagURL s now userID id body with
      h | ⟨postID, pr, post, committed, _, _, hv, hf, hd, hc, hs⟩
    · rw [h]; exact hinv
    · have spec := insertImages_spec pr.Images (isValid_url hv) hc
      obtain ⟨row, hrow, hlast, _, hpub, _⟩ := findPost_row hf
      refine map_row_publishedTimeline hk hinv hrow
        (f := updateRow post pr (findOrCreateInfluencer now s pr.InfluencerName).2 now) ?_ ?_
      · rw [hs, addPostLogHistory_posts, spec.posts, updateStatements_posts]
      · have h7 := hinv row (postRow_mem hrow).1
        rw [hlast, hpub] at h7
        intro hp
        unfold updateRow updateTimeline at hp ⊢
        cases hl : post.LastPublishedAt <;> cases hpr : pr.Published <;>
          cases hpp : post.Published <;> simp_all
  | publish _ now userID id body =>
    rcases Publish_cases s now userID id body with
      h | ⟨postID, post, published, _, _, hf, hd, hs⟩
    · rw [h]; exact hinv
    · obtain ⟨row, hrow, hlast, _, hpub, _⟩ := findPost_row hf
      refine map_row_publishedTimeline hk hinv hrow (f := publishRow post published now) ?_ ?_
      · rw [hs, addPostLogHistory_posts, publishStatements_posts]
      · have h7 := hinv row (postRow_mem hrow).1
        rw [hlast, hpub] at h7
        intro hp
        unfold publishRow at hp ⊢
        cases hl : post.LastPublishedAt <;> cases published <;> cases hpp : post.Published <;>
          simp_all
  | delete _ now userID id =>
    rcases Delete_cases s now userID id with h | ⟨postID, post, _, hf, hd, hs⟩
    · rw [h]; exact hinv
    · obtain ⟨row, hrow, _⟩ := findPost_row hf
      refine map_row_publishedTimeline hk hinv hrow (f := deleteRow now) ?_ ?_
      · rw [hs, addPostLogHistory_posts, deleteStatements_posts]
      · intro hp
        cases hp
  | like _ userID id =>
    rcases Like_cases s userID id with h | ⟨postID, row, _, hrow, hs⟩
    · rw [h]; exact hinv
    · refine map_row_publishedTimeline hk hinv hrow
        (f := fun p => { p with LikeCount := p.LikeCount + likeFactor (findLike s postID userID) })
        ?_ ?_
      · rw [hs, likeStatements_posts]
      · exact hinv row (postRow_mem hrow).1

/-- In every store that the handlers build from the empty database a published
row has a last publish instant, and the ids of posts are a primary key. -/
theorem reachable_publishedTimeline {s : Store} (h : Reachable s) :
    PostKeys s ∧ PublishedTimeline s := by
  unfold Reachable at h
  induction h with
  | refl => exact ⟨postKeys_empty, by simp [PublishedTimeline, emptyStore]⟩
  | tail hsteps hstep ih =>
    have hd := reachable_deleted_unpublished hsteps
    exact ⟨(flagsChange_preserves (step_flagsChange hstep) ih.1 hd.2).2.1,
      step_publishedTimeline hstep ih.1 ih.2⟩

theorem buildChanges_same (postID actorID : Int) (post : PostEntity) :
    buildChanges ⟨postID, actorID, post, post⟩ = [] := by
  simp [buildChanges]

theorem addPostLogHistory_same {s : Store} {postID : Int} {post : PostEntity} (now : Time)
    (userID : Nat) (hf : findPost s postID = some post) :
    addPostLogHistory s now userID postID post = s := by
  unfold addPostLogHistory
  simp only [hf, buildChanges_same, List.isEmpty_nil, if_true]

theorem publishRow_same {post row : PostEntity} (now : Time)
    (hlast : row.LastPublishedAt = post.LastPublishedAt) (hpub : row.Published = post.Published)
    (htl : row.Published = true → row.LastPublishedAt ≠ none) :
    publishRow post post.Published now row = row := by
  unfold publishRow
  rw [hlast, hpub] at htl
  cases hl : post.LastPublishedAt with
  | none =>
    cases hpp : post.Published with
    | true => exact absurd hl (htl hpp)
    | false =>
      simp only [Bool.false_eq_true, if_false]
      rw [← hpp, ← hpub]
  | some last =>
    cases hpp : post.Published with
    | true =>
      simp only [if_true, Bool.not_true, Bool.false_eq_true, if_false]
      rw [← hpp, ← hpub]
    | false =>
      simp only [Bool.false_eq_true, if_false]
      rw [← hpp, ← hpub]

theorem publishLedger_same (now : Time) (s : Store) {post : PostEntity}
    (htl : post.Published = true → post.LastPublishedAt ≠ none) :
    publishLedger now s post post.Published = s := by
  unfold publishLedger
  cases hl : post.LastPublishedAt with
  | none =>
    cases hpp : post.Published with
    | true => exact absurd hl (htl hpp)
    | false => simp
  | some last => cases hpp : post.Published <;> simp

/-- C30: in every store that the handlers build from the empty database, a
Publish request on a post that is present and not deleted, with the published
flag that the post already has, is answered 202 and leaves the whole store as
it was: no category count changes, the row of the post keeps its
first_published_at and last_published_at, and no history row is written. -/
theorem publish_with_current_flag_changes_nothing {s : Store} (hr : Reachable s) (now : Time)
    (userID : Nat) (postID : Int) (post : PostEntity) (hf : findPost s postID = some post)
    (hd : post.Deleted = false) :
    Publish s now userID (some postID) (some post.Published)
      = { store := s, response := Response.publish 202 post.Published } ∧
    (∀ c : Int,
      categoryCount (Publish s now userID (some postID) (some post.Published)).store c
        = categoryCount s c) ∧
    findPost (Publish s now userID (some postID) (some post.Published)).store postID
      = some post := by
  obtain ⟨hk, hinv⟩ := reachable_publishedTimeline hr
  obtain ⟨row, hrow, hlast, _, hpub, _⟩ := findPost_row hf
  have h7 := hinv row (postRow_mem hrow).1
  have hposts : s.posts.map (fun p =>
      if p.ID == postID then publishRow post post.Published now p else p) = s.posts := by
    conv_rhs => rw [← List.map_id s.posts]
    apply List.map_congr_left
    intro p hp
    by_cases hid : (p.ID == postID) = true
    · simp only [hid, if_true, id]
      have e : p = row := List.inj_on_of_nodup_map hk.nodup hp (postRow_mem hrow).1
        ((by simpa using hid : p.ID = postID).trans (postRow_mem hrow).2.symm)
      rw [e]
      exact publishRow_same now hlast hpub h7
    · simp only [hid, if_false, Bool.false_eq_true, id]
  have hst : publishStatements now s postID post post.Published = s := by
    unfold publishStatements
    rw [publishLedger_same now s (by rw [← hlast, ← hpub]; exact h7), hposts]
  have hmain : Publish s now userID (some postID) (some post.Published)
      = { store := s, response := Response.publish 202 post.Published } := by
    simp only [Publish, hf, hd, Bool.false_eq_true, if_false, hst,
      addPostLogHistory_same now userID hf]
  refine ⟨hmain, ?_, ?_⟩
  · intro c
    rw [hmain]
  · rw [hmain]
    exact hf

/-- C30 at the sample store, whose post 1 is published: a second Publish with
published=true. -/
theorem publish_with_current_flag_changes_nothing_witness :
    Reachable createdStore ∧
    ((findPost createdStore 1).getD zeroPostEntity).Published = true ∧
    Publish createdStore 1700000500 7 (some 1) (some true)
      = { store := createdStore, response := Response.publish 202 true } ∧
    categoryCount (Publish createdStore 1700000500 7 (some 1) (some true)).store 32
      = categoryCount createdStore 32 :=
  ⟨Steps.tail (Steps.refl _) (Step.create plainURL emptyStore 1700000000 7 (some (sampleRequest true))),
   by decide,
   (publish_with_current_flag_changes_nothing
      (Steps.tail (Steps.refl _)
        (Step.create plainURL emptyStore 1700000000 7 (some (sampleRequest true))))
      1700000500 7 1 ((findPost createdStore 1).getD zeroPostEntity) (by decide) (by decide)).1,
   (publish_with_current_flag_changes_nothing
      (Steps.tail (Steps.refl _)
        (Step.create plainURL emptyStore 1700000000 7 (some (sampleRequest true))))
      1700000500 7 1 ((findPost createdStore 1).getD zeroPostEntity) (by decide)
      (by decide)).2.1 32⟩

/-! ## The like counter and the like rows (C29) -/

theorem map_flip_of_no_key (postID : Int) (userID : Nat) (b : Bool) (l : List PostLikeRow)
    (h : l.countP (fun r => r.PostID == postID && r.BukalapakUserID == userID) = 0) :
    l.map (fun r =>
      if r.PostID == postID && r.BukalapakUserID == userID then { r with Liked := !b } else r)
      = l := by
  rw [List.countP_eq_zero] at h
  conv_rhs => rw [← List.map_id l]
  apply List.map_congr_left
  intro r hr
  have := h r hr
  simp only [Bool.not_eq_true] at this
  simp only [this, Bool.false_eq_true, if_false, id]

theorem countP_liked_flip (postID : Int) (userID : Nat) (l : List PostLikeRow) (r : PostLikeRow)
    (hfind : l.find? (fun r => r.PostID == postID && r.BukalapakUserID == userID) = some r)
    (hle : l.countP (fun r => r.PostID == postID && r.BukalapakUserID == userID) ≤ 1) :
    (((l.map (fun x =>
        if x.PostID == postID && x.BukalapakUserID == userID then { x with Liked := !r.Liked }
        else x)).countP (fun x => x.PostID == postID && x.Liked) : Nat) : Int)
      = (l.countP (fun x => x.PostID == postID && x.Liked) : Nat) + (if r.Liked then -1 else 1) := by
  induction l with
  | nil => simp at hfind
  | cons x xs ih =>
    by_cases hx : (x.PostID == postID && x.BukalapakUserID == userID) = true
    · rw [List.find?_cons, hx] at hfind
      simp only [Option.some.injEq] at hfind
      rw [List.countP_cons, hx] at hle
      simp only [if_true] at hle
      have h0 : xs.countP (fun r => r.PostID == postID && r.BukalapakUserID == userID) = 0 := by
        omega
      rw [List.map_cons, map_flip_of_no_key postID userID r.Liked xs h0]
      simp only [hx, if_true, List.countP_cons]
      have hp : (x.PostID == postID) = true := by
        simp only [Bool.and_eq_true] at hx
        exact hx.1
      rw [← hfind]
      cases hl : x.Liked <;> simp [hp, hl]
    · simp only [Bool.not_eq_true] at hx
      rw [List.find?_cons, hx] at hfind
      rw [List.countP_cons, hx] at hle
      simp only [Bool.false_eq_true, if_false, Nat.add_zero] at hle
      have := ih hfind hle
      rw [List.map_cons]
      simp only [hx, Bool.false_eq_true, if_false, List.countP_cons]
      push_cast
      rw [this]
      ring

theorem countP_key_of_find_none (postID : Int) (userID : Nat) (l : List PostLikeRow)
    (h : l.find? (fun r => r.PostID == postID && r.BukalapakUserID == userID) = none) :
    l.countP (fun r => r.PostID == postID && r.BukalapakUserID == userID) = 0 := by
  rw [List.countP_eq_zero]
  intro r hr
  rw [List.find?_eq_none] at h
  exact h r hr

theorem countP_map_flip_key (postID : Int) (userID : Nat) (b : Bool) (l : List PostLikeRow)
    (p : Int) (u : Nat) :
    (l.map (fun x =>
        if x.PostID == postID && x.BukalapakUserID == userID then { x with Liked := !b }
        else x)).countP (fun r => r.PostID == p && r.BukalapakUserID == u)
      = l.countP (fun r => r.PostID == p && r.BukalapakUserID == u) := by
  rw [List.countP_map]
  apply List.countP_congr
  intro x _
  simp only [Function.comp]
  split <;> rfl

theorem countP_map_flip_other (postID : Int) (userID : Nat) (b : Bool) (l : List PostLikeRow)
    (other : Int) (h : other ≠ postID) :
    (l.map (fun x =>
        if x.PostID == postID && x.BukalapakUserID == userID then { x with Liked := !b }
        else x)).countP (fun r => r.PostID == other && r.Liked)
      = l.countP (fun r => r.PostID == other && r.Liked) := by
  rw [List.countP_map]
  apply List.countP_congr
  intro x _
  simp only [Function.comp]
  by_cases hx : (x.PostID == postID && x.BukalapakUserID == userID) = true
  · have hp : x.PostID = postID := by
      simp only [Bool.and_eq_true, beq_iff_eq] at hx
      exact hx.1
    have hne : (x.PostID == other) = false := by
      rw [hp]
      exact beq_false_of_ne (Ne.symm h)
    simp [hx, hne]
  · simp only [Bool.not_eq_true] at hx
    simp [hx]

/-- C29: in a store with at most one like row per post and user, if the counter
of a post equals the number of its like rows with liked=true, then a Like call
on that post by any user is answered 202 and afterwards the counter of the post
again equals the number of its like rows with liked=true; the store still has
at most one like row per post and user, and the row and the like rows of every
other post are as before. -/
theorem like_keeps_count_equal_to_liked_rows (s : Store) (userID : Nat) (postID : Int)
    (row : PostEntity) (hk : LikeKeys s) (hrow : postRow s postID = some row)
    (hc : row.LikeCount = (likedCount s postID : Int)) :
    (∃ l, (Like s userID (some postID)).response = Response.like 202 l) ∧
    LikeKeys (Like s userID (some postID)).store ∧
    (∃ after, postRow (Like s userID (some postID)).store postID = some after ∧
      after.LikeCount = (likedCount (Like s userID (some postID)).store postID : Int)) ∧
    (∀ other : Int, other ≠ postID →
      postRow (Like s userID (some postID)).store other = postRow s other ∧
      likedCount (Like s userID (some postID)).store other = likedCount s other) := by
  have h1 := Like_present userID hrow
  have hposts := likeStatements_posts s postID userID (findLike s postID userID)
  have hrow1 : postRow (Like s userID (some postID)).store postID
      = some { row with LikeCount := row.LikeCount + likeFactor (findLike s postID userID) } := by
    rw [h1, postRow_bump s _ postID _ hposts, hrow]; rfl
  have hother : ∀ other : Int, other ≠ postID →
      postRow (Like s userID (some postID)).store other = postRow s other := by
    intro other hne
    rw [h1]
    exact postRow_map_other
      (f := fun p => { p with LikeCount := p.LikeCount + likeFactor (findLike s postID userID) })
      (fun _ => rfl) hposts hne
  refine ⟨⟨_, by rw [h1]⟩, ?_⟩
  have hlikes : (Like s userID (some postID)).store.post_likes
      = (writeLike s postID userID (findLike s postID userID)).post_likes := by
    rw [h1]; rfl
  cases hp : (findLike s postID userID).Present with
  | false =>
    have hnone := findLike_absent hp
    have hw : (Like s userID (some postID)).store.post_likes
        = s.post_likes ++ [{ PostID := postID, BukalapakUserID := userID, Liked := true }] := by
      rw [hlikes]
      unfold writeLike
      simp only [hp, Bool.not_false, if_true]
    have hfac : likeFactor (findLike s postID userID) = 1 := by
      unfold likeFactor
      simp [hp]
    refine ⟨?_, ⟨_, hrow1, ?_⟩, ?_⟩
    · intro p u
      rw [hw, List.countP_append]
      by_cases hpu : (p == postID && u == userID) = true
      · have e : p = postID ∧ u = userID := by simpa using hpu
        rw [e.1, e.2, countP_key_of_find_none postID userID _ hnone]
        simp
      · have hk1 := hk p u
        have : ¬ (postID = p ∧ userID = u) := by
          intro e
          apply hpu
          simp [e.1, e.2]
        simp only [List.countP_cons, List.countP_nil, beq_iff_eq, Bool.and_eq_true, this,
          if_false]
        omega
    · show row.LikeCount + likeFactor (findLike s postID userID) = _
      unfold likedCount
      rw [hw, List.countP_append, hfac, hc]
      unfold likedCount
      simp
    · intro other hne
      refine ⟨hother other hne, ?_⟩
      unfold likedCount
      rw [hw, List.countP_append]
      have : ¬ postID = other := fun e => hne e.symm
      simp [this]
  | true =>
    obtain ⟨r, hr, hrl⟩ := findLike_present
      (show findLike s postID userID
        = { Present := true, Liked := (findLike s postID userID).Liked } by
          have e : findLike s postID userID
              = { Present := (findLike s postID userID).Present,
                  Liked := (findLike s postID userID).Liked } := rfl
          rw [hp] at e
          exact e)
    have hw : (Like s userID (some postID)).store.post_likes
        = s.post_likes.map (fun x =>
            if x.PostID == postID && x.BukalapakUserID == userID then { x with Liked := !r.Liked }
            else x) := by
      rw [hlikes]
      unfold writeLike
      simp only [hp, Bool.not_true, Bool.false_eq_true, if_false, hrl]
    have hfac : likeFactor (findLike s postID userID) = if r.Liked then -1 else 1 := by
      unfold likeFactor
      simp [hp, hrl]
    refine ⟨?_, ⟨_, hrow1, ?_⟩, ?_⟩
    · intro p u
      rw [hw, countP_map_flip_key]
      exact hk p u
    · show row.LikeCount + likeFactor (findLike s postID userID) = _
      unfold likedCount
      rw [hw, countP_liked_flip postID userID s.post_likes r hr (hk postID userID), hfac, hc]
      rfl
    · intro other hne
      refine ⟨hother other hne, ?_⟩
      unfold likedCount
      rw [hw, countP_map_flip_other postID userID _ _ other hne]

/-- C29 at the sample store: user 7 likes post 1, which had no like row, and
then takes the like back. -/
theorem like_keeps_count_equal_to_liked_rows_witness :
    (likedCount likedStore 1 = 1 ∧
      (postRow likedStore 1).map (fun p => p.LikeCount) = some 1) ∧
    (∃ after, postRow (Like likedStore 7 (some 1)).store 1 = some after ∧
      after.LikeCount = (likedCount (Like likedStore 7 (some 1)).store 1 : Int)) ∧
    likedCount (Like likedStore 7 (some 1)).store 1 = 0 :=
  ⟨⟨by decide, by decide⟩,
   (like_keeps_count_equal_to_liked_rows likedStore 7 1
      ((postRow likedStore 1).getD zeroPostEntity)
      (like_keeps_count_equal_to_liked_rows createdStore 7 1 createdPost
        (by
          intro p u
          rw [show createdStore.post_likes = [] from by decide]
          exact Nat.zero_le _)
        (by decide) (by decide)).2.1
      (by decide) (by decide)).2.2.1,
   by decide⟩

/-! ## What the exclusive search form lets through (C28) -/

theorem isDigit_value (c : Char) (h : c.isDigit = true) : c.toNat - 48 ≤ 9 := by
  unfold Char.isDigit at h
  simp only [Bool.and_eq_true, decide_eq_true_eq] at h
  obtain ⟨_, h2⟩ := h
  have h2n : c.val.toNat ≤ 57 := h2
  show c.val.toNat - 48 ≤ 9
  omega

theorem parseDay_some (part : List Char) (y m d : Nat) (h : parseDay part = some (y, m, d)) :
    y < 10000 ∧ 1 ≤ m ∧ m ≤ 12 ∧ 1 ≤ d ∧ d ≤ daysIn y m := by
  unfold parseDay at h
  split at h
  · rename_i y1 y2 y3 y4 s1 m1 m2 s2 d1 d2
    split at h
    · rename_i hdig
      simp only [Bool.and_eq_true] at hdig
      obtain ⟨⟨⟨⟨⟨⟨⟨⟨⟨a1, a2⟩, a3⟩, a4⟩, _⟩, _⟩, _⟩, _⟩, _⟩, _⟩ := hdig
      have b1 := isDigit_value y1 a1
      have b2 := isDigit_value y2 a2
      have b3 := isDigit_value y3 a3
      have b4 := isDigit_value y4 a4
      simp only [] at h
      split at h
      · cases h
      · split at h
        · cases h
        · rename_i hm hd
          simp only [Option.some.injEq, Prod.mk.injEq] at h
          obtain ⟨hy, hmm, hdd⟩ := h
          simp only [Bool.or_eq_true, decide_eq_true_eq, not_or, not_lt] at hm hd
          rw [hy, hmm] at hd
          rw [hmm] at hm
          rw [hdd] at hd
          refine ⟨by omega, by omega, by omega, by omega, by omega⟩
    · cases h
  · cases h

theorem dateBound_of_parse (part : List Char) (y m d : Nat) (secondOfDay : Nat)
    (h : parseDay part = some (y, m, d)) :
    dateBound part secondOfDay = formatDatabase (utcFromPlus7 y m d secondOfDay) := by
  have hne : part.isEmpty = false := by
    cases part with
    | nil => simp [parseDay] at h
    | cons _ _ => rfl
  unfold dateBound
  rw [hne, h]
  simp

theorem isDatabaseDatetime_of_dateText (y m d : Nat) (clock : String) (hy : y < 10000)
    (hm : m < 100) (hd : d < 100) (hc : clock = " 17:00:00" ∨ clock = " 16:59:59") :
    isDatabaseDatetime (dateText y m d ++ clock) = true := by
  obtain ⟨a1, _, _⟩ := digitChar_isDigit (y / 1000) (by omega)
  obtain ⟨b1, _, _⟩ := digitChar_isDigit (y / 100 % 10) (by omega)
  obtain ⟨c1, _, _⟩ := digitChar_isDigit (y / 10 % 10) (by omega)
  obtain ⟨e1, _, _⟩ := digitChar_isDigit (y % 10) (by omega)
  obtain ⟨f1, _, _⟩ := digitChar_isDigit (m / 10) (by omega)
  obtain ⟨g1, _, _⟩ := digitChar_isDigit (m % 10) (by omega)
  obtain ⟨i1, _, _⟩ := digitChar_isDigit (d / 10) (by omega)
  obtain ⟨j1, _, _⟩ := digitChar_isDigit (d % 10) (by omega)
  unfold isDatabaseDatetime
  simp only [String.toList, String.data_append]
  rw [dateText_data y m d hy hm hd]
  rcases hc with rfl | rfl
  · simp only [List.cons_append, List.nil_append, a1, b1, c1, e1, f1, g1, i1, j1]
    decide
  · simp only [List.cons_append, List.nil_append, a1, b1, c1, e1, f1, g1, i1, j1]
    decide

theorem isDatabaseDatetime_no_quote (text : String) (h : isDatabaseDatetime text = true) :
    ∀ c ∈ text.data, c.isDigit = true ∨ c = '-' ∨ c = ' ' ∨ c = ':' := by
  unfold isDatabaseDatetime at h
  simp only [String.toList] at h
  split at h
  · rename_i heq
    rw [heq]
    simp only [Bool.and_eq_true, beq_iff_eq] at h
    intro c hc
    simp only [List.mem_cons, List.mem_singleton, List.not_mem_nil, or_false] at hc
    rcases hc with rfl | rfl | rfl | rfl | rfl | rfl | rfl | rfl | rfl | rfl | rfl | rfl | rfl |
      rfl | rfl | rfl | rfl | rfl | rfl <;> simp_all
  · cases h

theorem dateBound_shape_start (part : List Char) :
    dateBound part 0 = "" ∨ isDatabaseDatetime (dateBound part 0) = true ∨
    dateBound part 0 = "-0001-12-31 17:00:00" := by
  cases hp : parseDay part with
  | none => exact Or.inl (dateBound_malformed part 0 (Or.inr hp))
  | some ymd =>
    obtain ⟨y, m, d⟩ := ymd
    obtain ⟨hy, hm1, hm2, hd1, hd2⟩ := parseDay_some part y m d hp
    have hd3 := daysIn_le y m
    have hd4 := daysIn_le y (m - 1)
    have e : dateBound part 0 = dateBound (dateText y m d).data 0 := by
      rw [dateBound_of_parse part y m d 0 hp,
        dateBound_of_parse _ y m d 0 (parseDay_dateText y m d hy hm1 hm2 hd1 hd2)]
    rw [e, dateBound_start y m d hy hm1 hm2 hd1 hd2]
    by_cases h1 : 1 < d
    · rw [if_pos h1]
      exact Or.inr (Or.inl (isDatabaseDatetime_of_dateText y m (d - 1) _ hy (by omega) (by omega)
        (Or.inl rfl)))
    · rw [if_neg h1]
      by_cases h2 : 1 < m
      · rw [if_pos h2]
        exact Or.inr (Or.inl (isDatabaseDatetime_of_dateText y (m - 1) _ _ hy (by omega)
          (by omega) (Or.inl rfl)))
      · rw [if_neg h2]
        by_cases h3 : 1 ≤ y
        · rw [if_pos h3]
          exact Or.inr (Or.inl (isDatabaseDatetime_of_dateText (y - 1) 12 31 _ (by omega)
            (by omega) (by omega) (Or.inl rfl)))
        · rw [if_neg h3]
          exact Or.inr (Or.inr rfl)

theorem dateBound_shape_finish (part : List Char) :
    dateBound part 86399 = "" ∨ isDatabaseDatetime (dateBound part 86399) = true := by
  cases hp : parseDay part with
  | none => exact Or.inl (dateBound_malformed part 86399 (Or.inr hp))
  | some ymd =>
    obtain ⟨y, m, d⟩ := ymd
    obtain ⟨hy, hm1, hm2, hd1, hd2⟩ := parseDay_some part y m d hp
    have hd3 := daysIn_le y m
    have e : dateBound part 86399 = dateBound (dateText y m d).data 86399 := by
      rw [dateBound_of_parse part y m d 86399 hp,
        dateBound_of_parse _ y m d 86399 (parseDay_dateText y m d hy hm1 hm2 hd1 hd2)]
    rw [e, dateBound_finish y m d hy hm1 hm2 hd1 hd2]
    exact Or.inr (isDatabaseDatetime_of_dateText y m d _ hy (by omega) (by omega) (Or.inr rfl))

theorem isInSliceString_iff (v : String) (slice : List String) :
    isInSliceString v slice = true ↔ v ∈ slice := by
  induction slice with
  | nil => simp [isInSliceString]
  | cons s rest ih =>
    unfold isInSliceString
    by_cases h : v = s
    · simp [h]
    · simp [h, ih]

theorem quote_not_in_shape (text : String)
    (h : text = "" ∨ isDatabaseDatetime text = true ∨ text = "-0001-12-31 17:00:00") :
    quoteChar ∉ text.data := by
  rcases h with h | h | h
  · rw [h]
    decide
  · intro hq
    have := isDatabaseDatetime_no_quote text h quoteChar hq
    revert this
    decide
  · rw [h]
    decide

/-- C28, counterexample: for date_range=0000-01-01: the form is returned with
the start bound -0001-12-31 17:00:00, the day before in the year before 0000,
which is neither empty nor of the form YYYY-MM-DD HH:MM:SS. -/
theorem start_bound_before_year_zero :
    (buildExclusivePostSearchForm (queryOf [("date_range", "0000-01-01:")])).map
        (fun form => form.startDate) = some "-0001-12-31 17:00:00" ∧
    isDatabaseDatetime "-0001-12-31 17:00:00" = false ∧
    isDatabaseDatetime "2018-11-30 17:00:00" = true := by
  decide

/-- C28, amended: when buildExclusivePostSearchForm returns a form (date_range
empty or with a colon), its keywords hold ASCII letters, digits and blanks
only, published is empty, 1, 0, true or false, dateRangeBy is empty,
first_published_at, updated_at or created_at, the start bound is empty, of the
form YYYY-MM-DD HH:MM:SS or the text -0001-12-31 17:00:00, the finish bound is
empty or of the form YYYY-MM-DD HH:MM:SS, no influencer and no filter is set,
and none of the five texts holds a single quote. -/
theorem exclusive_form_lets_no_quote_through (params : Values)
    (h : params.Get "date_range" = "" ∨ ':' ∈ (params.Get "date_range").toList) :
    ∃ form : PostSearchForm, buildExclusivePostSearchForm params = some form ∧
      (∀ c ∈ form.keywords.data, c.isAlphanum = true ∨ c = ' ') ∧
      form.published ∈ ["", "1", "0", "true", "false"] ∧
      form.dateRangeBy ∈ ["", "first_published_at", "updated_at", "created_at"] ∧
      (form.startDate = "" ∨ isDatabaseDatetime form.startDate = true ∨
        form.startDate = "-0001-12-31 17:00:00") ∧
      (form.finishDate = "" ∨ isDatabaseDatetime form.finishDate = true) ∧
      form.influencerID = 0 ∧ form.filtered = false ∧
      quoteChar ∉ form.keywords.data ∧ quoteChar ∉ form.published.data ∧
      quoteChar ∉ form.dateRangeBy.data ∧ quoteChar ∉ form.startDate.data ∧
      quoteChar ∉ form.finishDate.data := by
  obtain ⟨first, second, rest, hs⟩ := buildExclusive_returns params h
  have hkey : ∀ c ∈ (keepNameChars (params.Get "keywords")).data,
      c.isAlphanum = true ∨ c = ' ' := by
    intro c hc
    unfold keepNameChars at hc
    have := (List.mem_filter.1 hc).2
    unfold isNameChar at this
    simpa using this
  have hpub : (if !isInSliceString (params.Get "published") availablePublishedValues then ""
      else params.Get "published") ∈ ["", "1", "0", "true", "false"] := by
    by_cases hin : isInSliceString (params.Get "published") availablePublishedValues = true
    · have hmem := (isInSliceString_iff _ _).1 hin
      simp only [hin, Bool.not_true, Bool.false_eq_true, if_false]
      unfold availablePublishedValues at hmem
      exact List.mem_cons_of_mem _ hmem
    · simp only [Bool.not_eq_true] at hin
      simp [hin]
  have hcol : dateRangeColumn (params.Get "date_range_by")
      ∈ ["", "first_published_at", "updated_at", "created_at"] := by
    unfold dateRangeColumn
    repeat' split
    all_goals simp
  have hstart := dateBound_shape_start first
  have hfinish := dateBound_shape_finish second
  refine ⟨_, buildExclusive_of_split params first second rest hs, hkey, hpub, hcol, hstart,
    hfinish, rfl, rfl, ?_, ?_, ?_, quote_not_in_shape _ hstart,
    quote_not_in_shape _ (hfinish.imp id Or.inl)⟩
  · intro hq
    have := hkey quoteChar hq
    revert this
    decide
  · show quoteChar ∉ (if !isInSliceString (params.Get "published") availablePublishedValues
      then "" else params.Get "published").data
    have := hpub
    simp only [List.mem_cons, List.mem_singleton, List.not_mem_nil, or_false] at this
    rcases this with e | e | e | e | e <;> rw [e] <;> decide
  · show quoteChar ∉ (dateRangeColumn (params.Get "date_range_by")).data
    have := hcol
    simp only [List.mem_cons, List.mem_singleton, List.not_mem_nil, or_false] at this
    rcases this with e | e | e | e <;> rw [e] <;> decide

/-- C28 amended, at a request whose keywords, published flag and date column
carry quotes and whose date range is the one of the tests. -/
theorem exclusive_form_lets_no_quote_through_witness :
    (buildExclusivePostSearchForm (queryOf [("keywords", "a' OR '1'='1"),
        ("published", "1' OR '1'='1"), ("date_range", "2018-12-01:2018-12-03"),
        ("date_range_by", "created_at' OR 1")])).map buildWhereQuery
      = some ("WHERE deleted=false AND influencer_name LIKE '%a OR 11%' ") ∧
    ∃ form : PostSearchForm,
      buildExclusivePostSearchForm (queryOf [("keywords", "a' OR '1'='1"),
        ("published", "1' OR '1'='1"), ("date_range", "2018-12-01:2018-12-03"),
        ("date_range_by", "created_at' OR 1")]) = some form ∧
      quoteChar ∉ form.keywords.data ∧ quoteChar ∉ form.startDate.data :=
  ⟨by decide,
   (exclusive_form_lets_no_quote_through (queryOf [("keywords", "a' OR '1'='1"),
        ("published", "1' OR '1'='1"), ("date_range", "2018-12-01:2018-12-03"),
        ("date_range_by", "created_at' OR 1")]) (Or.inr (by decide))).imp
      (fun _ hf => ⟨hf.1, hf.2.2.2.2.2.2.2.2.1, hf.2.2.2.2.2.2.2.2.2.2.2.1⟩)⟩

/-! ## The normal form of influencer names (C21, C22) -/

theorem isUpper_range (c : Char) : c.isUpper = true ↔ 65 ≤ c.toNat ∧ c.toNat ≤ 90 := by
  unfold Char.isUpper
  simp only [Bool.and_eq_true, decide_eq_true_eq]
  exact Iff.rfl

theorem isLower_range (c : Char) : c.isLower = true ↔ 97 ≤ c.toNat ∧ c.toNat ≤ 122 := by
  unfold Char.isLower
  simp only [Bool.and_eq_true, decide_eq_true_eq]
  exact Iff.rfl

theorem toLower_of_not_upper (c : Char) (h : c.isUpper = false) : c.toLower = c := by
  have : ¬ (65 ≤ c.toNat ∧ c.toNat ≤ 90) := by
    rw [← isUpper_range]; simp [h]
  unfold Char.toLower
  simp only [ge_iff_le, this, if_false]

theorem toUpper_of_not_lower (c : Char) (h : c.isLower = false) : c.toUpper = c := by
  have : ¬ (97 ≤ c.toNat ∧ c.toNat ≤ 122) := by
    rw [← isLower_range]; simp [h]
  unfold Char.toUpper
  simp only [ge_iff_le, this, if_false]

theorem upper_letter_facts (n : Nat) (h1 : 65 ≤ n) (h2 : n ≤ 90) :
    (Char.ofNat n).toLower.isUpper = false ∧
    (Char.ofNat n).toLower.toLower = (Char.ofNat n).toLower ∧
    isNameChar (Char.ofNat n).toLower = isNameChar (Char.ofNat n) ∧
    (Char.ofNat n).toLower ≠ ' ' ∧ Char.ofNat n ≠ ' ' := by
  interval_cases n <;> decide

theorem lower_letter_facts (n : Nat) (h1 : 97 ≤ n) (h2 : n ≤ 122) :
    (Char.ofNat n).toUpper.isAlphanum = true ∧ (Char.ofNat n).toUpper.isLower = false := by
  interval_cases n <;> decide

theorem toLower_facts (c : Char) :
    c.toLower.isUpper = false ∧ c.toLower.toLower = c.toLower ∧
    isNameChar c.toLower = isNameChar c ∧ (c.toLower = ' ' ↔ c = ' ') := by
  cases hu : c.isUpper with
  | false =>
    rw [toLower_of_not_upper c hu]
    exact ⟨hu, toLower_of_not_upper c hu, rfl, Iff.rfl⟩
  | true =>
    have hr := (isUpper_range c).1 hu
    have h := upper_letter_facts c.toNat hr.1 hr.2
    rw [Char.ofNat_toNat] at h
    exact ⟨h.1, h.2.1, h.2.2.1, ⟨fun e => absurd e h.2.2.2.1, fun e => absurd e h.2.2.2.2⟩⟩

theorem toUpper_facts (c : Char) (ha : c.isAlphanum = true) :
    c.toUpper.isAlphanum = true ∧ c.toUpper.isLower = false := by
  cases hl : c.isLower with
  | false =>
    rw [toUpper_of_not_lower c hl]
    exact ⟨ha, hl⟩
  | true =>
    have hr := (isLower_range c).1 hl
    have h := lower_letter_facts c.toNat hr.1 hr.2
    rw [Char.ofNat_toNat] at h
    exact h

theorem isAlphanum_of_nameChar (c : Char) (h : isNameChar c = true) (hb : c ≠ ' ') :
    c.isAlphanum = true := by
  unfold isNameChar at h
  simpa [hb] using h

theorem nameChar_of_isAlphanum (c : Char) (h : c.isAlphanum = true) :
    isNameChar c = true ∧ c ≠ ' ' ∧ c ≠ '-' := by
  refine ⟨by simp [isNameChar, h], ?_, ?_⟩
  · intro e
    rw [e] at h
    revert h
    decide
  · intro e
    rw [e] at h
    revert h
    decide

theorem normalize_eq (name : String) :
    normalizeInfluencerName name
      = String.mk (titleAux ' ' (List.intercalate [' '] (fieldsAux (lowerKept name.data) []))) :=
  rfl

theorem intercalate_eq_joinWords (ws : List (List Char)) :
    List.intercalate [' '] ws = joinWords ws := by
  induction ws with
  | nil => rfl
  | cons w rest ih =>
    cases rest with
    | nil => simp [List.intercalate, joinWords]
    | cons v rest =>
      have : List.intercalate [' '] (w :: v :: rest)
          = w ++ ' ' :: List.intercalate [' '] (v :: rest) := by
        simp [List.intercalate, List.intersperse]
      rw [this, ih]
      rfl

theorem fieldsAux_spec (l cur : List Char) (hcur : ∀ c ∈ cur, c ≠ ' ') :
    ∀ f ∈ fieldsAux l cur, f ≠ [] ∧ ∀ c ∈ f, c ≠ ' ' ∧ (c ∈ l ∨ c ∈ cur) := by
  induction l generalizing cur with
  | nil =>
    intro f hf
    unfold fieldsAux at hf
    cases cur with
    | nil => simp at hf
    | cons x xs =>
      simp only [List.isEmpty_cons, Bool.false_eq_true, if_false, List.mem_singleton] at hf
      rw [hf]
      refine ⟨by simp, ?_⟩
      intro c hc
      have hc2 : c ∈ x :: xs := List.mem_reverse.1 hc
      exact ⟨hcur c hc2, Or.inr hc2⟩
  | cons a as ih =>
    intro f hf
    unfold fieldsAux at hf
    by_cases ha : a = ' '
    · simp only [ha, beq_self_eq_true, if_true] at hf
      cases cur with
      | nil =>
        simp only [List.isEmpty_nil, if_true] at hf
        obtain ⟨h1, h2⟩ := ih [] (by simp) f hf
        refine ⟨h1, fun c hc => ?_⟩
        obtain ⟨h3, h4⟩ := h2 c hc
        rcases h4 with h4 | h4
        · exact ⟨h3, Or.inl (List.mem_cons_of_mem _ h4)⟩
        · cases h4
      | cons x xs =>
        simp only [List.isEmpty_cons, Bool.false_eq_true, if_false, List.mem_cons] at hf
        rcases hf with hf | hf
        · rw [hf]
          refine ⟨by simp, ?_⟩
          intro c hc
          have hc2 : c ∈ x :: xs := List.mem_reverse.1 hc
          exact ⟨hcur c hc2, Or.inr hc2⟩
        · obtain ⟨h1, h2⟩ := ih [] (by simp) f hf
          refine ⟨h1, fun c hc => ?_⟩
          obtain ⟨h3, h4⟩ := h2 c hc
          rcases h4 with h4 | h4
          · exact ⟨h3, Or.inl (List.mem_cons_of_mem _ h4)⟩
          · cases h4
    · have hb : (a == ' ') = false := beq_false_of_ne ha
      simp only [hb, Bool.false_eq_true, if_false] at hf
      have hcur2 : ∀ c ∈ a :: cur, c ≠ ' ' := by
        intro c hc
        rcases List.mem_cons.1 hc with e | e
        · rw [e]; exact ha
        · exact hcur c e
      obtain ⟨h1, h2⟩ := ih (a :: cur) hcur2 f hf
      refine ⟨h1, fun c hc => ?_⟩
      obtain ⟨h3, h4⟩ := h2 c hc
      rcases h4 with h4 | h4
      · exact ⟨h3, Or.inl (List.mem_cons_of_mem _ h4)⟩
      · rcases List.mem_cons.1 h4 with e | e
        · exact ⟨h3, Or.inl (by rw [e]; exact List.mem_cons_self _ _)⟩
        · exact ⟨h3, Or.inr e⟩

theorem titleAux_word (prev : Char) (w rest : List Char) (hp : prev ≠ ' ')
    (hw : ∀ c ∈ w, c ≠ ' ') :
    titleAux prev w = w ∧ titleAux prev (w ++ ' ' :: rest) = w ++ ' ' :: titleAux ' ' rest := by
  induction w generalizing prev with
  | nil =>
    have hb : (prev == ' ') = false := beq_false_of_ne hp
    simp [titleAux, hb]
  | cons c cs ih =>
    have hb : (prev == ' ') = false := beq_false_of_ne hp
    have hc : c ≠ ' ' := hw c (List.mem_cons_self _ _)
    have hcs : ∀ x ∈ cs, x ≠ ' ' := fun x hx => hw x (List.mem_cons_of_mem _ hx)
    obtain ⟨h1, h2⟩ := ih c hc hcs
    constructor
    · simp [titleAux, hb, h1]
    · simp [titleAux, hb, h2]

theorem titleAux_joinWords (ws : List (List Char))
    (hws : ∀ w ∈ ws, w ≠ [] ∧ ∀ c ∈ w, c ≠ ' ') :
    titleAux ' ' (joinWords ws) = joinWords (ws.map capitalize) := by
  induction ws with
  | nil => rfl
  | cons w rest ih =>
    obtain ⟨hne, hw⟩ := hws w (List.mem_cons_self _ _)
    have hrest : ∀ v ∈ rest, v ≠ [] ∧ ∀ c ∈ v, c ≠ ' ' :=
      fun v hv => hws v (List.mem_cons_of_mem _ hv)
    cases w with
    | nil => exact absurd rfl hne
    | cons c cs =>
      have hc : c ≠ ' ' := hw c (List.mem_cons_self _ _)
      have hcs : ∀ x ∈ cs, x ≠ ' ' := fun x hx => hw x (List.mem_cons_of_mem _ hx)
      cases rest with
      | nil =>
        have h1 := (titleAux_word c cs [] hc hcs).1
        simp [joinWords, capitalize, titleAux, h1]
      | cons v rest =>
        have h2 := (titleAux_word c cs (joinWords (v :: rest)) hc hcs).2
        have ih2 := ih hrest
        show titleAux ' ' (c :: (cs ++ ' ' :: joinWords (v :: rest)))
          = c.toUpper :: (cs ++ ' ' :: joinWords ((v :: rest).map capitalize))
        rw [titleAux]
        simp only [beq_self_eq_true, if_true]
        rw [h2, ih2]

theorem mem_lowerKept (l : List Char) (c : Char) (h : c ∈ lowerKept l) :
    isNameChar c = true ∧ c.isUpper = false := by
  unfold lowerKept at h
  obtain ⟨x, hx, rfl⟩ := List.mem_map.1 h
  have hn := (List.mem_filter.1 hx).2
  have hf := toLower_facts x
  exact ⟨by rw [hf.2.2.1]; exact hn, hf.1⟩

theorem lowerKept_append (a b : List Char) : lowerKept (a ++ b) = lowerKept a ++ lowerKept b := by
  simp [lowerKept]

theorem lowerKept_blank (a : List Char) : lowerKept (' ' :: a) = ' ' :: lowerKept a := by
  have h1 : isNameChar ' ' = true := by decide
  have h2 : Char.toLower ' ' = ' ' := by decide
  simp [lowerKept, List.filter_cons, h1, h2]

theorem lowerKept_other (a : List Char) (c : Char) (h : isNameChar c = false) :
    lowerKept (c :: a) = lowerKept a := by
  simp [lowerKept, List.filter_cons, h]

theorem lowerKept_letterCase (a : List Char) (c d : Char) (h : c.toLower = d.toLower) :
    lowerKept (c :: a) = lowerKept (d :: a) := by
  have hn : isNameChar c = isNameChar d := by
    rw [← (toLower_facts c).2.2.1, ← (toLower_facts d).2.2.1, h]
  cases hd : isNameChar d with
  | false =>
    rw [lowerKept_other a d hd, lowerKept_other a c (hn.trans hd)]
  | true =>
    have hc : isNameChar c = true := hn.trans hd
    simp [lowerKept, List.filter_cons, hc, hd, h]

theorem fieldsAux_trailing (l cur : List Char) :
    fieldsAux (l ++ [' ']) cur = fieldsAux l cur := by
  induction l generalizing cur with
  | nil =>
    cases cur <;> simp [fieldsAux]
  | cons a as ih =>
    simp only [List.cons_append, fieldsAux, List.append_eq, ih]

theorem fieldsAux_repeated (a b cur : List Char) :
    fieldsAux (a ++ ' ' :: ' ' :: b) cur = fieldsAux (a ++ ' ' :: b) cur := by
  induction a generalizing cur with
  | nil =>
    cases cur <;> simp [fieldsAux]
  | cons x xs ih =>
    simp only [List.cons_append, fieldsAux, List.append_eq, ih]

theorem nameEdit_fields {a b : List Char} (h : NameEdit a b) :
    fieldsAux (lowerKept a) [] = fieldsAux (lowerKept b) [] := by
  cases h with
  | letterCase a b c d hcd =>
    rw [lowerKept_append, lowerKept_append, lowerKept_letterCase b c d hcd]
  | otherChar a b c hc =>
    rw [lowerKept_append, lowerKept_append, lowerKept_other b c hc]
  | leadingBlank a =>
    rw [lowerKept_blank]
    simp [fieldsAux]
  | trailingBlank a =>
    rw [lowerKept_append, lowerKept_blank]
    exact fieldsAux_trailing _ _
  | repeatedBlank a b =>
    simp only [lowerKept_append, lowerKept_blank]
    exact fieldsAux_repeated _ _ _

theorem normalize_of_fields (a b : String)
    (h : fieldsAux (lowerKept a.data) [] = fieldsAux (lowerKept b.data) []) :
    normalizeInfluencerName a = normalizeInfluencerName b := by
  rw [normalize_eq, normalize_eq, h]

theorem eqvGen_fields {a b : List Char} (h : Relation.EqvGen NameEdit a b) :
    fieldsAux (lowerKept a) [] = fieldsAux (lowerKept b) [] := by
  induction h with
  | rel _ _ h => exact nameEdit_fields h
  | refl _ => rfl
  | symm _ _ _ ih => exact ih.symm
  | trans _ _ _ _ _ ih1 ih2 => exact ih1.trans ih2

theorem normalize_data_words (name : String) :
    (normalizeInfluencerName name).data
      = joinWords ((fieldsAux (lowerKept name.data) []).map capitalize) := by
  rw [normalize_eq]
  show titleAux ' ' (List.intercalate [' '] (fieldsAux (lowerKept name.data) [])) = _
  rw [intercalate_eq_joinWords]
  apply titleAux_joinWords
  intro w hw
  obtain ⟨h1, h2⟩ := fieldsAux_spec _ [] (by simp) w hw
  exact ⟨h1, fun c hc => (h2 c hc).1⟩

theorem normalize_words (name : String) :
    ∀ w ∈ (fieldsAux (lowerKept name.data) []).map capitalize,
      ∃ first rest, w = first :: rest ∧ first.isAlphanum = true ∧ first.isLower = false ∧
        ∀ c ∈ rest, c.isAlphanum = true ∧ c.isUpper = false := by
  intro w hw
  obtain ⟨f, hf, rfl⟩ := List.mem_map.1 hw
  obtain ⟨h1, h2⟩ := fieldsAux_spec _ [] (by simp) f hf
  have hchar : ∀ c ∈ f, c.isAlphanum = true ∧ c.isUpper = false := by
    intro c hc
    obtain ⟨hb, hm⟩ := h2 c hc
    rcases hm with hm | hm
    · obtain ⟨hn, hu⟩ := mem_lowerKept _ c hm
      exact ⟨isAlphanum_of_nameChar c hn hb, hu⟩
    · cases hm
  cases f with
  | nil => exact absurd rfl h1
  | cons c cs =>
    have hc := hchar c (List.mem_cons_self _ _)
    have hu := toUpper_facts c hc.1
    exact ⟨c.toUpper, cs, rfl, hu.1, hu.2, fun x hx => hchar x (List.mem_cons_of_mem _ hx)⟩

theorem joinWords_mem (ws : List (List Char)) (c : Char) (h : c ∈ joinWords ws) :
    c = ' ' ∨ ∃ w ∈ ws, c ∈ w := by
  induction ws with
  | nil => cases h
  | cons w rest ih =>
    cases rest with
    | nil => exact Or.inr ⟨w, List.mem_cons_self _ _, h⟩
    | cons v rest =>
      simp only [joinWords, List.mem_append, List.mem_cons] at h
      rcases h with h | h | h
      · exact Or.inr ⟨w, List.mem_cons_self _ _, h⟩
      · exact Or.inl h
      · rcases ih h with e | ⟨u, hu, hc⟩
        · exact Or.inl e
        · exact Or.inr ⟨u, List.mem_cons_of_mem _ hu, hc⟩

theorem joinWords_head (ws : List (List Char)) (h : ∀ w ∈ ws, w ≠ [] ∧ ∀ c ∈ w, c ≠ ' ') :
    (joinWords ws).head? ≠ some ' ' := by
  cases ws with
  | nil => simp [joinWords]
  | cons w rest =>
    obtain ⟨hne, hw⟩ := h w (List.mem_cons_self _ _)
    cases w with
    | nil => exact absurd rfl hne
    | cons c cs =>
      have hc : c ≠ ' ' := hw c (List.mem_cons_self _ _)
      cases rest <;> simp [joinWords, hc]

theorem joinWords_getLast (ws : List (List Char)) (h : ∀ w ∈ ws, w ≠ [] ∧ ∀ c ∈ w, c ≠ ' ') :
    (joinWords ws).getLast? ≠ some ' ' := by
  induction ws with
  | nil => simp [joinWords]
  | cons w rest ih =>
    obtain ⟨hne, hw⟩ := h w (List.mem_cons_self _ _)
    cases rest with
    | nil =>
      intro e
      have hm : ' ' ∈ w := List.mem_of_getLast?_eq_some e
      exact hw ' ' hm rfl
    | cons v rest =>
      have ih2 := ih (fun u hu => h u (List.mem_cons_of_mem _ hu))
      have hv := (h v (List.mem_cons_of_mem _ (List.mem_cons_self _ _))).1
      have hj : joinWords (v :: rest) ≠ [] := by
        cases v with
        | nil => exact absurd rfl hv
        | cons x xs => cases rest <;> simp [joinWords]
      intro e
      apply ih2
      have e2 : (w ++ ' ' :: joinWords (v :: rest)).getLast? = some ' ' := e
      rw [List.getLast?_append_of_ne_nil _ (by simp)] at e2
      cases hjw : joinWords (v :: rest) with
      | nil => exact absurd hjw hj
      | cons x xs =>
        rw [hjw, List.getLast?_cons_cons] at e2
        exact e2

/-- C21: for every text, the characters of normalizeInfluencerName are words
joined by single blanks, each word not empty and made of ASCII letters and
digits, with a first character that is not a lower-case letter and no
upper-case letter after it; so every character is a letter, a digit or a blank
and the name neither starts nor ends with a blank.  Two texts that are linked
by a chain of differences in the case of a letter, in a character that is not
a letter, digit or blank, in a blank at the start or the end, or in a blank
next to a blank, have the same normal form; the two texts of the tests both
give Random Name. -/
theorem normal_form_of_influencer_names (name : String) :
    (∃ words : List (List Char),
      (normalizeInfluencerName name).data = List.intercalate [' '] words ∧
      ∀ w ∈ words, ∃ first rest, w = first :: rest ∧
        first.isAlphanum = true ∧ first.isLower = false ∧
        ∀ c ∈ rest, c.isAlphanum = true ∧ c.isUpper = false) ∧
    (∀ c ∈ (normalizeInfluencerName name).data, c.isAlphanum = true ∨ c = ' ') ∧
    (normalizeInfluencerName name).data.head? ≠ some ' ' ∧
    (normalizeInfluencerName name).data.getLast? ≠ some ' ' ∧
    (∀ other : String, Relation.EqvGen NameEdit name.data other.data →
      normalizeInfluencerName name = normalizeInfluencerName other) ∧
    normalizeInfluencerName "  random  nAme. " = "Random Name" ∧
    normalizeInfluencerName "Random Name" = "Random Name" := by
  have hdata := normalize_data_words name
  have hwords := normalize_words name
  have hplain : ∀ w ∈ (fieldsAux (lowerKept name.data) []).map capitalize,
      w ≠ [] ∧ ∀ c ∈ w, c.isAlphanum = true := by
    intro w hw
    obtain ⟨first, rest, rfl, h1, _, h3⟩ := hwords w hw
    refine ⟨by simp, fun c hc => ?_⟩
    rcases List.mem_cons.1 hc with e | e
    · rw [e]; exact h1
    · exact (h3 c e).1
  have hblank : ∀ w ∈ (fieldsAux (lowerKept name.data) []).map capitalize,
      w ≠ [] ∧ ∀ c ∈ w, c ≠ ' ' :=
    fun w hw => ⟨(hplain w hw).1, fun c hc => (nameChar_of_isAlphanum c ((hplain w hw).2 c hc)).2.1⟩
  refine ⟨⟨_, by rw [intercalate_eq_joinWords]; exact hdata, hwords⟩, ?_, ?_, ?_, ?_,
    by decide, by decide⟩
  · intro c hc
    rw [hdata] at hc
    rcases joinWords_mem _ c hc with e | ⟨w, hw, hcw⟩
    · exact Or.inr e
    · exact Or.inl ((hplain w hw).2 c hcw)
  · rw [hdata]
    exact joinWords_head _ hblank
  · rw [hdata]
    exact joinWords_getLast _ hblank
  · intro other h
    exact normalize_of_fields name other (eqvGen_fields h)

/-- C21 at the text Random Al-Name of the tests and the same text without the
dash. -/
theorem normal_form_of_influencer_names_witness :
    normalizeInfluencerName "Random Al-Name" = normalizeInfluencerName "Random AlName" ∧
    normalizeInfluencerName "Random Al-Name" = "Random Alname" :=
  ⟨(normal_form_of_influencer_names "Random Al-Name").2.2.2.2.1 "Random AlName"
      (Relation.EqvGen.rel _ _ (NameEdit.otherChar "Random Al".data "Name".data '-' (by decide))),
   by decide⟩

theorem dash_blank_round (c : Char) (h : isNameChar c = true) :
    (fun x : Char => if x == '-' then ' ' else x)
      ((fun x : Char => if x == ' ' then '-' else x) c.toLower) = c.toLower := by
  by_cases hb : c = ' '
  · rw [hb]
    decide
  · have hf := toLower_facts c
    have hlb : c.toLower ≠ ' ' := fun e => hb (hf.2.2.2.1 e)
    have hn : isNameChar c.toLower = true := by rw [hf.2.2.1]; exact h
    have hd : c.toLower ≠ '-' :=
      (nameChar_of_isAlphanum _ (isAlphanum_of_nameChar _ hn hlb)).2.2
    simp [hlb, hd]

theorem lowerKept_map_toLower (l : List Char) : lowerKept (l.map Char.toLower) = lowerKept l := by
  induction l with
  | nil => rfl
  | cons c cs ih =>
    have hf := toLower_facts c
    have e : lowerKept (Char.toLower c :: cs.map Char.toLower)
        = lowerKept ([Char.toLower c] ++ cs.map Char.toLower) := rfl
    have e2 : lowerKept (c :: cs) = lowerKept ([c] ++ cs) := rfl
    rw [List.map_cons, e, e2, lowerKept_append, lowerKept_append, ih]
    congr 1
    cases hn : isNameChar c with
    | false =>
      have hn2 : isNameChar c.toLower = false := by rw [hf.2.2.1]; exact hn
      simp [lowerKept, List.filter_cons, hn, hn2]
    | true =>
      have hn2 : isNameChar c.toLower = true := by rw [hf.2.2.1]; exact hn
      simp [lowerKept, List.filter_cons, hn, hn2, hf.2.1]

/-- C22: for every name in normal form, the name got back from the username of
the name is the name itself; the names and usernames of the tests are the
examples. -/
theorem username_resolves_back_to_name (n : String) (h : n = normalizeInfluencerName n) :
    getInfluencerNameFromUsername (getInfluencerUsernameFromName n) = n ∧
    getInfluencerUsernameFromName "Random Al Name" = "random-al-name" ∧
    getInfluencerNameFromUsername "random-al-name-" = "Random Al Name" := by
  refine ⟨?_, by decide, by decide⟩
  have hchars : ∀ c ∈ n.data, isNameChar c = true := by
    intro c hc
    rw [h] at hc
    rw [normalize_data_words] at hc
    rcases joinWords_mem _ c hc with e | ⟨w, hw, hcw⟩
    · rw [e]
      decide
    · obtain ⟨first, rest, rfl, h1, _, h3⟩ := normalize_words n w hw
      rcases List.mem_cons.1 hcw with e | e
      · rw [e]
        exact (nameChar_of_isAlphanum _ h1).1
      · exact (nameChar_of_isAlphanum _ (h3 c e).1).1
  have hround : ((n.data.map Char.toLower).map (fun c => if c == ' ' then '-' else c)).map
      (fun c => if c == '-' then ' ' else c) = n.data.map Char.toLower := by
    rw [List.map_map, List.map_map]
    apply List.map_congr_left
    intro c hc
    exact dash_blank_round c (hchars c hc)
  have hstep : getInfluencerNameFromUsername (getInfluencerUsernameFromName n)
      = normalizeInfluencerName (String.mk (n.data.map Char.toLower)) := by
    unfold getInfluencerNameFromUsername getInfluencerUsernameFromName
    show normalizeInfluencerName (String.mk
      (((n.data.map Char.toLower).map (fun c => if c == ' ' then '-' else c)).map
        (fun c => if c == '-' then ' ' else c))) = _
    rw [hround]
  rw [hstep, normalize_of_fields (String.mk (n.data.map Char.toLower)) n
    (by rw [show (String.mk (n.data.map Char.toLower)).data = n.data.map Char.toLower from rfl,
          lowerKept_map_toLower])]
  exact h.symm

/-- C22 at the name Random Al Name. -/
theorem username_resolves_back_to_name_witness :
    getInfluencerNameFromUsername (getInfluencerUsernameFromName "Random Al Name")
      = "Random Al Name" :=
  (username_resolves_back_to_name "Random Al Name" (by decide)).1

/-! ## A date range without a colon (C16, C17) -/

theorem dateText_no_colon (y m d : Nat) (hy : y < 10000) (hm : m < 100) (hd : d < 100) :
    ':' ∉ (dateText y m d).data := by
  rw [dateText_data y m d hy hm hd]
  have a := (digitChar_isDigit (y / 1000) (by omega)).2.2
  have b := (digitChar_isDigit (y / 100 % 10) (by omega)).2.2
  have c := (digitChar_isDigit (y / 10 % 10) (by omega)).2.2
  have e := (digitChar_isDigit (y % 10) (by omega)).2.2
  have f := (digitChar_isDigit (m / 10) (by omega)).2.2
  have g := (digitChar_isDigit (m % 10) (by omega)).2.2
  have i := (digitChar_isDigit (d / 10) (by omega)).2.2
  have j := (digitChar_isDigit (d % 10) (by omega)).2.2
  simp [Ne.symm a, Ne.symm b, Ne.symm c, Ne.symm e, Ne.symm f, Ne.symm g, Ne.symm i, Ne.symm j]

theorem buildExclusive_of_no_colon (params : Values) (hne : params.Get "date_range" ≠ "")
    (hc : ':' ∉ (params.Get "date_range").data) :
    buildExclusivePostSearchForm params = none := by
  apply buildExclusive_of_single params (params.Get "date_range").data
  have e : (if params.Get "date_range" != "" then params.Get "date_range" else ":")
      = params.Get "date_range" := by simp [hne]
  rw [e]
  exact splitColon_no_colon _ hc

/-- C16: for every valid calendar date D = YYYY-MM-DD given as date_range by
itself, a start bound with no colon and no finish bound after it,
buildExclusivePostSearchForm returns no form: the read of the second part of
the split is out of range, so the start bound is not set to the day before D
at 17:00:00 and the missing finish bound is not given the empty text. -/
theorem start_date_alone_returns_no_form (params : Values) (y m d : Nat) (hy : y < 10000)
    (hm : 1 ≤ m ∧ m ≤ 12) (hd : 1 ≤ d ∧ d ≤ daysIn y m)
    (h : params.Get "date_range" = dateText y m d) :
    buildExclusivePostSearchForm params = none := by
  have hd3 := daysIn_le y m
  have hd2 := hd.2
  have hm2 := hm.2
  apply buildExclusive_of_no_colon
  · rw [h]
    intro e
    have := congrArg String.data e
    rw [dateText_data y m d hy (by omega) (by omega)] at this
    cases this
  · rw [h]
    exact dateText_no_colon y m d hy (by omega) (by omega)

/-- C16 at date_range=2018-12-01, next to date_range=2018-12-01: with its
colon, where the form is returned with the start bound 2018-11-30 17:00:00 and
the empty finish bound, and to date_range=0000-01-01: whose start bound is
-0001-12-31 17:00:00. -/
theorem start_date_alone_returns_no_form_witness :
    buildExclusivePostSearchForm (queryOf [("date_range", "2018-12-01")]) = none ∧
    (buildExclusivePostSearchForm (queryOf [("date_range", "2018-12-01:")])).map
        (fun form => (form.startDate, form.finishDate)) = some ("2018-11-30 17:00:00", "") ∧
    (buildExclusivePostSearchForm (queryOf [("date_range", "0000-01-01:")])).map
        (fun form => (form.startDate, form.finishDate)) = some ("-0001-12-31 17:00:00", "") :=
  ⟨start_date_alone_returns_no_form (queryOf [("date_range", "2018-12-01")]) 2018 12 1
      (by decide) (by decide) (by decide) (by decide),
   by decide, by decide⟩

/-- C17: with date_range=2018-12-01, a date range without a colon,
buildExclusivePostSearchForm returns no form whatever date_range_by is, so
published_at, modified_at and created_at are mapped to no column; with
date_range=2018-12-01: and its colon, published_at is mapped to
first_published_at. -/
theorem date_column_is_lost_without_colon (column : String) :
    buildExclusivePostSearchForm
        (queryOf [("date_range", "2018-12-01"), ("date_range_by", column)]) = none ∧
    buildExclusivePostSearchForm
        (queryOf [("date_range", "2018-12-01"), ("date_range_by", "published_at")]) = none ∧
    (buildExclusivePostSearchForm
        (queryOf [("date_range", "2018-12-01:"), ("date_range_by", "published_at")])).map
      (fun form => form.dateRangeBy) = some "first_published_at" := by
  have hget : (queryOf [("date_range", "2018-12-01"), ("date_range_by", column)]).Get "date_range"
      = "2018-12-01" := by
    simp [queryOf, Values.Get, List.filter]
  refine ⟨?_, by decide, by decide⟩
  apply buildExclusive_of_no_colon
  · rw [hget]
    decide
  · rw [hget]
    decide

end JenkinsJr
